import Mathlib

/-!
# coffeeshop: product mutation handlers and their task queue

A shallow embedding of `pkg/server/products.go`, `internal/shared.go` and the
collaborators these call.  Go strings and byte slices that the handlers only copy,
concatenate, split and compare are Lean strings; `float64` values, on which the
handlers do no arithmetic, are rationals; instants of `time.Time` are natural numbers.
Every source of nondeterminism (clock, random bytes, object ids, library parsers,
failures of the database and of the queue backend) is an explicit input.
-/

namespace Coffeeshop

/-! ## Go values and standard-library functions -/

abbrev Byte := Fin 256

abbrev Time := Nat

/-- Go `error` values that reach the handlers, by dynamic type.  `plain` stands for
every error type that neither unwraps nor is looked for by the handlers
(`errors.New`, `fmt.Errorf` without `%w`, `*strconv.NumError`, reader errors,
`primitive.ErrInvalidHex`, queue errors); `wrap` is `fmt.Errorf` with `%w`;
`writeException` lists the `Code` of each entry of `WriteErrors`;
`validationErrors` lists the failing fields, `[]` being the nil slice; `skipRetry` is
the sentinel `asynq.SkipRetry`; `commandError` is `mongo.CommandError` with its code,
the error of a `findAndModify` the server refuses; `deadlineExceeded` is
`context.DeadlineExceeded`, which a database call returns when the context of the
request is done. -/
inductive GoError where
  | plain (msg : String)
  | wrap (msg : String) (inner : GoError)
  | errNoDocuments
  | writeException (codes : List Int)
  | validationErrors (fields : List String)
  | skipRetry
  | commandError (code : Int)
  | deadlineExceeded
  deriving DecidableEq, Repr

/-- The three ways a Go call ends: a value, an error value, or a run-time panic. -/
inductive Res (α : Type) where
  | ok (a : α)
  | error (e : GoError)
  | panic
  deriving DecidableEq, Repr

/-- Go `errors.As(err, &mongo.WriteException{})`: some error of the chain is a
`mongo.WriteException`. -/
def errorsAsWriteException : GoError → Bool
  | .writeException _ => true
  | .wrap _ inner => errorsAsWriteException inner
  | _ => false

/-- Go `errors.Is(err, mongo.ErrNoDocuments)`: the sentinel occurs in the chain. -/
def errorsIsNoDocuments : GoError → Bool
  | .errNoDocuments => true
  | .wrap _ inner => errorsIsNoDocuments inner
  | _ => false

/-- Go `errors.Is(err, &json.SyntaxError{})`: the target is a pointer allocated at the
call, so no error of any chain is equal to it. -/
def errorsIsFreshSyntaxError (_ : GoError) : Bool := false

/-- Go `errors.Is(err, context.DeadlineExceeded)`. -/
def errorsIsDeadlineExceeded : GoError → Bool
  | .deadlineExceeded => true
  | .wrap _ inner => errorsIsDeadlineExceeded inner
  | _ => false

/-- A Go `float64`: a finite number, or one of the values `NaN`, `+Inf` and `-Inf`,
which `strconv.ParseFloat` returns for the texts `NaN`, `Inf` and `-Inf` and which
`encoding/json` refuses to encode. -/
inductive Float64 where
  | finite (x : Rat)
  | nan
  | posInf
  | negInf
  deriving DecidableEq

instance {n : Nat} : OfNat Float64 n := ⟨.finite (OfNat.ofNat n)⟩

/-- Whether the value is a number `encoding/json` encodes. -/
def Float64.isFinite : Float64 → Bool
  | .finite _ => true
  | _ => false

/-- Go `x > 0` on a `float64`: false for `NaN`, true for `+Inf`. -/
def Float64.positive : Float64 → Bool
  | .finite x => decide (0 < x)
  | .posInf => true
  | _ => false

namespace strings

/-- Pieces of a character list between occurrences of `sep`. -/
def splitChars (sep : Char) : List Char → List (List Char)
  | [] => [[]]
  | c :: cs =>
    if c = sep then [] :: splitChars sep cs
    else
      match splitChars sep cs with
      | [] => [[c]]
      | w :: ws => (c :: w) :: ws

/-- Go `strings.Split(s, sep)` for a one-character separator. -/
def Split (s : String) (sep : Char) : List String :=
  (splitChars sep s.toList).map String.mk

end strings

/-- The type part of a MIME content type: the text before its first slash. -/
def mediaType (contentType : String) : String :=
  String.mk (contentType.toList.takeWhile (fun c => c ≠ '/'))

/-- One lowercase hexadecimal digit. -/
def hexDigit (n : Nat) : Char :=
  if n < 10 then Char.ofNat (48 + n) else Char.ofNat (87 + n)

/-- The two digits `fmt.Sprintf("%x", b)` prints for one byte of a byte slice. -/
def hexByte (b : Byte) : List Char := [hexDigit (b.val / 16), hexDigit (b.val % 16)]

/-- Go `fmt.Sprintf("%x", bytes)` and `hex.EncodeToString`. -/
def hexEncode (bs : List Byte) : String := String.mk (bs.flatMap hexByte)

/-- Value of a hexadecimal digit as `encoding/hex` reads it (both cases). -/
def fromHexChar (c : Char) : Option Nat :=
  if 48 ≤ c.toNat ∧ c.toNat ≤ 57 then some (c.toNat - 48)
  else if 97 ≤ c.toNat ∧ c.toNat ≤ 102 then some (c.toNat - 87)
  else if 65 ≤ c.toNat ∧ c.toNat ≤ 70 then some (c.toNat - 55)
  else none

/-- Go `hex.Decode` on the characters of a string of even length. -/
def hexDecode : List Char → Option (List Byte)
  | [] => some []
  | [_] => none
  | a :: b :: rest =>
    match fromHexChar a, fromHexChar b, hexDecode rest with
    | some x, some y, some bs => some (Fin.ofNat (16 * x + y) :: bs)
    | _, _, _ => none

/-- The 12 bytes of a `primitive.ObjectID`. -/
structure ObjectID where
  bytes : List Byte
  len : bytes.length = 12
  deriving DecidableEq

/-- Go `primitive.NilObjectID`, the zero value. -/
def NilObjectID : ObjectID := ⟨List.replicate 12 0, by decide⟩

/-- Go `ObjectID.Hex`. -/
def ObjectID.Hex (id : ObjectID) : String := hexEncode id.bytes

/-- Go `primitive.ObjectIDFromHex`: 24 bytes of text, all hexadecimal digits. -/
def ObjectIDFromHex (s : String) : Except GoError ObjectID :=
  if s.utf8ByteSize ≠ 24 then
    .error (.plain "the provided hex string is not a valid ObjectID")
  else
    match hexDecode s.toList with
    | none => .error (.plain "encoding/hex: invalid byte")
    | some bs =>
      if h : bs.length = 12 then .ok ⟨bs, h⟩
      else .error (.plain "the provided hex string is not a valid ObjectID")

/-- Go `time.Second` as a `time.Duration` (nanoseconds). -/
def Second : Nat := 1000000000

/-- Go `time.Minute`. -/
def Minute : Nat := 60 * Second

/-! ## Data model -/

/-- The record of `store.Item`.  Nil and empty slices are both `[]`. -/
structure Item where
  Id : ObjectID
  Images : List String
  Name : String
  Author : String
  Price : Float64
  Discount : Nat
  Summary : String
  Category : String
  Thumbnail : String
  Description : String
  Ingridients : List String
  Ratings : Float64
  CreatedAt : Time
  UpdatedAt : Time
  deriving DecidableEq

/-- Go zero value of `store.Item` (`var item store.Item`). -/
def zeroItem : Item :=
  { Id := NilObjectID, Images := [], Name := "", Author := "", Price := 0, Discount := 0,
    Summary := "", Category := "", Thumbnail := "", Description := "", Ingridients := [],
    Ratings := 0, CreatedAt := 0, UpdatedAt := 0 }

/-- The record of `types.ItemResParams`, the JSON view of an item. -/
structure ItemResParams where
  Id : String
  Images : List String
  Name : String
  Author : String
  Price : Float64
  Discount : Nat
  Summary : String
  Category : String
  Thumbnail : String
  Description : String
  Ingridients : List String
  Ratings : Float64
  CreatedAt : Time
  UpdatedAt : Time
  deriving DecidableEq

/-- Go zero value of `types.ItemResParams`: fields a composite literal leaves out. -/
def zeroItemResParams : ItemResParams :=
  { Id := "", Images := [], Name := "", Author := "", Price := 0, Discount := 0,
    Summary := "", Category := "", Thumbnail := "", Description := "", Ingridients := [],
    Ratings := 0, CreatedAt := 0, UpdatedAt := 0 }

/-- The record of `types.PayloadUploadImage`. -/
structure PayloadUploadImage where
  Image : String
  ObjectKey : String
  Extension : String
  deriving DecidableEq

/-- Payload of a task, one variant per task type. -/
inductive Payload where
  | uploadImage (p : PayloadUploadImage)
  | uploadImageBatch (ps : List PayloadUploadImage)
  | deleteKeys (keys : List String)
  | sendMail (email : String)
  deriving DecidableEq

/-- The `asynq` options the handlers pass with a task. -/
structure Opts where
  MaxRetry : Nat
  ProcessIn : Nat
  Queue : String
  deriving DecidableEq

/-- A task as the queue backend holds it. -/
structure Task where
  TypeName : String
  payload : Payload
  opts : Opts
  deriving DecidableEq

/-- Queue class names of `workers/processor.go`. -/
def DefaultQueue : String := "default"

/-- Queue class `critical`. -/
def CriticalQueue : String := "critical"

/-- What a handler wrote: `types.ErrorResParams` (the error whose text is sent), the
success envelope around an item, or the empty string of a 204. -/
inductive Body where
  | failed (status : String) (error : GoError)
  | success (data : ItemResParams)
  | empty
  deriving DecidableEq

/-- What the caller observes: one response, or none because the handler panicked. -/
inductive Outcome where
  | response (statusCode : Nat) (body : Body)
  | panic
  deriving DecidableEq

/-- Whether `json.Encoder.Encode` succeeds on the message: it fails on a `float64`
that is `NaN` or infinite. -/
def Body.encodable : Body → Bool
  | .success data => data.Price.isFinite && data.Ratings.isFinite
  | _ => true

/-- The function `internal.ResponseHandler`: the status is written by `WriteHeader`
before the message is encoded, so when the encoding fails the response keeps its
status and has no body (the error `ResponseHandler` returns is dropped by
`HandleFuncDecorator`). -/
def ResponseHandler (message : Body) (statusCode : Nat) : Outcome :=
  if message.encodable then .response statusCode message else .response statusCode .empty

/-- The two systems a mutation writes to. -/
structure Sys where
  store : List Item
  queue : List Task
  deriving DecidableEq

/-! ## Requests and environment -/

/-- Sixteen bytes read from `crypto/rand`. -/
structure RandomBytes where
  bytes : List Byte
  len : bytes.length = 16

/-- One multipart part: its form name, what `io.ReadAll` gives on it (text of the read
error on the left), and what `rand.Read` gives if a token is drawn while the part is
handled. -/
structure Part where
  FormName : String
  data : Except String String
  rand : Except String RandomBytes

/-- The parts `reader.NextPart` yields, and the error of its last call (`none` is
`io.EOF`). -/
structure Multipart where
  parts : List Part
  tailErr : Option String

/-- A request as the handlers read it: `mux.Vars`, the authenticated user stored in the
context, and `r.MultipartReader()`. -/
structure Request where
  Vars : String → String
  user : Option String
  body : Except String Multipart

/-- Everything outside the handlers.  `Struct` is `validator.Validate.Struct` on an
item (the failing fields; the tags of `store.Item` are not part of the sources);
`enqueueFault` is the queue backend refusing a task; `indexFault`, `readFault`,
`writeFault` and `commitFault` are failures of the database calls other than the
outcomes the store model decides itself; `Now n` is the value of the call number `n`
of `time.Now` in a handler.  `ParseFloat` is `strconv.ParseFloat(s, 64)` (`none` for a
text it rejects). -/
structure Env where
  DetectContentType : String → String
  ParseFloat : String → Option Float64
  ParseUint : String → Option Nat
  Struct : Item → List String
  enqueueFault : List Task → Task → Option String
  indexFault : Option GoError
  readFault : Option GoError
  writeFault : Option GoError
  commitFault : Option GoError
  NewObjectID : ObjectID
  Now : Nat → Time

/-! ## Task distributor -/

/-- Modelled from the spec: the task distributor (`workers/distributor.go` is not part
of the sources).  `Enqueue(type, payload, opts)` is synchronous against the queue
backend only: the backend refuses the task with an error, or the task joins the
queue behind those already there; nothing is ever retracted. -/
def enqueue (env : Env) (queue : List Task) (t : Task) : Except GoError (List Task) :=
  match env.enqueueFault queue t with
  | some msg => .error (.plain msg)
  | none => .ok (queue ++ [t])

/-- Modelled from the spec: `S3ObjectUploadTask`, one task of type `upload_s3_object`
carrying the payload `UploadImage{bytes, objectKey, extension}`. -/
def S3ObjectUploadTask (env : Env) (queue : List Task) (p : PayloadUploadImage)
    (opts : Opts) : Except GoError (List Task) :=
  enqueue env queue ⟨"upload_s3_object", .uploadImage p, opts⟩

/-- Modelled from the spec: `MultipleS3ObjectUploadTask`, all images of one record as a
single task of type `upload_multiple_s3_objects`. -/
def MultipleS3ObjectUploadTask (env : Env) (queue : List Task)
    (ps : List PayloadUploadImage) (opts : Opts) : Except GoError (List Task) :=
  enqueue env queue ⟨"upload_multiple_s3_objects", .uploadImageBatch ps, opts⟩

/-- Modelled from the spec: `S3ObjectDeleteTask`, one task of type `delete_s3_object`
carrying the payload `DeleteKeys{[]string}`. -/
def S3ObjectDeleteTask (env : Env) (queue : List Task) (keys : List String)
    (opts : Opts) : Except GoError (List Task) :=
  enqueue env queue ⟨"delete_s3_object", .deleteKeys keys, opts⟩

/-! ## `internal/shared.go` -/

/-- The function `genObjectToken`: sixteen random bytes printed with `%x`. -/
def genObjectToken (rand : Except String RandomBytes) : Except GoError String :=
  match rand with
  | .error msg => .error (.wrap "failed to generate random bytes " (.plain msg))
  | .ok buff => .ok (hexEncode buff.bytes)

/-- What `ImageProcessor` returns on success. -/
structure Processed where
  data : String
  fileName : String
  extension : String
  deriving DecidableEq

/-- The error `ImageProcessor` builds for a file of another type than the required one. -/
def invalidFile (required : String) : GoError :=
  .plain ("invalid file! required file is " ++ required)

/-- The function `ImageProcessor`.  `file` is what `io.ReadAll` gives on the reader,
`required` is `opts.ContetntType`; indexing the split content type past its end is
the run-time panic. -/
def ImageProcessor (env : Env) (file : Except String String)
    (rand : Except String RandomBytes) (required : String) : Res Processed :=
  match file with
  | .error msg => .error (.plain msg)
  | .ok data =>
    let contetntType := strings.Split (env.DetectContentType data) '/'
    match contetntType with
    | [] => .panic
    | t :: rest =>
      if t ≠ required then .error (invalidFile required)
      else
        match rest with
        | [] => .panic
        | extension :: _ =>
          match genObjectToken rand with
          | .error e => .error (.wrap "failed to generate object token: " e)
          | .ok objectName => .ok ⟨data, objectName ++ "." ++ extension, extension⟩

/-! ## Product store -/

/-- The call `collection.FindOne(ctx, {_id: id}).Decode(&item)`. -/
def FindOne (env : Env) (coll : List Item) (id : ObjectID) : Except GoError Item :=
  match env.readFault with
  | some e => .error e
  | none =>
    match coll.find? (fun it => it.Id = id) with
    | none => .error .errNoDocuments
    | some it => .ok it

/-- The call `collection.InsertOne` on a collection with the unique index on `name`
that `CreateProductHandler` creates (and the one on `_id`): a duplicate key is the
write exception of code 11000. -/
def InsertOne (env : Env) (coll : List Item) (doc : Item) : Except GoError (List Item) :=
  match env.writeFault with
  | some e => .error e
  | none =>
    if coll.any (fun it => it.Id = doc.Id || it.Name = doc.Name) then
      .error (.writeException [11000])
    else .ok (coll ++ [doc])

/-- What the callback of `session.WithTransaction` leaves: its result, the collection
as the transaction sees it, and the queue (which is outside the transaction). -/
structure TxnOut where
  result : Res ItemResParams
  store : List Item
  queue : List Task
  deriving DecidableEq

/-- The call `session.WithTransaction` (errors without the transient label, so the
callback runs once): the writes of the callback are kept only if it returns no error. -/
def WithTransaction (sys : Sys) (out : TxnOut) : Sys :=
  match out.result with
  | .ok _ => ⟨out.store, out.queue⟩
  | _ => ⟨sys.store, out.queue⟩

/-! ## `CreateProductHandler` -/

/-- Control flow of a part loop: go on with the state, return an error from the
callback, or panic; the last two carry the queue as it is at that point. -/
inductive Flow (σ : Type) where
  | next (s : σ)
  | abort (e : GoError) (queue : List Task)
  | crash (queue : List Task)

/-- Local variables of the callback of `CreateProductHandler`, with the queue. -/
structure CreateSt where
  item : Item
  images : List PayloadUploadImage
  queue : List Task

/-- The options of every upload task: three retries, two seconds, critical queue. -/
def uploadOpts : Opts := ⟨3, 2 * Second, CriticalQueue⟩

/-- Text of the error `strconv` returns for a number it cannot parse. -/
def numError (fn : String) (s : String) : GoError :=
  .plain ("strconv." ++ fn ++ ": parsing " ++ s ++ ": invalid syntax")

/-- One turn of the part loop of `CreateProductHandler` (the `switch` on the form
name). -/
def createPart (env : Env) (st : CreateSt) (p : Part) : Flow CreateSt :=
  if p.FormName = "price" then
    match p.data with
    | .error msg => .abort (.plain msg) st.queue
    | .ok data =>
      match env.ParseFloat data with
      | none => .abort (numError "ParseFloat" data) st.queue
      | some price => .next { st with item := { st.item with Price := price } }
  else if p.FormName = "discount" then
    match p.data with
    | .error msg => .abort (.plain msg) st.queue
    | .ok data =>
      match env.ParseUint data with
      | none => .abort (numError "ParseUint" data) st.queue
      | some discount =>
        .next { st with item := { st.item with Discount := discount % 2 ^ 32 } }
  else if p.FormName = "ingridients" then
    match p.data with
    | .error msg => .abort (.plain msg) st.queue
    | .ok data =>
      .next { st with item := { st.item with Ingridients := strings.Split data ',' } }
  else if p.FormName = "name" then
    match p.data with
    | .error msg => .abort (.plain msg) st.queue
    | .ok data => .next { st with item := { st.item with Name := data } }
  else if p.FormName = "summary" then
    match p.data with
    | .error msg => .abort (.plain msg) st.queue
    | .ok data => .next { st with item := { st.item with Summary := data } }
  else if p.FormName = "description" then
    match p.data with
    | .error msg => .abort (.plain msg) st.queue
    | .ok data => .next { st with item := { st.item with Description := data } }
  else if p.FormName = "category" then
    match p.data with
    | .error msg => .abort (.plain msg) st.queue
    | .ok data => .next { st with item := { st.item with Category := data } }
  else if p.FormName = "thumbnail" then
    match ImageProcessor env p.data p.rand "image" with
    | .error e => .abort e st.queue
    | .panic => .crash st.queue
    | .ok img =>
      let objectKey := "images/products/thumbnails/" ++ img.fileName
      match S3ObjectUploadTask env st.queue ⟨img.data, objectKey, img.extension⟩ uploadOpts with
      | .error e => .abort e st.queue
      | .ok queue =>
        .next { st with item := { st.item with Thumbnail := objectKey }, queue := queue }
  else if p.FormName = "images" then
    match ImageProcessor env p.data p.rand "image" with
    | .error e => .abort e st.queue
    | .panic => .crash st.queue
    | .ok img =>
      let objectKey := "images/products/beverages/" ++ img.fileName
      .next { st with
        item := { st.item with Images := st.item.Images ++ [objectKey] },
        images := st.images ++ [⟨img.data, objectKey, img.extension⟩] }
  else .next st

/-- The part loop of `CreateProductHandler`: parts in order until `io.EOF` or an error
of `NextPart`. -/
def createLoop (env : Env) : CreateSt → List Part → Option String → Flow CreateSt
  | st, [], none => .next st
  | st, [], some msg => .abort (.plain msg) st.queue
  | st, p :: ps, tl =>
    match createPart env st p with
    | .next st1 => createLoop env st1 ps tl
    | .abort e q => .abort e q
    | .crash q => .crash q

/-- The `types.ItemResParams` literal of `CreateProductHandler` (no `Ratings`). -/
def createProduct (item : Item) : ItemResParams :=
  { zeroItemResParams with
    Id := item.Id.Hex, Images := item.Images, Name := item.Name, Author := item.Author,
    Price := item.Price, Discount := item.Discount, Ingridients := item.Ingridients,
    Thumbnail := item.Thumbnail, Summary := item.Summary, Category := item.Category,
    Description := item.Description, CreatedAt := item.CreatedAt,
    UpdatedAt := item.UpdatedAt }

/-- The error `s.vd.Struct(&item)` returns: `validator.ValidationErrors` when some
field fails. -/
def validatorStruct (env : Env) (item : Item) : Option GoError :=
  match env.Struct item with
  | [] => none
  | f :: fs => some (.validationErrors (f :: fs))

/-- The item as it is after the loop, with id and timestamps assigned. -/
def stampItem (env : Env) (item : Item) : Item :=
  { item with Id := env.NewObjectID, CreatedAt := env.Now 0, UpdatedAt := env.Now 1 }

/-- The callback `CreateProductHandler` passes to `WithTransaction`. -/
def createCallback (env : Env) (r : Request) (sys : Sys) : TxnOut :=
  match env.indexFault with
  | some e => ⟨.error e, sys.store, sys.queue⟩
  | none =>
  match r.body with
  | .error msg => ⟨.error (.plain msg), sys.store, sys.queue⟩
  | .ok body =>
  match r.user with
  | none => ⟨.panic, sys.store, sys.queue⟩
  | some author =>
  match createLoop env ⟨{ zeroItem with Author := author }, [], sys.queue⟩
      body.parts body.tailErr with
  | .abort e q => ⟨.error e, sys.store, q⟩
  | .crash q => ⟨.panic, sys.store, q⟩
  | .next st =>
  match MultipleS3ObjectUploadTask env st.queue st.images uploadOpts with
  | .error e => ⟨.error e, sys.store, st.queue⟩
  | .ok queue =>
  match validatorStruct env (stampItem env st.item) with
  | some e => ⟨.error e, sys.store, queue⟩
  | none =>
  match InsertOne env sys.store (stampItem env st.item) with
  | .error e => ⟨.error e, sys.store, queue⟩
  | .ok store =>
  match env.commitFault with
  | some e => ⟨.error e, store, queue⟩
  | none => ⟨.ok (createProduct (stampItem env st.item)), store, queue⟩

/-- The `switch` on the error in `CreateProductHandler`.  A write exception with
another first code than 11000 leaves the `switch` and reaches the type assertion on
the nil response, which panics; so does a chain that holds a write exception without
being one (the assertion leaves `WriteErrors` empty) and the assertion
`err.(validator.ValidationErrors)` on an error of another type. -/
def createErrorResponse (err : GoError) : Outcome :=
  if errorsAsWriteException err then
    match err with
    | .writeException (code :: _) =>
      if code = 11000 then
        .response 400 (.failed "failed" (.wrap "document already exists " err))
      else .panic
    | _ => .panic
  else if errorsIsFreshSyntaxError err then
    .response 400 (.failed "failed" (.wrap "invalid data input for operation " err))
  else
    match err with
    | .validationErrors (_ :: _) =>
      .response 400 (.failed "failed" (.wrap "ivalid data input for operation " err))
    | .validationErrors [] => .response 500 (.failed "failed" err)
    | _ => .panic

/-- The part of `CreateProductHandler` after `WithTransaction`. -/
def createRespond (result : Res ItemResParams) : Outcome :=
  match result with
  | .panic => .panic
  | .error err => createErrorResponse err
  | .ok product => ResponseHandler (.success product) 201

/-- The handler `CreateProductHandler` on a started session: the response and the two
systems after it. -/
def CreateProductHandler (env : Env) (r : Request) (sys : Sys) : Outcome × Sys :=
  let out := createCallback env r sys
  (createRespond out.result, WithTransaction sys out)

/-! ## `UpdateProductHandler` -/

/-- Values of a `bson.M`: the update handler stores strings, a `float64`, a string
slice and a time; the other variants are the remaining field types of `store.Item`. -/
inductive BsonValue where
  | str (s : String)
  | num (x : Float64)
  | strs (xs : List String)
  | time (t : Time)
  | oid (id : ObjectID)
  | uint (n : Nat)
  deriving DecidableEq

/-- A `bson.M`: the newest binding of a key comes first and is the one looked up. -/
abbrev BsonM := List (String × BsonValue)

/-- The assignment `updates[key] = value`. -/
def BsonM.set (m : BsonM) (key : String) (value : BsonValue) : BsonM := (key, value) :: m

/-- Modelled from the spec: the effect of `{"$set": updates}` on a stored item, read
back into a `store.Item`.  `$set` stores every key it is given; the declaration of
`store.Item` with its bson field names is not part of the sources, so the names are
those of the form parts (`name`, `summary`, `description`, `price`, `ingridients`,
`thumbnail`, `category`, `discount`, `images`), `updated_at` as the handler writes it,
and `_id`, `author`, `ratings`, `created_at` for the rest.  A field changes when its
key is bound to a value of its type. -/
def applySet (updates : BsonM) (it : Item) : Item :=
  { Id := match updates.lookup "_id" with
      | some (.oid id) => id
      | _ => it.Id
    Images := match updates.lookup "images" with
      | some (.strs xs) => xs
      | _ => it.Images
    Name := match updates.lookup "name" with
      | some (.str s) => s
      | _ => it.Name
    Author := match updates.lookup "author" with
      | some (.str s) => s
      | _ => it.Author
    Price := match updates.lookup "price" with
      | some (.num x) => x
      | _ => it.Price
    Discount := match updates.lookup "discount" with
      | some (.uint n) => n
      | _ => it.Discount
    Summary := match updates.lookup "summary" with
      | some (.str s) => s
      | _ => it.Summary
    Category := match updates.lookup "category" with
      | some (.str s) => s
      | _ => it.Category
    Thumbnail := match updates.lookup "thumbnail" with
      | some (.str s) => s
      | _ => it.Thumbnail
    Description := match updates.lookup "description" with
      | some (.str s) => s
      | _ => it.Description
    Ingridients := match updates.lookup "ingridients" with
      | some (.strs xs) => xs
      | _ => it.Ingridients
    Ratings := match updates.lookup "ratings" with
      | some (.num x) => x
      | _ => it.Ratings
    CreatedAt := match updates.lookup "created_at" with
      | some (.time t) => t
      | _ => it.CreatedAt
    UpdatedAt := match updates.lookup "updated_at" with
      | some (.time t) => t
      | _ => it.UpdatedAt }

/-- The collection with its first document of the given id replaced. -/
def replaceFirst (id : ObjectID) (doc : Item) : List Item → List Item
  | [] => []
  | x :: xs => if x.Id = id then doc :: xs else x :: replaceFirst id doc xs

/-- The call `collection.FindOneAndUpdate(ctx, {_id: id}, {"$set": updates})` with
`ReturnDocument: After`, decoded: the updated document and the collection.  The
server refuses a change of `_id` (code 66) and a name that another document holds
(the unique index, code 11000); the driver reports the refusal of a `findAndModify`
as a `mongo.CommandError`, not as a `mongo.WriteException`. -/
def FindOneAndUpdate (env : Env) (coll : List Item) (id : ObjectID) (updates : BsonM) :
    Except GoError (Item × List Item) :=
  match env.writeFault with
  | some e => .error e
  | none =>
    match coll.find? (fun it => it.Id = id) with
    | none => .error .errNoDocuments
    | some it =>
      if (applySet updates it).Id ≠ it.Id then .error (.commandError 66)
      else if coll.any (fun x => x.Id ≠ id && x.Name = (applySet updates it).Name) then
        .error (.commandError 11000)
      else .ok (applySet updates it, replaceFirst id (applySet updates it) coll)

/-- Local variables of the callback of `UpdateProductHandler`, with the queue. -/
structure UpdateSt where
  updates : BsonM
  queue : List Task

/-- The options of the task that deletes a replaced thumbnail: three minutes. -/
def deleteOldOpts : Opts := ⟨3, 3 * Minute, CriticalQueue⟩

/-- One turn of the part loop of `UpdateProductHandler`; `item` is the record loaded
at the start of the callback. -/
def updatePart (env : Env) (item : Item) (st : UpdateSt) (p : Part) : Flow UpdateSt :=
  if p.FormName = "name" then
    match p.data with
    | .error msg => .abort (.plain msg) st.queue
    | .ok data => .next { st with updates := st.updates.set "name" (.str data) }
  else if p.FormName = "summary" then
    match p.data with
    | .error msg => .abort (.plain msg) st.queue
    | .ok data => .next { st with updates := st.updates.set "summary" (.str data) }
  else if p.FormName = "description" then
    match p.data with
    | .error msg => .abort (.plain msg) st.queue
    | .ok data => .next { st with updates := st.updates.set "description" (.str data) }
  else if p.FormName = "price" then
    match p.data with
    | .error msg => .abort (.plain msg) st.queue
    | .ok data =>
      match env.ParseFloat data with
      | none => .abort (numError "ParseFloat" data) st.queue
      | some price => .next { st with updates := st.updates.set "price" (.num price) }
  else if p.FormName = "ingridients" then
    match p.data with
    | .error msg => .abort (.plain msg) st.queue
    | .ok data =>
      .next { st with
        updates := st.updates.set "ingridients" (.strs (strings.Split data ',')) }
  else if p.FormName = "thumbnail" then
    match p.data with
    | .error msg => .abort (.plain msg) st.queue
    | .ok data =>
      match (if item.Thumbnail ≠ "" then
              S3ObjectDeleteTask env st.queue [item.Thumbnail] deleteOldOpts
            else .ok st.queue) with
      | .error e => .abort e st.queue
      | .ok queue =>
        match ImageProcessor env (.ok data) p.rand "image" with
        | .error e => .abort e queue
        | .panic => .crash queue
        | .ok img =>
          let objectKey := "images/products/thumbnails/" ++ img.fileName
          match S3ObjectUploadTask env queue ⟨img.data, objectKey, img.extension⟩
              uploadOpts with
          | .error e => .abort e queue
          | .ok queue2 =>
            .next { updates := st.updates.set "thumbnail" (.str objectKey),
                    queue := queue2 }
  else .next st

/-- The part loop of `UpdateProductHandler`. -/
def updateLoop (env : Env) (item : Item) :
    UpdateSt → List Part → Option String → Flow UpdateSt
  | st, [], none => .next st
  | st, [], some msg => .abort (.plain msg) st.queue
  | st, p :: ps, tl =>
    match updatePart env item st p with
    | .next st1 => updateLoop env item st1 ps tl
    | .abort e q => .abort e q
    | .crash q => .crash q

/-- The `types.ItemResParams` literal of `UpdateProductHandler` (it has no `Author`
entry). -/
def updateProduct (doc : Item) : ItemResParams :=
  { zeroItemResParams with
    Id := doc.Id.Hex, Images := doc.Images, Name := doc.Name, Price := doc.Price,
    Discount := doc.Discount, Summary := doc.Summary, Category := doc.Category,
    Thumbnail := doc.Thumbnail, Description := doc.Description,
    Ingridients := doc.Ingridients, Ratings := doc.Ratings, CreatedAt := doc.CreatedAt,
    UpdatedAt := doc.UpdatedAt }

/-- The callback `UpdateProductHandler` passes to `WithTransaction`. -/
def updateCallback (env : Env) (r : Request) (sys : Sys) : TxnOut :=
  match ObjectIDFromHex (r.Vars "id") with
  | .error e => ⟨.error e, sys.store, sys.queue⟩
  | .ok id =>
  match FindOne env sys.store id with
  | .error e => ⟨.error e, sys.store, sys.queue⟩
  | .ok item =>
  match r.body with
  | .error msg => ⟨.error (.plain msg), sys.store, sys.queue⟩
  | .ok body =>
  match updateLoop env item ⟨[], sys.queue⟩ body.parts body.tailErr with
  | .abort e q => ⟨.error e, sys.store, q⟩
  | .crash q => ⟨.panic, sys.store, q⟩
  | .next st =>
  match FindOneAndUpdate env sys.store id
      (st.updates.set "updated_at" (.time (env.Now 0))) with
  | .error e => ⟨.error e, sys.store, st.queue⟩
  | .ok (updatedDocument, store) =>
  match env.commitFault with
  | some e => ⟨.error e, store, st.queue⟩
  | none => ⟨.ok (updateProduct updatedDocument), store, st.queue⟩

/-- The `switch` on the error in `UpdateProductHandler`; leaving the `switch` without a
response reaches the type assertion on the nil response, which panics. -/
def updateErrorResponse (err : GoError) : Outcome :=
  if errorsAsWriteException err then
    match err with
    | .writeException (code :: _) =>
      if code = 11000 then
        .response 400 (.failed "failed" (.wrap "document already exists " err))
      else .panic
    | _ => .panic
  else if errorsIsNoDocuments err then
    if err = .errNoDocuments then
      .response 404 (.failed "failed" (.wrap "document not found " err))
    else .panic
  else if errorsIsFreshSyntaxError err then
    .response 400 (.failed "failed" (.wrap "ivalid data input for operation " err))
  else
    match err with
    | .validationErrors (_ :: _) =>
      .response 400 (.failed "failed" (.wrap "ivalid data input for operation " err))
    | .validationErrors [] => .response 500 (.failed "failed" err)
    | _ => .panic

/-- The part of `UpdateProductHandler` after `WithTransaction`. -/
def updateRespond (result : Res ItemResParams) : Outcome :=
  match result with
  | .panic => .panic
  | .error err => updateErrorResponse err
  | .ok product => ResponseHandler (.success product) 200

/-- The handler `UpdateProductHandler` on a started session. -/
def UpdateProductHandler (env : Env) (r : Request) (sys : Sys) : Outcome × Sys :=
  let out := updateCallback env r sys
  (updateRespond out.result, WithTransaction sys out)

/-- The `types.ItemResParams` literal of `GetProductByIdHandler`: every field. -/
def getProduct (item : Item) : ItemResParams :=
  { Id := item.Id.Hex, Images := item.Images, Name := item.Name, Author := item.Author,
    Price := item.Price, Discount := item.Discount, Summary := item.Summary,
    Category := item.Category, Thumbnail := item.Thumbnail,
    Description := item.Description, Ingridients := item.Ingridients,
    Ratings := item.Ratings, CreatedAt := item.CreatedAt, UpdatedAt := item.UpdatedAt }

/-! ## `DeleteProductByIdHandler` -/

/-- The options of the task that deletes the blobs of a removed record: one minute. -/
def deleteRecordOpts : Opts := ⟨3, 1 * Minute, CriticalQueue⟩

/-- The call `collection.FindOneAndDelete(ctx, {_id: id}).Decode(&deletedDocument)`: the
collection without its first document of that id. -/
def FindOneAndDelete (env : Env) (coll : List Item) (id : ObjectID) :
    Except GoError (List Item) :=
  match env.writeFault with
  | some e => .error e
  | none =>
    match coll.find? (fun it => it.Id = id) with
    | none => .error .errNoDocuments
    | some _ => .ok (coll.eraseP (fun it => it.Id = id))

/-- What the callback of `DeleteProductByIdHandler` leaves.  The result `.ok none` is
`return nil, nil`, `.ok (some e)` is `return err, nil` (an error handed back as the
value, with no error), `.error e` is `return nil, err`; `committed` tells whether the
callback itself called `session.CommitTransaction`. -/
structure DeleteOut where
  result : Res (Option GoError)
  committed : Bool
  store : List Item
  queue : List Task
  deriving DecidableEq

/-- The callback `DeleteProductByIdHandler` passes to `WithTransaction`. -/
def deleteCallback (env : Env) (r : Request) (sys : Sys) : DeleteOut :=
  match ObjectIDFromHex (r.Vars "id") with
  | .error e => ⟨.error e, false, sys.store, sys.queue⟩
  | .ok id =>
  match FindOne env sys.store id with
  | .error e => ⟨.error e, false, sys.store, sys.queue⟩
  | .ok product =>
  match S3ObjectDeleteTask env sys.queue (product.Images ++ [product.Thumbnail])
      deleteRecordOpts with
  | .error e => ⟨.error e, false, sys.store, sys.queue⟩
  | .ok queue =>
  match FindOneAndDelete env sys.store id with
  | .error e =>
    if e = .errNoDocuments then ⟨.error e, false, sys.store, queue⟩
    else ⟨.ok (some e), false, sys.store, queue⟩
  | .ok store =>
  match env.commitFault with
  | some e => ⟨.error e, false, store, queue⟩
  | none => ⟨.ok none, true, store, queue⟩

/-- The call `session.WithTransaction` around the callback of the delete handler: when
the callback returns no error without having committed, `WithTransaction` first looks
at `ctx.Err()` and, the context being done, aborts and returns that error; otherwise
it commits itself, and that commit can fail; the writes are kept only if no error
comes back.  The context is done when the call whose error the callback handed back
failed with `context.DeadlineExceeded`. -/
def deleteTransaction (env : Env) (sys : Sys) (out : DeleteOut) :
    Res (Option GoError) × Sys :=
  match out.result with
  | .ok v =>
    if out.committed then (.ok v, ⟨out.store, out.queue⟩)
    else if (v.map errorsIsDeadlineExceeded).getD false then
      (.error .deadlineExceeded, ⟨sys.store, out.queue⟩)
    else
      match env.commitFault with
      | some e => (.error e, ⟨sys.store, out.queue⟩)
      | none => (.ok v, ⟨out.store, out.queue⟩)
  | other => (other, ⟨sys.store, out.queue⟩)

/-- The part of `DeleteProductByIdHandler` after `WithTransaction`: the `switch` on the
error, whose write-exception case returns only for code 11000 and otherwise leaves
the `switch`, and the 204 that ends the function. -/
def deleteRespond (result : Res (Option GoError)) : Outcome :=
  match result with
  | .panic => .panic
  | .ok _ => .response 204 .empty
  | .error err =>
    if errorsAsWriteException err then
      match err with
      | .writeException (code :: _) =>
        if code = 11000 then
          .response 400 (.failed "failed" (.wrap "document already exists " err))
        else .response 204 .empty
      | _ => .panic
    else if errorsIsNoDocuments err then
      .response 404 (.failed "failed" (.wrap "document not found " err))
    else .response 500 (.failed "failed" err)

/-- The handler `DeleteProductByIdHandler` on a started session. -/
def DeleteProductByIdHandler (env : Env) (r : Request) (sys : Sys) : Outcome × Sys :=
  let out := deleteTransaction env sys (deleteCallback env r sys)
  (deleteRespond out.1, out.2)

/-! ## Object store gateway (`pkg/util/s3.go`) -/

/-- An object as the bucket holds it: the fields of `s3.PutObjectInput`. -/
structure S3Object where
  Bucket : String
  Key : String
  Body : String
  ACL : String
  ContentType : String
  deriving DecidableEq

/-- The objects of the store, at most one per bucket and key. -/
abbrev ObjectStore := List S3Object

/-- The service behind the gateway: when it refuses a put or a delete. -/
structure S3 where
  putFault : ObjectStore → S3Object → Option String
  deleteFault : ObjectStore → String → String → Option String

/-- Whether an object is the one of the given bucket and key. -/
def S3Object.isAt (o : S3Object) (bucket key : String) : Bool :=
  o.Bucket = bucket && o.Key = key

/-- The call `client.PutObject`: the object replaces the one of its bucket and key. -/
def PutObject (s3 : S3) (store : ObjectStore) (o : S3Object) : Except GoError ObjectStore :=
  match s3.putFault store o with
  | some msg => .error (.plain msg)
  | none => .ok (o :: store.filter (fun x => !x.isAt o.Bucket o.Key))

/-- The call `client.DeleteObject`: the client refuses an empty key before any
request is sent (the key is a segment of the request path); otherwise no object is
left under the bucket and key, and a key that holds nothing is not an error. -/
def DeleteObject (s3 : S3) (store : ObjectStore) (bucket key : String) :
    Except GoError ObjectStore :=
  if key = "" then .error (.plain "input member Key must not be empty")
  else
    match s3.deleteFault store bucket key with
    | some msg => .error (.plain msg)
    | none => .ok (store.filter (fun x => !x.isAt bucket key))

/-- A read of the object under a bucket and key. -/
def GetObject (store : ObjectStore) (bucket key : String) : Option S3Object :=
  store.find? (fun x => x.isAt bucket key)

/-- The method `UploadImage`: the error it returns, and the store after it. -/
def UploadImage (s3 : S3) (store : ObjectStore) (objectKey bucketName extension : String)
    (image : String) : Option GoError × ObjectStore :=
  match PutObject s3 store ⟨bucketName, objectKey, image, "public-read", "image/" ++ extension⟩ with
  | .error e =>
    (some (.wrap "error occured while uploading the image to AWS s3 bucket " e), store)
  | .ok store1 => (none, store1)

/-- The method `UploadMultipleImages`: one put per image, in order, until one fails. -/
def UploadMultipleImages (s3 : S3) (bucket : String) :
    ObjectStore → List PayloadUploadImage → Option GoError × ObjectStore
  | store, [] => (none, store)
  | store, image :: rest =>
    match PutObject s3 store
        ⟨bucket, image.ObjectKey, image.Image, "public-read", "image/" ++ image.Extension⟩ with
    | .error e =>
      (some (.wrap "error occured while uploading the image to AWS s3 bucket " e), store)
    | .ok store1 => UploadMultipleImages s3 bucket store1 rest

/-- The method `DeleteImage`. -/
def DeleteImage (s3 : S3) (store : ObjectStore) (objectKey bucket : String) :
    Option GoError × ObjectStore :=
  match DeleteObject s3 store bucket objectKey with
  | .error _ =>
    (some (.plain ("error occured while deleting object " ++ objectKey ++
      " from s3 aws bucket")), store)
  | .ok store1 => (none, store1)

/-! ## Task processor (`workers/processor.go`) -/

/-- The weights of `asynq.Config.Queues` in `NewTaskServerProcessor`. -/
def Queues : List (String × Nat) := [(CriticalQueue, 1), (DefaultQueue, 2)]

/-- The weight the configuration gives a queue (0 for a queue it does not name). -/
def queueWeight (queue : String) : Nat := (Queues.lookup queue).getD 0

/-- The fields of `RedisSrvTaskProcessor` the storage handlers use: the gateway and
`envs.S3_BUCKET_NAME`. -/
structure Processor where
  s3 : S3
  bucketName : String

/-- The handler `ProcessTaskUploadS3Object`; `payload` is what `json.Unmarshal` gives on
the payload of the task (text of its error on the left). -/
def ProcessTaskUploadS3Object (pr : Processor) (payload : Except String PayloadUploadImage)
    (store : ObjectStore) : Option GoError × ObjectStore :=
  match payload with
  | .error msg => (some (.wrap "unmarshalling error " (.plain msg)), store)
  | .ok p => UploadImage pr.s3 store p.ObjectKey pr.bucketName p.Extension p.Image

/-- The handler `ProcessTaskMultipleUploadS3Object`. -/
def ProcessTaskMultipleUploadS3Object (pr : Processor)
    (payload : Except String (List PayloadUploadImage)) (store : ObjectStore) :
    Option GoError × ObjectStore :=
  match payload with
  | .error msg => (some (.wrap "unmarshalling error " (.plain msg)), store)
  | .ok ps => UploadMultipleImages pr.s3 pr.bucketName store ps

/-- The loop of `ProcessTaskDeleteS3Object`: one `DeleteImage` per key, until one fails. -/
def deleteKeysLoop (pr : Processor) : ObjectStore → List String → Option GoError × ObjectStore
  | store, [] => (none, store)
  | store, image :: rest =>
    match DeleteImage pr.s3 store image pr.bucketName with
    | (some e, store1) => (some e, store1)
    | (none, store1) => deleteKeysLoop pr store1 rest

/-- The handler `ProcessTaskDeleteS3Object`. -/
def ProcessTaskDeleteS3Object (pr : Processor) (payload : Except String (List String))
    (store : ObjectStore) : Option GoError × ObjectStore :=
  match payload with
  | .error msg => (some (.wrap "error occured while unmarshalling " (.plain msg)), store)
  | .ok keys => deleteKeysLoop pr store keys

/-- The fields of `store.User` the mail handlers use. -/
structure User where
  Id : ObjectID
  Email : String
  deriving DecidableEq

/-- What the mail handlers work with: the users collection, a failure of its lookup
other than an empty result, the reading of the clock in Unix milliseconds, and the
mail transport refusing a message. -/
structure MailEnv where
  users : List User
  readFault : Option GoError
  nowMilli : Nat
  sendFault : String → String → Option String

/-- The function `getUserByEmail`; `payload` is what `json.Unmarshal` gives for the
`email` of `types.PayloadSendMail`. -/
def getUserByEmail (me : MailEnv) (payload : Except String String) : Except GoError User :=
  match payload with
  | .error msg => .error (.wrap "unmarshalling error " (.plain msg))
  | .ok email =>
    match me.readFault with
    | some e => .error (.wrap "internal server error " e)
    | none =>
      match me.users.find? (fun u => u.Email = email) with
      | none => .error (.wrap "document not found " .errNoDocuments)
      | some user => .ok user

/-- The function `ResetToken`: the clock plus `expire` minutes, in Unix milliseconds. -/
def ResetToken (nowMilli : Nat) (expire : Nat) : Nat := nowMilli + expire * 60000

/-- Modelled from the spec: the mail gateway (`internal/mail` is not part of the
sources), a synchronous send of a message to an address: the transport refuses the
message with an error, or the message joins those sent. -/
def MailSender (me : MailEnv) (outbox : List (String × String)) (address body : String) :
    Except GoError (List (String × String)) :=
  match me.sendFault address body with
  | some msg => .error (.plain msg)
  | none => .ok (outbox ++ [(address, body)])

/-- The body of both mail handlers, which differ in the path of the link they send. -/
def processMail (me : MailEnv) (path : String) (payload : Except String String)
    (outbox : List (String × String)) : Option GoError × List (String × String) :=
  match getUserByEmail me payload with
  | .error e => (some (.wrap "error occured while retreiving user " e), outbox)
  | .ok user =>
    match MailSender me outbox user.Email
        ("http://localhost:3000/" ++ path ++ "?token=" ++ user.Id.Hex ++ "&timestamp=" ++
          toString (ResetToken me.nowMilli 2880)) with
    | .error e =>
      (some (.wrap ("error occured while sending a verification mail to " ++ user.Email ++
        " err ") e), outbox)
    | .ok outbox1 => (none, outbox1)

/-- The handler `ProcessTaskSendVerificationMail`. -/
def ProcessTaskSendVerificationMail (me : MailEnv) (payload : Except String String)
    (outbox : List (String × String)) : Option GoError × List (String × String) :=
  processMail me "verify" payload outbox

/-- The handler `ProcessTaskSendResetPasswordMail`. -/
def ProcessTaskSendResetPasswordMail (me : MailEnv) (payload : Except String String)
    (outbox : List (String × String)) : Option GoError × List (String × String) :=
  processMail me "resetpassword" payload outbox

/-- Go `errors.Is(err, asynq.SkipRetry)`. -/
def errorsIsSkipRetry : GoError → Bool
  | .skipRetry => true
  | .wrap _ inner => errorsIsSkipRetry inner
  | _ => false

/-- What the queue does with a task whose handler returned an error. -/
inductive Disposition where
  | retry
  | archive
  deriving DecidableEq

/-- The rule of the `asynq` server for a failed attempt: the task is archived when its
retries are used up or the error wraps `asynq.SkipRetry`, and retried otherwise. -/
def onHandlerError (retried maxRetry : Nat) (err : GoError) : Disposition :=
  if retried ≥ maxRetry ∨ errorsIsSkipRetry err = true then .archive else .retry

/-! ## `GetProductByIdHandler` -/

/-- The call `collection.FindOne` with the filter on `_id` and `category`, followed by
`result.Decode`. -/
def FindOneInCategory (env : Env) (coll : List Item) (id : ObjectID) (category : String) :
    Except GoError Item :=
  match env.readFault with
  | some e => .error e
  | none =>
    match coll.find? (fun it => it.Id = id && it.Category = category) with
    | none => .error .errNoDocuments
    | some it => .ok it

/-- The handler `GetProductByIdHandler`: a malformed id is a 400, no matching document
a 404, any other decode error a 500, and a found document is copied field by field
into the response. -/
def GetProductByIdHandler (env : Env) (r : Request) (store : List Item) : Outcome :=
  match ObjectIDFromHex (r.Vars "id") with
  | .error e => .response 400 (.failed "failed" e)
  | .ok id =>
    match FindOneInCategory env store id (r.Vars "category") with
    | .error err =>
      if err = .errNoDocuments then
        .response 404 (.failed "failed" (.wrap "document not found " err))
      else .response 500 (.failed "failed" err)
    | .ok item => ResponseHandler (.success (getProduct item)) 200

/-! ## Passwords and orders (`internal/shared.go`) -/

/-- The SHA-256 digest of the empty input, which `crypto.SHA256.New().Sum` appends when
nothing was written to the hash. -/
def sha256Empty : List Byte :=
  [227, 176, 196, 66, 152, 252, 28, 20, 154, 251, 244, 200, 153, 111, 185, 36,
   39, 174, 65, 228, 100, 155, 147, 76, 164, 149, 153, 27, 120, 82, 184, 85]

/-- Go `crypto.SHA256.New().Sum(b)`: `Sum` appends the digest of what was written to
the hash, here nothing, to `b`; it does not hash `b`. -/
def newHashSum (b : List Byte) : List Byte := b ++ sha256Empty

/-- The function `PasswordEncryption`, on the bytes of the password. -/
def PasswordEncryption (password : List Byte) : String := hexEncode (newHashSum password)

/-- The function `ComparePasswordEncryption`, on the bytes of the password string. -/
def ComparePasswordEncryption (password : List Byte) (comparePassword : String) : Bool :=
  hexEncode (newHashSum password) = comparePassword

/-- An entry of `types.OrderParams.Items`. -/
structure OrderParam where
  Product : String
  Quantity : Nat
  deriving DecidableEq

/-- The record of `store.OrderItem`. -/
structure OrderItem where
  Product : ObjectID
  Quantity : Nat
  deriving DecidableEq

/-- The loop of `ExtractProductsID` from the point where the two slices hold `ids` and
`products`. -/
def extractLoop : List ObjectID → List OrderItem → List OrderParam →
    Except GoError (List ObjectID × List OrderItem)
  | ids, products, [] => .ok (ids, products)
  | ids, products, order :: rest =>
    match ObjectIDFromHex order.Product with
    | .error e => .error e
    | .ok id => extractLoop (ids ++ [id]) (products ++ [⟨id, order.Quantity⟩]) rest

/-- The function `ExtractProductsID`: the ids and the items, or the error alone. -/
def ExtractProductsID (items : List OrderParam) :
    Except GoError (List ObjectID × List OrderItem) :=
  extractLoop [] [] items

/-! ## Retry bookkeeping of the queue -/

/-- Where a task is in the queue backend (the lease of an active task is not
modelled: an attempt is one step). -/
inductive TaskState where
  | pending
  | retry
  | completed
  | archived
  deriving DecidableEq

/-- The bookkeeping of one task: the `MaxRetry` option it was enqueued with, the
retries recorded so far, and its state. -/
structure TaskInfo where
  MaxRetry : Nat
  Retried : Nat
  State : TaskState
  deriving DecidableEq

/-- A task as `Enqueue` leaves it. -/
def enqueued (maxRetry : Nat) : TaskInfo := ⟨maxRetry, 0, .pending⟩

/-- One attempt of the `asynq` server (configured by `NewTaskServerProcessor` with no
retry rule of its own) on a task, given what the handler returns: a completed or
archived task is not dequeued; success completes the task; on an error the rule
`onHandlerError` archives it or records one more retry and puts it back. -/
def attempt (t : TaskInfo) (outcome : Option GoError) : TaskInfo :=
  match t.State with
  | .completed => t
  | .archived => t
  | _ =>
    match outcome with
    | none => { t with State := .completed }
    | some err =>
      match onHandlerError t.Retried t.MaxRetry err with
      | .archive => { t with State := .archived }
      | .retry => { t with Retried := t.Retried + 1, State := .retry }

/-- The attempts the outcomes of the handler give rise to, in order. -/
def attempts (t : TaskInfo) (outcomes : List (Option GoError)) : TaskInfo :=
  outcomes.foldl attempt t

/-! ## Notions used to state the properties -/

/-- The item and the queue with which the callback of `CreateProductHandler` reaches
`s.vd.Struct(&item)`, when it gets that far. -/
def atValidation (env : Env) (r : Request) (sys : Sys) : Option (Item × List Task) :=
  match env.indexFault, r.body, r.user with
  | none, .ok body, some author =>
    match createLoop env ⟨{ zeroItem with Author := author }, [], sys.queue⟩
        body.parts body.tailErr with
    | .next st =>
      match MultipleS3ObjectUploadTask env st.queue st.images uploadOpts with
      | .ok queue => some (stampItem env st.item, queue)
      | .error _ => none
    | _ => none
  | _, _, _ => none

/-- The content of a part that could be read. -/
def partData (p : Part) : Option String :=
  match p.data with
  | .ok d => some d
  | .error _ => none

/-- The value `f` gives on the last part of the given form name, if there is one. -/
def lastOf {α : Type} (key : String) (f : Part → Option α) : List Part → Option α
  | [] => none
  | p :: ps =>
    match lastOf key f ps with
    | some a => some a
    | none => if p.FormName = key then f p else none

/-- The value after the parts of a field that starts as `init` and that every part of
the given form name overwrites with `g` of what `f` reads from the part. -/
def lastOr {α β : Type} (key : String) (f : Part → Option α) (g : α → β) (init : β)
    (parts : List Part) : β :=
  match lastOf key f parts with
  | some a => g a
  | none => init

/-- The upload payload of a part accepted as an image, its key being the file name
behind the path `dir`. -/
def imagePayload (env : Env) (dir : String) (p : Part) : Option PayloadUploadImage :=
  match ImageProcessor env p.data p.rand "image" with
  | .ok img => some ⟨img.data, dir ++ img.fileName, img.extension⟩
  | _ => none

/-- The queue a part loop leaves, whichever way it ends. -/
def Flow.queueWith {σ : Type} (f : Flow σ) (q : σ → List Task) : List Task :=
  match f with
  | .next s => q s
  | .abort _ queue => queue
  | .crash queue => queue

/-- The single-upload task of a payload. -/
def uploadTask (p : PayloadUploadImage) : Task :=
  ⟨"upload_s3_object", .uploadImage p, uploadOpts⟩

/-- The batch-upload task of a list of payloads. -/
def batchTask (ps : List PayloadUploadImage) : Task :=
  ⟨"upload_multiple_s3_objects", .uploadImageBatch ps, uploadOpts⟩

/-- Payloads of the accepted parts of the given form name, in request order. -/
def payloadsOf (env : Env) (key dir : String) (parts : List Part) :
    List PayloadUploadImage :=
  (parts.filter (fun p => p.FormName = key)).filterMap (imagePayload env dir)

/-- The state the part loop of `CreateProductHandler` is to leave when it reaches the
end of the parts: every text field holds what the last part of its name carries, the
thumbnail is the key of the last thumbnail part, every gallery image is listed, and
one upload task per thumbnail part has joined the queue. -/
def assembled (env : Env) (st : CreateSt) (parts : List Part) : CreateSt :=
  { item :=
      { st.item with
        Name := lastOr "name" partData id st.item.Name parts
        Price := lastOr "price" partData (fun d => (env.ParseFloat d).getD 0) st.item.Price parts
        Discount := lastOr "discount" partData (fun d => (env.ParseUint d).getD 0 % 2 ^ 32)
          st.item.Discount parts
        Category := lastOr "category" partData id st.item.Category parts
        Summary := lastOr "summary" partData id st.item.Summary parts
        Description := lastOr "description" partData id st.item.Description parts
        Ingridients := lastOr "ingridients" partData (fun d => strings.Split d ',')
          st.item.Ingridients parts
        Thumbnail := lastOr "thumbnail" (imagePayload env "images/products/thumbnails/")
          (fun q => q.ObjectKey) st.item.Thumbnail parts
        Images := st.item.Images ++
          (payloadsOf env "images" "images/products/beverages/" parts).map (fun q => q.ObjectKey) }
    images := st.images ++ payloadsOf env "images" "images/products/beverages/" parts
    queue := st.queue ++
      (payloadsOf env "thumbnail" "images/products/thumbnails/" parts).map uploadTask }

/-- Modelled from the spec: the required-field constraints on `store.Item` (its
declaration with the `validate` tags is not part of the sources): required name,
required category, required price and price > 0. -/
def missingRequired (it : Item) : Bool :=
  it.Name = "" || it.Category = "" || !it.Price.positive

/-! ## Concrete inputs -/

/-- A content sniffer: data that starts with `PNG` is a PNG image, the rest is text. -/
def exDetect (data : String) : String :=
  if data.toList.take 3 = ['P', 'N', 'G'] then "image/png" else "text/plain; charset=utf-8"

/-- A number parser that knows the decimal numerals `3` and `5` and the texts `Inf`
and `NaN`. -/
def exParseFloat (s : String) : Option Float64 :=
  if s = "5" then some 5 else if s = "3" then some 3
  else if s = "Inf" then some .posInf else if s = "NaN" then some .nan else none

/-- A validator with the required-field constraints only. -/
def exStruct (it : Item) : List String :=
  (if it.Name = "" then ["Name"] else []) ++ (if it.Category = "" then ["Category"] else [])
    ++ (if it.Price.positive then [] else ["Price"])

/-- An environment in which no collaborator fails. -/
def exEnv : Env :=
  { DetectContentType := exDetect, ParseFloat := exParseFloat, ParseUint := fun _ => none,
    Struct := exStruct, enqueueFault := fun _ _ => none, indexFault := none,
    readFault := none, writeFault := none, commitFault := none,
    NewObjectID := ⟨List.replicate 12 1, by decide⟩, Now := fun n => 100 + n }

/-- Sixteen bytes `0xab`. -/
def exRand : RandomBytes := ⟨List.replicate 16 171, by decide⟩

/-- A readable part. -/
def exPart (key value : String) : Part := ⟨key, .ok value, .ok exRand⟩

/-- A multipart request of user `user1` for the path variable `id`. -/
def exRequest (id : String) (parts : List Part) : Request :=
  ⟨fun key => if key = "id" then id else "", some "user1", .ok ⟨parts, none⟩⟩

/-- The parts of the product of the handler tests, with a PNG thumbnail. -/
def latteParts : List Part :=
  [exPart "name" "Caffe Latte", exPart "price" "5", exPart "category" "beverages",
   exPart "thumbnail" "PNGdata"]

/-- A stored product, created by `user1`. -/
def latte : Item :=
  { zeroItem with
    Id := ⟨List.replicate 12 2, by decide⟩, Name := "Caffe Latte", Author := "user1",
    Price := 3, Category := "beverages", Thumbnail := "images/products/thumbnails/old.png",
    CreatedAt := 7, UpdatedAt := 7 }

/-- The id of `latte` in hexadecimal. -/
def latteId : String := "020202020202020202020202"

/-- The rest of the callback of `CreateProductHandler` from the validation on:
validate, insert, commit. -/
def afterValidation (env : Env) (sys : Sys) (item : Item) (queue : List Task) : TxnOut :=
  match validatorStruct env item with
  | some e => ⟨.error e, sys.store, queue⟩
  | none =>
    match InsertOne env sys.store item with
    | .error e => ⟨.error e, sys.store, queue⟩
    | .ok store =>
      match env.commitFault with
      | some e => ⟨.error e, store, queue⟩
      | none => ⟨.ok (createProduct item), store, queue⟩

/-- The parts of a product no store of the examples holds. -/
def mochaParts : List Part :=
  [exPart "name" "Mocha", exPart "price" "5", exPart "category" "beverages",
   exPart "thumbnail" "PNGdata"]

/-- The record `CreateProductHandler` assembles from `mochaParts`. -/
def mocha : Item :=
  stampItem exEnv
    { zeroItem with
      Author := "user1", Name := "Mocha", Price := 5, Category := "beverages",
      Thumbnail := "images/products/thumbnails/abababababababababababababababab.png" }

/-- The task `UpdateProductHandler` enqueues for the thumbnail of the loaded record
before it takes a new one: none when the record has no thumbnail. -/
def deleteOldTask (old : Item) : List Task :=
  if old.Thumbnail ≠ "" then
    [⟨"delete_s3_object", .deleteKeys [old.Thumbnail], deleteOldOpts⟩]
  else []

/-- The task `DeleteProductByIdHandler` enqueues for a record: every image key, then
the thumbnail key. -/
def deleteRecordTask (product : Item) : Task :=
  ⟨"delete_s3_object", .deleteKeys (product.Images ++ [product.Thumbnail]), deleteRecordOpts⟩

/-- An environment in which the removal of a record fails with a network error, after
the lookup and the enqueue succeeded; the context of the request is alive and the
commit succeeds. -/
def exRemoveFails : Env :=
  { exEnv with writeFault := some (.plain "socket was unexpectedly closed: EOF") }

/-- An environment in which the removal of a record fails because the context of the
request is done. -/
def exDeadline : Env :=
  { exEnv with writeFault := some .deadlineExceeded }


/-- The object `UploadImage` puts for a payload. -/
def uploadObject (pr : Processor) (p : PayloadUploadImage) : S3Object :=
  ⟨pr.bucketName, p.ObjectKey, p.Image, "public-read", "image/" ++ p.Extension⟩

/-- A gateway whose service never fails, on the bucket `coffeeshop`. -/
def exProcessor : Processor := ⟨⟨fun _ _ => none, fun _ _ _ => none⟩, "coffeeshop"⟩

/-- An upload payload. -/
def exPayload : PayloadUploadImage := ⟨"PNGdata", "images/products/thumbnails/abc.png", "png"⟩

/-- A bucket with an older object under the key of `exPayload` and another object. -/
def exBucket : ObjectStore :=
  [⟨"coffeeshop", "images/products/thumbnails/abc.png", "old", "public-read", "image/png"⟩,
   ⟨"coffeeshop", "images/products/beverages/x.png", "PNGx", "public-read", "image/png"⟩]

/-- The subtype of a MIME content type: the text between its first slash and the next
one (or its end). -/
def mediaSubtype (contentType : String) : String :=
  String.mk
    (((contentType.toList.dropWhile (fun c => c ≠ '/')).drop 1).takeWhile (fun c => c ≠ '/'))

/-- The path template of an object key: `images/products/<seg>/<token>.<ext>`. -/
def objectKey (seg token ext : String) : String :=
  "images/products/" ++ seg ++ "/" ++ token ++ "." ++ ext

/-- Whether a character is a lowercase hexadecimal digit. -/
def isLowerHex (c : Char) : Bool := "0123456789abcdef".toList.contains c

/-- The parts of a product of category `pastries` with one gallery image. -/
def pastryParts : List Part :=
  [exPart "name" "Croissant", exPart "price" "3", exPart "category" "pastries",
   exPart "images" "PNGcroissant"]

/-- A character `encoding/hex` reads as a digit. -/
def isHexChar (c : Char) : Bool := (fromHexChar c).isSome

/-- A well-formed object id in text: 24 characters, all hexadecimal digits. -/
def wellFormedId (s : String) : Bool := s.length = 24 && s.toList.all isHexChar

/-- A request `GET /products/{category}/{id}`. -/
def exGetRequest (category id : String) : Request :=
  ⟨fun key => if key = "id" then id else if key = "category" then category else "", none,
   .error "request Content-Type isn't multipart/form-data"⟩

/-- The store once a payload has been put: its object replaces the one of its key. -/
def withObject (pr : Processor) (store : ObjectStore) (p : PayloadUploadImage) : ObjectStore :=
  uploadObject pr p :: store.filter (fun x => !x.isAt pr.bucketName p.ObjectKey)

/-- The store once the payloads have been put one after the other, in order. -/
def withObjects (pr : Processor) (store : ObjectStore) (ps : List PayloadUploadImage) :
    ObjectStore :=
  ps.foldl (withObject pr) store

/-- Every put of the payloads, made in order from the store, is accepted by the
service. -/
def everyPutSucceeds (pr : Processor) : ObjectStore → List PayloadUploadImage → Bool
  | _, [] => true
  | store, p :: rest =>
    (pr.s3.putFault store (uploadObject pr p)).isNone &&
      everyPutSucceeds pr (withObject pr store p) rest

/-- A gateway whose service refuses the key `images/products/beverages/b.png`. -/
def exFailsOnB : Processor :=
  ⟨⟨fun _ o => if o.Key = "images/products/beverages/b.png" then some "RequestTimeout" else none,
    fun _ _ _ => none⟩, "coffeeshop"⟩

/-- A batch of three gallery images. -/
def exBatch : List PayloadUploadImage :=
  [⟨"PNGa", "images/products/beverages/a.png", "png"⟩,
   ⟨"PNGb", "images/products/beverages/b.png", "png"⟩,
   ⟨"PNGc", "images/products/beverages/c.png", "png"⟩]

/-- A stored product with one gallery image and no thumbnail. -/
def exNoThumbnail : Item :=
  { latte with Thumbnail := "", Images := ["images/products/beverages/x.png"] }

/-- The object id a text parses to (the nil id for a text that does not parse). -/
def parsedId (s : String) : ObjectID :=
  match ObjectIDFromHex s with
  | .ok id => id
  | .error _ => NilObjectID

/-- An order of two items. -/
def exOrder : List OrderParam := [⟨latteId, 2⟩, ⟨"010101010101010101010101", 1⟩]

/-- The JSON view shows the record: each of its fourteen fields is the field of the
record, the id in hexadecimal. -/
def showsRecord (p : ItemResParams) (it : Item) : Bool :=
  p.Id = it.Id.Hex && p.Images = it.Images && p.Name = it.Name && p.Author = it.Author &&
  p.Price = it.Price && p.Discount = it.Discount && p.Summary = it.Summary &&
  p.Category = it.Category && p.Thumbnail = it.Thumbnail &&
  p.Description = it.Description && p.Ingridients = it.Ingridients &&
  p.Ratings = it.Ratings && p.CreatedAt = it.CreatedAt && p.UpdatedAt = it.UpdatedAt

/-- The parts of a product whose price is the text `Inf`. -/
def infParts : List Part :=
  [exPart "name" "Mocha", exPart "price" "Inf", exPart "category" "beverages",
   exPart "thumbnail" "PNGdata"]

/-- An environment whose queue refuses upload tasks and accepts the others. -/
def exUploadRefused : Env :=
  { exEnv with
    enqueueFault := fun _ t =>
      if t.TypeName = "upload_s3_object" then some "redis: connection refused" else none }

/-! ## Lemmas -/

theorem splitChars_eq_cons (sep : Char) (cs : List Char) :
    ∃ rest, strings.splitChars sep cs = cs.takeWhile (fun c => c ≠ sep) :: rest := by
  induction cs with
  | nil => exact ⟨[], rfl⟩
  | cons c cs ih =>
    obtain ⟨rest, hrest⟩ := ih
    by_cases hc : c = sep
    · exact ⟨strings.splitChars sep cs, by simp [strings.splitChars, hc]⟩
    · exact ⟨rest, by simp [strings.splitChars, hc, hrest]⟩

theorem Split_eq_cons (s : String) :
    ∃ rest, strings.Split s '/' = mediaType s :: rest := by
  obtain ⟨rest, hrest⟩ := splitChars_eq_cons '/' s.toList
  refine ⟨rest.map String.mk, ?_⟩
  unfold strings.Split mediaType
  rw [hrest]
  rfl

theorem ImageProcessor_rejects (env : Env) (d : String) (rand : Except String RandomBytes)
    (required : String) (h : mediaType (env.DetectContentType d) ≠ required) :
    ImageProcessor env (.ok d) rand required = .error (invalidFile required) := by
  obtain ⟨rest, hrest⟩ := Split_eq_cons (env.DetectContentType d)
  simp [ImageProcessor, hrest, h]

theorem enqueue_ok (env : Env) (queue queue1 : List Task) (t : Task)
    (h : enqueue env queue t = .ok queue1) : queue1 = queue ++ [t] := by
  unfold enqueue at h
  split at h
  · simp at h
  · simp at h
    exact h.symm

theorem lastOr_cons {α β : Type} (key : String) (f : Part → Option α) (g : α → β) (init : β)
    (p : Part) (ps : List Part) :
    lastOr key f g init (p :: ps) = lastOr key f g (lastOr key f g init [p]) ps := by
  unfold lastOr
  simp only [lastOf]
  cases lastOf key f ps with
  | some a => rfl
  | none => rfl

theorem payloadsOf_cons (env : Env) (key dir : String) (p : Part) (ps : List Part) :
    payloadsOf env key dir (p :: ps) = payloadsOf env key dir [p] ++ payloadsOf env key dir ps := by
  unfold payloadsOf
  by_cases h : p.FormName = key
  · simp [List.filter_cons, h, List.filterMap_cons]
    cases imagePayload env dir p <;> simp
  · simp [List.filter_cons, h]

theorem assembled_nil (env : Env) (st : CreateSt) : assembled env st [] = st := by
  simp [assembled, lastOr, lastOf, payloadsOf]

theorem assembled_cons (env : Env) (st : CreateSt) (p : Part) (ps : List Part) :
    assembled env st (p :: ps) = assembled env (assembled env st [p]) ps := by
  simp only [assembled, ← lastOr_cons, List.append_assoc, ← List.map_append, ← payloadsOf_cons]

theorem createPart_next (env : Env) (st st1 : CreateSt) (p : Part)
    (h : createPart env st p = .next st1) : st1 = assembled env st [p] := by
  unfold createPart at h
  by_cases h0 : p.FormName = "price"
  · rw [if_pos h0] at h
    repeat' split at h
    all_goals first
      | (simp at h; done)
      | (simp at h; subst h; simp_all [assembled, payloadsOf, lastOr, lastOf, partData])
  rw [if_neg h0] at h
  by_cases h1 : p.FormName = "discount"
  · rw [if_pos h1] at h
    repeat' split at h
    all_goals first
      | (simp at h; done)
      | (simp at h; subst h; simp_all [assembled, payloadsOf, lastOr, lastOf, partData])
  rw [if_neg h1] at h
  by_cases h2 : p.FormName = "ingridients"
  · rw [if_pos h2] at h
    repeat' split at h
    all_goals first
      | (simp at h; done)
      | (simp at h; subst h; simp_all [assembled, payloadsOf, lastOr, lastOf, partData])
  rw [if_neg h2] at h
  by_cases h3 : p.FormName = "name"
  · rw [if_pos h3] at h
    repeat' split at h
    all_goals first
      | (simp at h; done)
      | (simp at h; subst h; simp_all [assembled, payloadsOf, lastOr, lastOf, partData])
  rw [if_neg h3] at h
  by_cases h4 : p.FormName = "summary"
  · rw [if_pos h4] at h
    repeat' split at h
    all_goals first
      | (simp at h; done)
      | (simp at h; subst h; simp_all [assembled, payloadsOf, lastOr, lastOf, partData])
  rw [if_neg h4] at h
  by_cases h5 : p.FormName = "description"
  · rw [if_pos h5] at h
    repeat' split at h
    all_goals first
      | (simp at h; done)
      | (simp at h; subst h; simp_all [assembled, payloadsOf, lastOr, lastOf, partData])
  rw [if_neg h5] at h
  by_cases h6 : p.FormName = "category"
  · rw [if_pos h6] at h
    repeat' split at h
    all_goals first
      | (simp at h; done)
      | (simp at h; subst h; simp_all [assembled, payloadsOf, lastOr, lastOf, partData])
  rw [if_neg h6] at h
  by_cases h7 : p.FormName = "thumbnail"
  · rw [if_pos h7] at h
    cases hip : ImageProcessor env p.data p.rand "image" with
    | error e => rw [hip] at h; simp at h
    | panic => rw [hip] at h; simp at h
    | ok img =>
      rw [hip] at h
      simp only at h
      cases hen : S3ObjectUploadTask env st.queue
          ⟨img.data, "images/products/thumbnails/" ++ img.fileName, img.extension⟩
          uploadOpts with
      | error e => rw [hen] at h; simp at h
      | ok q =>
        rw [hen] at h
        have hq := enqueue_ok env _ _ _ hen
        simp at h
        subst h
        simp_all [assembled, payloadsOf, lastOr, lastOf, partData, imagePayload, uploadTask]
  rw [if_neg h7] at h
  by_cases h8 : p.FormName = "images"
  · rw [if_pos h8] at h
    repeat' split at h
    all_goals first
      | (simp at h; done)
      | (simp at h; subst h;
         simp_all [assembled, payloadsOf, lastOr, lastOf, partData, imagePayload])
  rw [if_neg h8] at h
  simp at h
  subst h
  simp_all [assembled, payloadsOf, lastOr, lastOf, partData]

theorem createLoop_next (env : Env) (tl : Option String) :
    ∀ (parts : List Part) (st st1 : CreateSt),
      createLoop env st parts tl = .next st1 → st1 = assembled env st parts := by
  intro parts
  induction parts with
  | nil =>
    intro st st1 h
    cases tl with
    | none => simp [createLoop] at h; rw [assembled_nil]; exact h.symm
    | some msg => simp [createLoop] at h
  | cons p ps ih =>
    intro st st1 h
    rw [createLoop] at h
    cases hp : createPart env st p with
    | next st2 =>
      rw [hp] at h
      rw [assembled_cons, ← createPart_next env st st2 p hp]
      exact ih st2 st1 h
    | abort e q => rw [hp] at h; simp at h
    | crash q => rw [hp] at h; simp at h

theorem createPart_queue_of_ne_thumbnail (env : Env) (st : CreateSt) (p : Part)
    (h : p.FormName ≠ "thumbnail") :
    (createPart env st p).queueWith CreateSt.queue = st.queue := by
  unfold createPart
  simp only [h, if_false]
  split_ifs <;> (repeat' split) <;> simp [Flow.queueWith]

theorem createLoop_rejected_thumbnail (env : Env) (tl : Option String) (p : Part) (d : String)
    (hd : p.data = .ok d) (hty : mediaType (env.DetectContentType d) ≠ "image") :
    ∀ (parts : List Part) (st : CreateSt),
      parts.filter (fun q => q.FormName = "thumbnail") = [p] →
      (∃ e, createLoop env st parts tl = .abort e st.queue) ∨
        createLoop env st parts tl = .crash st.queue := by
  intro parts
  induction parts with
  | nil => intro st h; simp at h
  | cons x xs ih =>
    intro st h
    by_cases hx : x.FormName = "thumbnail"
    · have hxp : x = p := by
        simp [List.filter_cons, hx] at h
        exact h.1
      subst hxp
      left
      refine ⟨invalidFile "image", ?_⟩
      simp [createLoop, createPart, hx, hd, ImageProcessor_rejects env d _ "image" hty]
    · have hxs : xs.filter (fun q => q.FormName = "thumbnail") = [p] := by
        simpa [List.filter_cons, hx] using h
      have hq := createPart_queue_of_ne_thumbnail env st x hx
      cases h1 : createPart env st x with
      | next st1 =>
        rw [h1] at hq
        simp only [Flow.queueWith] at hq
        rcases ih st1 hxs with ⟨e, h2⟩ | h2
        · left; exact ⟨e, by simp [createLoop, h1, h2, hq]⟩
        · right; simp [createLoop, h1, h2, hq]
      | abort e q =>
        rw [h1] at hq
        simp only [Flow.queueWith] at hq
        left; exact ⟨e, by simp [createLoop, h1, hq]⟩
      | crash q =>
        rw [h1] at hq
        simp only [Flow.queueWith] at hq
        right; simp [createLoop, h1, hq]

/-- C2: a Create request whose only thumbnail part carries content that is not
detected as an image ends with both systems as they were: no task has joined the
queue and no record has joined the product store. -/
theorem create_rejected_only_thumbnail_leaves_systems (env : Env) (r : Request) (sys : Sys)
    (body : Multipart) (p : Part) (d : String)
    (hb : r.body = .ok body)
    (honly : body.parts.filter (fun q => q.FormName = "thumbnail") = [p])
    (hd : p.data = .ok d)
    (hty : mediaType (env.DetectContentType d) ≠ "image") :
    (CreateProductHandler env r sys).2 = sys := by
  unfold CreateProductHandler createCallback
  cases hi : env.indexFault with
  | some e => simp [WithTransaction]
  | none =>
    cases hu : r.user with
    | none => simp [hb, WithTransaction]
    | some author =>
      rcases createLoop_rejected_thumbnail env body.tailErr p d hd hty body.parts
          ⟨{ zeroItem with Author := author }, [], sys.queue⟩ honly with ⟨e, h⟩ | h
      · simp [hb, h, WithTransaction]
      · simp [hb, h, WithTransaction]

theorem create_rejected_only_thumbnail_leaves_systems_witness :
    (CreateProductHandler exEnv
      (exRequest "" [exPart "name" "Mocha", exPart "thumbnail" "hello"])
      ⟨[latte], []⟩).2 = ⟨[latte], []⟩ :=
  create_rejected_only_thumbnail_leaves_systems exEnv
    (exRequest "" [exPart "name" "Mocha", exPart "thumbnail" "hello"]) ⟨[latte], []⟩
    ⟨[exPart "name" "Mocha", exPart "thumbnail" "hello"], none⟩
    (exPart "thumbnail" "hello") "hello" rfl rfl rfl (by decide)

theorem createCallback_of_atValidation (env : Env) (r : Request) (sys : Sys) (item : Item)
    (queue : List Task) (h : atValidation env r sys = some (item, queue)) :
    createCallback env r sys = afterValidation env sys item queue := by
  unfold atValidation at h
  unfold createCallback afterValidation
  cases hi : env.indexFault with
  | some e => simp [hi] at h
  | none =>
    cases hb : r.body with
    | error msg => simp [hi, hb] at h
    | ok body =>
      cases hu : r.user with
      | none => simp [hi, hb, hu] at h
      | some author =>
        simp only [hi, hb, hu] at h
        simp only []
        cases hl : createLoop env ⟨{ zeroItem with Author := author }, [], sys.queue⟩
            body.parts body.tailErr with
        | abort e q => simp [hl] at h
        | crash q => simp [hl] at h
        | next st =>
          simp only [hl] at h
          simp only []
          cases hq : MultipleS3ObjectUploadTask env st.queue st.images uploadOpts with
          | error e => simp [hq] at h
          | ok q =>
            simp only [hq, Option.some.injEq, Prod.mk.injEq] at h
            obtain ⟨h1, h2⟩ := h
            subst h1 h2
            rfl

theorem atValidation_assembled (env : Env) (r : Request) (sys : Sys) (body : Multipart)
    (author : String) (item : Item) (queue : List Task)
    (hb : r.body = .ok body) (hu : r.user = some author)
    (h : atValidation env r sys = some (item, queue)) :
    item = stampItem env
        (assembled env ⟨{ zeroItem with Author := author }, [], sys.queue⟩ body.parts).item ∧
      queue = sys.queue ++
        (payloadsOf env "thumbnail" "images/products/thumbnails/" body.parts).map uploadTask ++
        [batchTask (payloadsOf env "images" "images/products/beverages/" body.parts)] := by
  unfold atValidation at h
  cases hi : env.indexFault with
  | some e => simp [hi] at h
  | none =>
    simp only [hi, hb, hu] at h
    cases hl : createLoop env ⟨{ zeroItem with Author := author }, [], sys.queue⟩
        body.parts body.tailErr with
    | abort e q => simp [hl] at h
    | crash q => simp [hl] at h
    | next st =>
      simp only [hl] at h
      have hst := createLoop_next env body.tailErr body.parts _ st hl
      cases hq : MultipleS3ObjectUploadTask env st.queue st.images uploadOpts with
      | error e => simp [hq] at h
      | ok q =>
        simp only [hq, Option.some.injEq, Prod.mk.injEq] at h
        obtain ⟨h1, h2⟩ := h
        have hq2 := enqueue_ok env _ _ _ hq
        subst h1 h2
        subst hst
        refine ⟨rfl, ?_⟩
        rw [hq2]
        simp [assembled, batchTask]

theorem createLoop_append (env : Env) (tl : Option String) (rest : List Part) :
    ∀ (pre : List Part) (st st1 : CreateSt),
      createLoop env st pre none = .next st1 →
      createLoop env st (pre ++ rest) tl = createLoop env st1 rest tl := by
  intro pre
  induction pre with
  | nil =>
    intro st st1 h
    simp [createLoop] at h
    subst h
    rfl
  | cons p ps ih =>
    intro st st1 h
    rw [createLoop] at h
    rw [List.cons_append, createLoop]
    cases hp : createPart env st p with
    | next st2 =>
      rw [hp] at h
      exact ih st2 st1 h
    | abort e q => rw [hp] at h; simp at h
    | crash q => rw [hp] at h; simp at h

theorem Hex_ne_empty (id : ObjectID) : id.Hex ≠ "" := by
  obtain ⟨bytes, len⟩ := id
  cases bytes with
  | nil => simp at len
  | cons b bs =>
    intro h
    have h2 := congrArg String.data h
    simp [ObjectID.Hex, hexEncode, hexByte] at h2

theorem createPart_next_thumbnail (env : Env) (st st1 : CreateSt) (p : Part)
    (h : createPart env st p = .next st1) (hname : p.FormName = "thumbnail") (dir : String) :
    (payloadsOf env "thumbnail" dir [p]).length = 1 := by
  unfold createPart at h
  simp only [hname] at h
  simp only [show ¬ ("thumbnail" = "price") by decide, show ¬ ("thumbnail" = "discount") by decide,
    show ¬ ("thumbnail" = "ingridients") by decide, show ¬ ("thumbnail" = "name") by decide,
    show ¬ ("thumbnail" = "summary") by decide, show ¬ ("thumbnail" = "description") by decide,
    show ¬ ("thumbnail" = "category") by decide, if_false, if_true] at h
  cases hip : ImageProcessor env p.data p.rand "image" with
  | error e => rw [hip] at h; simp at h
  | panic => rw [hip] at h; simp at h
  | ok img => simp [payloadsOf, hname, imagePayload, hip]

theorem createLoop_thumbnails_accepted (env : Env) (tl : Option String) (dir : String) :
    ∀ (parts : List Part) (st st1 : CreateSt),
      createLoop env st parts tl = .next st1 →
      (payloadsOf env "thumbnail" dir parts).length =
        (parts.filter (fun q => q.FormName = "thumbnail")).length := by
  intro parts
  induction parts with
  | nil => intro st st1 _; rfl
  | cons p ps ih =>
    intro st st1 h
    rw [createLoop] at h
    cases hp : createPart env st p with
    | next st2 =>
      rw [hp] at h
      rw [payloadsOf_cons, List.length_append, ih st2 st1 h]
      by_cases hname : p.FormName = "thumbnail"
      · rw [createPart_next_thumbnail env st st2 p hp hname dir]
        simp [List.filter_cons, hname, Nat.add_comm]
      · simp [payloadsOf, List.filter_cons, hname]
    | abort e q => rw [hp] at h; simp at h
    | crash q => rw [hp] at h; simp at h

theorem InsertOne_duplicate_name (env : Env) (coll : List Item) (doc x : Item)
    (hw : env.writeFault = none) (hx : x ∈ coll) (hname : x.Name = doc.Name) :
    InsertOne env coll doc = .error (.writeException [11000]) := by
  unfold InsertOne
  rw [hw]
  have hany : coll.any (fun it => it.Id = doc.Id || it.Name = doc.Name) = true := by
    rw [List.any_eq_true]
    exact ⟨x, hx, by simp [hname]⟩
  simp [hany]

theorem InsertOne_fresh (env : Env) (coll : List Item) (doc : Item)
    (hw : env.writeFault = none)
    (hfresh : ∀ x ∈ coll, x.Id ≠ doc.Id ∧ x.Name ≠ doc.Name) :
    InsertOne env coll doc = .ok (coll ++ [doc]) := by
  unfold InsertOne
  rw [hw]
  have hany : coll.any (fun it => it.Id = doc.Id || it.Name = doc.Name) = false := by
    rw [List.any_eq_false]
    intro x hx
    have := hfresh x hx
    simp [this.1, this.2]
  simp [hany]

theorem validatorStruct_rejects (env : Env) (item : Item) (h : env.Struct item ≠ []) :
    ∃ f fs, validatorStruct env item = some (.validationErrors (f :: fs)) := by
  unfold validatorStruct
  cases hs : env.Struct item with
  | nil => exact absurd hs h
  | cons f fs => exact ⟨f, fs, rfl⟩

theorem validatorStruct_accepts (env : Env) (item : Item) (h : env.Struct item = []) :
    validatorStruct env item = none := by
  simp [validatorStruct, h]

/-- C1, as the code has it: when the assembled record of a Create request fails
validation, no record is inserted and nothing is enqueued at or after the validation
step, but the tasks enqueued before it stay: the queue after the attempt is the queue
before it followed by one upload task per thumbnail part of the request, in request
order, and by the batch-upload task of its gallery images. -/
theorem create_validation_failure_keeps_enqueued (env : Env) (r : Request) (sys : Sys)
    (body : Multipart) (author : String) (item : Item) (queue : List Task)
    (hb : r.body = .ok body) (hu : r.user = some author)
    (hv : atValidation env r sys = some (item, queue))
    (hrej : env.Struct item ≠ []) :
    (CreateProductHandler env r sys).2.store = sys.store ∧
    (CreateProductHandler env r sys).2.queue =
      sys.queue ++
        (payloadsOf env "thumbnail" "images/products/thumbnails/" body.parts).map uploadTask ++
        [batchTask (payloadsOf env "images" "images/products/beverages/" body.parts)] ∧
    (payloadsOf env "thumbnail" "images/products/thumbnails/" body.parts).length =
      (body.parts.filter (fun q => q.FormName = "thumbnail")).length := by
  obtain ⟨f, fs, hvs⟩ := validatorStruct_rejects env item hrej
  have hq := (atValidation_assembled env r sys body author item queue hb hu hv).2
  have hcb := createCallback_of_atValidation env r sys item queue hv
  refine ⟨?_, ?_, ?_⟩
  · simp [CreateProductHandler, hcb, afterValidation, hvs, WithTransaction]
  · simp only [CreateProductHandler, hcb, afterValidation, hvs, WithTransaction]
    exact hq
  · unfold atValidation at hv
    cases hi : env.indexFault with
    | some e => simp [hi] at hv
    | none =>
      simp only [hi, hb, hu] at hv
      cases hl : createLoop env ⟨{ zeroItem with Author := author }, [], sys.queue⟩
          body.parts body.tailErr with
      | abort e q => simp [hl] at hv
      | crash q => simp [hl] at hv
      | next st => exact createLoop_thumbnails_accepted env body.tailErr _ body.parts _ st hl

theorem create_validation_failure_keeps_enqueued_witness :
    (CreateProductHandler exEnv (exRequest "" [exPart "thumbnail" "PNGdata"])
        ⟨[latte], []⟩).2.store = [latte] ∧
    (CreateProductHandler exEnv (exRequest "" [exPart "thumbnail" "PNGdata"])
        ⟨[latte], []⟩).2.queue =
      [] ++
        (payloadsOf exEnv "thumbnail" "images/products/thumbnails/"
          [exPart "thumbnail" "PNGdata"]).map uploadTask ++
        [batchTask (payloadsOf exEnv "images" "images/products/beverages/"
          [exPart "thumbnail" "PNGdata"])] ∧
    (payloadsOf exEnv "thumbnail" "images/products/thumbnails/"
        [exPart "thumbnail" "PNGdata"]).length =
      ([exPart "thumbnail" "PNGdata"].filter (fun q => q.FormName = "thumbnail")).length :=
  create_validation_failure_keeps_enqueued exEnv (exRequest "" [exPart "thumbnail" "PNGdata"])
    ⟨[latte], []⟩ ⟨[exPart "thumbnail" "PNGdata"], none⟩ "user1"
    (stampItem exEnv
      { zeroItem with
        Author := "user1",
        Thumbnail := "images/products/thumbnails/abababababababababababababababab.png" })
    [uploadTask ⟨"PNGdata",
        "images/products/thumbnails/abababababababababababababababab.png", "png"⟩,
      batchTask []]
    rfl rfl (by decide) (by decide)

/-- C1 fails as stated: a Create request with a PNG thumbnail and no name fails
validation, and the upload task of the thumbnail and the batch task are in the queue. -/
theorem create_validation_failure_has_enqueued :
    (createCallback exEnv (exRequest "" [exPart "thumbnail" "PNGdata"]) ⟨[], []⟩).result =
      .error (.validationErrors ["Name", "Category", "Price"]) ∧
    (CreateProductHandler exEnv (exRequest "" [exPart "thumbnail" "PNGdata"]) ⟨[], []⟩).2.queue =
      [uploadTask ⟨"PNGdata",
          "images/products/thumbnails/abababababababababababababababab.png", "png"⟩,
        batchTask []] ∧
    (CreateProductHandler exEnv (exRequest "" [exPart "thumbnail" "PNGdata"]) ⟨[], []⟩).2.queue ≠
      (⟨[], []⟩ : Sys).queue := by
  decide

/-- C3, as the code has it: when the part loop of `CreateProductHandler` reaches a
thumbnail part whose content is not detected as an image, the transaction callback
returns the error of `ImageProcessor`, `invalid file! required file is image`; this
error is neither a write exception nor a `validator.ValidationErrors` value, so no
HTTP 400 branch of the error mapping answers it and the caller receives no 400
response. -/
theorem create_rejected_thumbnail_not_400 (env : Env) (r : Request) (sys : Sys)
    (body : Multipart) (author : String) (pre post : List Part) (p : Part) (d : String)
    (st : CreateSt)
    (hi : env.indexFault = none) (hb : r.body = .ok body) (hu : r.user = some author)
    (hparts : body.parts = pre ++ p :: post)
    (hpre : createLoop env ⟨{ zeroItem with Author := author }, [], sys.queue⟩ pre none =
      .next st)
    (hname : p.FormName = "thumbnail") (hd : p.data = .ok d)
    (hty : mediaType (env.DetectContentType d) ≠ "image") :
    (createCallback env r sys).result = .error (invalidFile "image") ∧
    errorsAsWriteException (invalidFile "image") = false ∧
    (∀ fields, invalidFile "image" ≠ .validationErrors fields) ∧
    ∀ b, (CreateProductHandler env r sys).1 ≠ .response 400 b := by
  have hloop : createLoop env ⟨{ zeroItem with Author := author }, [], sys.queue⟩
      body.parts body.tailErr = .abort (invalidFile "image") st.queue := by
    rw [hparts, createLoop_append env body.tailErr (p :: post) pre _ st hpre, createLoop]
    simp [createPart, hname, hd, ImageProcessor_rejects env d _ "image" hty]
  have hres : (createCallback env r sys).result = .error (invalidFile "image") := by
    simp [createCallback, hi, hb, hu, hloop]
  refine ⟨hres, rfl, ?_, ?_⟩
  · intro fields h
    simp [invalidFile] at h
  · intro b h
    simp [CreateProductHandler, hres, createRespond, createErrorResponse, invalidFile,
      errorsAsWriteException, errorsIsFreshSyntaxError] at h

theorem create_rejected_thumbnail_not_400_witness :
    (createCallback exEnv (exRequest "" [exPart "name" "Mocha", exPart "thumbnail" "hello"])
        ⟨[], []⟩).result = .error (invalidFile "image") ∧
    errorsAsWriteException (invalidFile "image") = false ∧
    (∀ fields, invalidFile "image" ≠ .validationErrors fields) ∧
    ∀ b, (CreateProductHandler exEnv
        (exRequest "" [exPart "name" "Mocha", exPart "thumbnail" "hello"]) ⟨[], []⟩).1 ≠
      .response 400 b :=
  create_rejected_thumbnail_not_400 exEnv
    (exRequest "" [exPart "name" "Mocha", exPart "thumbnail" "hello"]) ⟨[], []⟩
    ⟨[exPart "name" "Mocha", exPart "thumbnail" "hello"], none⟩ "user1"
    [exPart "name" "Mocha"] [] (exPart "thumbnail" "hello") "hello"
    ⟨{ zeroItem with Author := "user1", Name := "Mocha" }, [], []⟩
    rfl rfl rfl rfl rfl rfl rfl (by decide)

/-- C3 fails as stated: for a Create request whose thumbnail is plain text the callback
returns the error of `ImageProcessor` and the handler panics in its error mapping; the
caller receives no response, so no HTTP 400. -/
theorem create_rejected_thumbnail_panics :
    (createCallback exEnv (exRequest "" [exPart "thumbnail" "hello"]) ⟨[], []⟩).result =
      .error (invalidFile "image") ∧
    (CreateProductHandler exEnv (exRequest "" [exPart "thumbnail" "hello"]) ⟨[], []⟩).1 =
      .panic := by
  decide

theorem atValidation_name (env : Env) (r : Request) (sys : Sys) (body : Multipart)
    (author : String) (item : Item) (queue : List Task)
    (hb : r.body = .ok body) (hu : r.user = some author)
    (h : atValidation env r sys = some (item, queue)) :
    item.Name = lastOr "name" partData id "" body.parts := by
  rw [(atValidation_assembled env r sys body author item queue hb hu h).1]
  rfl

theorem createCallback_duplicate (env : Env) (r : Request) (sys : Sys) (body : Multipart)
    (author : String) (item : Item) (queue : List Task) (x : Item)
    (hb : r.body = .ok body) (hu : r.user = some author)
    (hv : atValidation env r sys = some (item, queue))
    (hok : env.Struct item = []) (hw : env.writeFault = none)
    (hx : x ∈ sys.store) (hname : x.Name = lastOr "name" partData id "" body.parts) :
    createCallback env r sys = ⟨.error (.writeException [11000]), sys.store, queue⟩ := by
  rw [createCallback_of_atValidation env r sys item queue hv]
  have hn : x.Name = item.Name := by
    rw [hname, atValidation_name env r sys body author item queue hb hu hv]
  simp [afterValidation, validatorStruct_accepts env item hok,
    InsertOne_duplicate_name env sys.store item x hw hx hn]

/-- C4: a Create request that reaches the insert with a name equal to the name of a
stored record fails with the duplicate-key write exception (code 11000, the conflict
error); the product store is as before and the queue is as it was when the insert was
attempted, so no task is enqueued after the conflicting insert. -/
theorem create_duplicate_name_conflict (env : Env) (r : Request) (sys : Sys)
    (body : Multipart) (author : String) (item : Item) (queue : List Task) (x : Item)
    (hb : r.body = .ok body) (hu : r.user = some author)
    (hv : atValidation env r sys = some (item, queue))
    (hok : env.Struct item = []) (hw : env.writeFault = none)
    (hx : x ∈ sys.store) (hname : x.Name = lastOr "name" partData id "" body.parts) :
    (createCallback env r sys).result = .error (.writeException [11000]) ∧
    (CreateProductHandler env r sys).2.store = sys.store ∧
    (CreateProductHandler env r sys).2.queue = queue := by
  have h := createCallback_duplicate env r sys body author item queue x hb hu hv hok hw hx hname
  simp [CreateProductHandler, h, WithTransaction]

theorem create_duplicate_name_conflict_witness :
    (createCallback exEnv (exRequest "" latteParts) ⟨[latte], []⟩).result =
      .error (.writeException [11000]) ∧
    (CreateProductHandler exEnv (exRequest "" latteParts) ⟨[latte], []⟩).2.store = [latte] ∧
    (CreateProductHandler exEnv (exRequest "" latteParts) ⟨[latte], []⟩).2.queue =
      [uploadTask ⟨"PNGdata",
          "images/products/thumbnails/abababababababababababababababab.png", "png"⟩,
        batchTask []] :=
  create_duplicate_name_conflict exEnv (exRequest "" latteParts) ⟨[latte], []⟩
    ⟨latteParts, none⟩ "user1"
    (stampItem exEnv
      { zeroItem with
        Author := "user1", Name := "Caffe Latte", Price := 5, Category := "beverages",
        Thumbnail := "images/products/thumbnails/abababababababababababababababab.png" })
    [uploadTask ⟨"PNGdata",
        "images/products/thumbnails/abababababababababababababababab.png", "png"⟩,
      batchTask []]
    latte rfl rfl (by decide) (by decide) rfl (by decide) (by decide)

/-- C7, as the code has it: creating a product whose name duplicates the name of a
stored product is answered with HTTP status 400 (Bad Request), the error being the
duplicate-key write exception behind the text `document already exists`. -/
theorem create_duplicate_name_is_400 (env : Env) (r : Request) (sys : Sys)
    (body : Multipart) (author : String) (item : Item) (queue : List Task) (x : Item)
    (hb : r.body = .ok body) (hu : r.user = some author)
    (hv : atValidation env r sys = some (item, queue))
    (hok : env.Struct item = []) (hw : env.writeFault = none)
    (hx : x ∈ sys.store) (hname : x.Name = lastOr "name" partData id "" body.parts) :
    (CreateProductHandler env r sys).1 =
      .response 400
        (.failed "failed" (.wrap "document already exists " (.writeException [11000]))) := by
  have h := createCallback_duplicate env r sys body author item queue x hb hu hv hok hw hx hname
  simp [CreateProductHandler, h, createRespond, createErrorResponse, errorsAsWriteException]

theorem create_duplicate_name_is_400_witness :
    (CreateProductHandler exEnv (exRequest "" latteParts) ⟨[latte], []⟩).1 =
      .response 400
        (.failed "failed" (.wrap "document already exists " (.writeException [11000]))) :=
  create_duplicate_name_is_400 exEnv (exRequest "" latteParts) ⟨[latte], []⟩
    ⟨latteParts, none⟩ "user1"
    (stampItem exEnv
      { zeroItem with
        Author := "user1", Name := "Caffe Latte", Price := 5, Category := "beverages",
        Thumbnail := "images/products/thumbnails/abababababababababababababababab.png" })
    [uploadTask ⟨"PNGdata",
        "images/products/thumbnails/abababababababababababababababab.png", "png"⟩,
      batchTask []]
    latte rfl rfl (by decide) (by decide) rfl (by decide) (by decide)

/-- C7 fails as stated: the duplicate of the stored product `Caffe Latte` is answered
with status 400, so with no response of status 500. -/
theorem create_duplicate_not_500 :
    (CreateProductHandler exEnv (exRequest "" latteParts) ⟨[latte], []⟩).1 =
      .response 400
        (.failed "failed" (.wrap "document already exists " (.writeException [11000]))) ∧
    ∀ b, (CreateProductHandler exEnv (exRequest "" latteParts) ⟨[latte], []⟩).1 ≠
      .response 500 b := by
  have h : (CreateProductHandler exEnv (exRequest "" latteParts) ⟨[latte], []⟩).1 =
      .response 400
        (.failed "failed" (.wrap "document already exists " (.writeException [11000]))) := by
    decide
  refine ⟨h, ?_⟩
  intro b hb
  rw [h] at hb
  simp at hb

theorem createHandler_validation_failure (env : Env) (r : Request) (sys : Sys) (item : Item)
    (queue : List Task) (hv : atValidation env r sys = some (item, queue))
    (hrej : env.Struct item ≠ []) :
    (∃ fields, (CreateProductHandler env r sys).1 =
      .response 400
        (.failed "failed"
          (.wrap "ivalid data input for operation " (.validationErrors fields)))) ∧
    (CreateProductHandler env r sys).2.store = sys.store := by
  obtain ⟨f, fs, hvs⟩ := validatorStruct_rejects env item hrej
  have hcb := createCallback_of_atValidation env r sys item queue hv
  refine ⟨⟨f :: fs, ?_⟩, ?_⟩
  · simp [CreateProductHandler, hcb, afterValidation, hvs, createRespond, createErrorResponse,
      errorsAsWriteException, errorsIsFreshSyntaxError]
  · simp [CreateProductHandler, hcb, afterValidation, hvs, WithTransaction]

theorem atValidation_no_parts (env : Env) (r : Request) (sys : Sys) (author : String)
    (hb : r.body = .ok ⟨[], none⟩) (hu : r.user = some author)
    (hi : env.indexFault = none) (hq : env.enqueueFault sys.queue (batchTask []) = none) :
    atValidation env r sys =
      some (stampItem env { zeroItem with Author := author }, sys.queue ++ [batchTask []]) := by
  unfold batchTask at hq
  simp [atValidation, hi, hb, hu, createLoop, MultipleS3ObjectUploadTask, enqueue, hq,
    batchTask]

/-- C5: with a validator that enforces the required-field constraints (name, category,
price > 0), every Create request whose assembled record violates one of them is
answered with HTTP 400 and inserts no record; in particular the request with no form
parts at all, whose record has no name. -/
theorem create_missing_required_is_400 (env : Env) (r : Request) (sys : Sys)
    (henf : ∀ it, missingRequired it = true → env.Struct it ≠ []) :
    (∀ item queue, atValidation env r sys = some (item, queue) →
      missingRequired item = true →
      (∃ fields, (CreateProductHandler env r sys).1 =
        .response 400
          (.failed "failed"
            (.wrap "ivalid data input for operation " (.validationErrors fields)))) ∧
      (CreateProductHandler env r sys).2.store = sys.store) ∧
    (∀ author, r.body = .ok ⟨[], none⟩ → r.user = some author → env.indexFault = none →
      env.enqueueFault sys.queue (batchTask []) = none →
      (∃ fields, (CreateProductHandler env r sys).1 =
        .response 400
          (.failed "failed"
            (.wrap "ivalid data input for operation " (.validationErrors fields)))) ∧
      (CreateProductHandler env r sys).2.store = sys.store) := by
  refine ⟨?_, ?_⟩
  · intro item queue hv hmiss
    exact createHandler_validation_failure env r sys item queue hv (henf item hmiss)
  · intro author hb hu hi hq
    have hv := atValidation_no_parts env r sys author hb hu hi hq
    refine createHandler_validation_failure env r sys _ _ hv (henf _ ?_)
    simp [missingRequired, stampItem, zeroItem]

theorem exStruct_enforces (it : Item) (h : missingRequired it = true) : exStruct it ≠ [] := by
  unfold missingRequired at h
  unfold exStruct
  simp only [Bool.or_eq_true, decide_eq_true_eq] at h
  rcases h with (h | h) | h
  · simp [h]
  · simp [h]
  · simp only [Bool.not_eq_true'] at h
    simp [h]

theorem create_missing_required_is_400_witness :
    ((∃ fields, (CreateProductHandler exEnv
          (exRequest "" [exPart "name" "Mocha", exPart "price" "5"]) ⟨[latte], []⟩).1 =
        .response 400
          (.failed "failed"
            (.wrap "ivalid data input for operation " (.validationErrors fields)))) ∧
      (CreateProductHandler exEnv
        (exRequest "" [exPart "name" "Mocha", exPart "price" "5"]) ⟨[latte], []⟩).2.store =
        [latte]) ∧
    ((∃ fields, (CreateProductHandler exEnv (exRequest "" []) ⟨[latte], []⟩).1 =
        .response 400
          (.failed "failed"
            (.wrap "ivalid data input for operation " (.validationErrors fields)))) ∧
      (CreateProductHandler exEnv (exRequest "" []) ⟨[latte], []⟩).2.store = [latte]) :=
  ⟨(create_missing_required_is_400 exEnv
        (exRequest "" [exPart "name" "Mocha", exPart "price" "5"]) ⟨[latte], []⟩
        exStruct_enforces).1
      (stampItem exEnv { zeroItem with Author := "user1", Name := "Mocha", Price := 5 })
      [batchTask []] (by decide) (by decide),
    (create_missing_required_is_400 exEnv (exRequest "" []) ⟨[latte], []⟩
        exStruct_enforces).2 "user1" rfl rfl rfl rfl⟩

theorem createProduct_eq_getProduct (item : Item) (h : item.Ratings = 0) :
    createProduct item = getProduct item := by
  simp [createProduct, getProduct, zeroItemResParams, h]

/-- C6 fails as stated: a Create request whose price part is the text `Inf` parses and
passes a validator that asks for a positive price; the record is inserted with the
price `+Inf`, and the response has status 201 and no body, because `json.Encoder`
refuses the record after the status has been written. -/
theorem create_infinite_price_has_no_body :
    (createCallback exEnv (exRequest "" infParts) ⟨[latte], []⟩).result =
      .ok (createProduct { mocha with Price := .posInf }) ∧
    (CreateProductHandler exEnv (exRequest "" infParts) ⟨[latte], []⟩).2.store =
      [latte, { mocha with Price := .posInf }] ∧
    (CreateProductHandler exEnv (exRequest "" infParts) ⟨[latte], []⟩).1 =
      .response 201 .empty := by
  decide

/-- C6, amended: a Create request that parses and validates, with a name no stored
record has (and a generated id no stored record has, the database and the commit not
failing), adds exactly one record to the product store: its id is the generated one,
its timestamps are the two readings of the clock, and its name, price, discount,
category, summary, description, ingredients, thumbnail key and image keys are those the
parts of the request carry; the response has status 201; when the price is a finite
number its body shows that record field by field, with a non-empty id, and when the
price is not finite it has no body. -/
theorem create_success_inserts_record (env : Env) (r : Request) (sys : Sys)
    (body : Multipart) (author : String) (item : Item) (queue : List Task)
    (hb : r.body = .ok body) (hu : r.user = some author)
    (hv : atValidation env r sys = some (item, queue))
    (hok : env.Struct item = []) (hw : env.writeFault = none) (hc : env.commitFault = none)
    (hfresh : ∀ x ∈ sys.store,
      x.Id ≠ env.NewObjectID ∧ x.Name ≠ lastOr "name" partData id "" body.parts) :
    (CreateProductHandler env r sys).2.store = sys.store ++ [item] ∧
    item.Id = env.NewObjectID ∧ item.CreatedAt = env.Now 0 ∧ item.UpdatedAt = env.Now 1 ∧
    item.Name = lastOr "name" partData id "" body.parts ∧
    item.Price = lastOr "price" partData (fun d => (env.ParseFloat d).getD 0) 0 body.parts ∧
    item.Discount =
      lastOr "discount" partData (fun d => (env.ParseUint d).getD 0 % 2 ^ 32) 0 body.parts ∧
    item.Category = lastOr "category" partData id "" body.parts ∧
    item.Summary = lastOr "summary" partData id "" body.parts ∧
    item.Description = lastOr "description" partData id "" body.parts ∧
    item.Ingridients =
      lastOr "ingridients" partData (fun d => strings.Split d ',') [] body.parts ∧
    item.Thumbnail =
      lastOr "thumbnail" (imagePayload env "images/products/thumbnails/")
        (fun q => q.ObjectKey) "" body.parts ∧
    item.Images =
      (payloadsOf env "images" "images/products/beverages/" body.parts).map
        (fun q => q.ObjectKey) ∧
    item.Author = author ∧
    (item.Price.isFinite = true →
      ∃ p, (CreateProductHandler env r sys).1 = .response 201 (.success p) ∧
        showsRecord p item = true ∧ p.Id ≠ "") ∧
    (item.Price.isFinite = false →
      (CreateProductHandler env r sys).1 = .response 201 .empty) := by
  have hitem := (atValidation_assembled env r sys body author item queue hb hu hv).1
  have hcb := createCallback_of_atValidation env r sys item queue hv
  have hname : item.Name = lastOr "name" partData id "" body.parts := by rw [hitem]; rfl
  have hid : item.Id = env.NewObjectID := by rw [hitem]; rfl
  have hins : InsertOne env sys.store item = .ok (sys.store ++ [item]) := by
    apply InsertOne_fresh env sys.store item hw
    intro x hx
    rw [hid, hname]
    exact hfresh x hx
  have hrat : item.Ratings = 0 := by rw [hitem]; rfl
  have hout : createCallback env r sys =
      ⟨.ok (createProduct item), sys.store ++ [item], queue⟩ := by
    rw [hcb]
    simp [afterValidation, validatorStruct_accepts env item hok, hins, hc]
  have hresp : (CreateProductHandler env r sys).1 =
      ResponseHandler (.success (createProduct item)) 201 := by
    simp [CreateProductHandler, hout, createRespond]
  have henc : (Body.success (createProduct item)).encodable = item.Price.isFinite := by
    simp [Body.encodable, createProduct, zeroItemResParams, Float64.isFinite]
  refine ⟨?_, hid, ?_, ?_, hname, ?_, ?_, ?_, ?_, ?_, ?_, ?_, ?_, ?_, ?_, ?_⟩
  · simp [CreateProductHandler, hout, WithTransaction]
  · rw [hitem]; rfl
  · rw [hitem]; rfl
  · rw [hitem]; rfl
  · rw [hitem]; rfl
  · rw [hitem]; rfl
  · rw [hitem]; rfl
  · rw [hitem]; rfl
  · rw [hitem]; rfl
  · rw [hitem]; rfl
  · rw [hitem]; simp [stampItem, assembled, zeroItem]
  · rw [hitem]; rfl
  · intro hfin
    refine ⟨createProduct item, ?_, ?_, Hex_ne_empty item.Id⟩
    · rw [hresp, ResponseHandler, henc, hfin]
      rfl
    · simp [showsRecord, createProduct, zeroItemResParams, hrat]
  · intro hinf
    rw [hresp, ResponseHandler, henc, hinf]
    rfl

theorem create_success_inserts_record_witness :
    (CreateProductHandler exEnv (exRequest "" mochaParts) ⟨[latte], []⟩).2.store =
      [latte] ++ [mocha] ∧
    mocha.Id = exEnv.NewObjectID ∧ mocha.Name = "Mocha" ∧ mocha.Price = 5 ∧
    (∃ p, (CreateProductHandler exEnv (exRequest "" mochaParts) ⟨[latte], []⟩).1 =
        .response 201 (.success p) ∧ showsRecord p mocha = true ∧ p.Id ≠ "") :=
  have h := create_success_inserts_record exEnv (exRequest "" mochaParts) ⟨[latte], []⟩
    ⟨mochaParts, none⟩ "user1" mocha
    [uploadTask ⟨"PNGdata",
        "images/products/thumbnails/abababababababababababababababab.png", "png"⟩,
      batchTask []]
    rfl rfl (by decide) (by decide) rfl rfl (by decide)
  ⟨h.1, h.2.1, by decide, by decide, h.2.2.2.2.2.2.2.2.2.2.2.2.2.2.1 rfl⟩

theorem find?_none_of_fresh (coll : List Item) (id : ObjectID) (h : ∀ x ∈ coll, x.Id ≠ id) :
    coll.find? (fun it => it.Id = id) = none := by
  rw [List.find?_eq_none]
  intro x hx
  simp [h x hx]

/-- C10: an Update whose well-formed id matches no stored record (the database
answering the lookup) is answered with HTTP 404, the error being
`mongo.ErrNoDocuments`; no task is enqueued and the product store is unchanged. -/
theorem update_unknown_id_not_found (env : Env) (r : Request) (sys : Sys) (id : ObjectID)
    (hid : ObjectIDFromHex (r.Vars "id") = .ok id) (hr : env.readFault = none)
    (hno : ∀ x ∈ sys.store, x.Id ≠ id) :
    (updateCallback env r sys).result = .error .errNoDocuments ∧
    (UpdateProductHandler env r sys).1 =
      .response 404 (.failed "failed" (.wrap "document not found " .errNoDocuments)) ∧
    (UpdateProductHandler env r sys).2 = sys := by
  have hcb : updateCallback env r sys = ⟨.error .errNoDocuments, sys.store, sys.queue⟩ := by
    simp [updateCallback, hid, FindOne, hr, find?_none_of_fresh sys.store id hno]
  simp [UpdateProductHandler, hcb, updateRespond, updateErrorResponse, errorsAsWriteException,
    errorsIsNoDocuments, WithTransaction]

theorem update_unknown_id_not_found_witness :
    (updateCallback exEnv (exRequest "65bcc06cbc92379c5b6fe79b" [exPart "price" "5"])
        ⟨[latte], []⟩).result = .error .errNoDocuments ∧
    (UpdateProductHandler exEnv (exRequest "65bcc06cbc92379c5b6fe79b" [exPart "price" "5"])
        ⟨[latte], []⟩).1 =
      .response 404 (.failed "failed" (.wrap "document not found " .errNoDocuments)) ∧
    (UpdateProductHandler exEnv (exRequest "65bcc06cbc92379c5b6fe79b" [exPart "price" "5"])
        ⟨[latte], []⟩).2 = ⟨[latte], []⟩ :=
  update_unknown_id_not_found exEnv (exRequest "65bcc06cbc92379c5b6fe79b" [exPart "price" "5"])
    ⟨[latte], []⟩
    ⟨[101, 188, 192, 108, 188, 146, 55, 156, 91, 111, 231, 155], by decide⟩
    rfl rfl (by decide)

/-- C9 fails on the code: after a successful Update of the price of a product that
`user1` created, the stored record still has author `user1`, and the record returned
to the caller has the empty author; its other thirteen fields are those of the
stored record. -/
theorem update_response_drops_author :
    (UpdateProductHandler exEnv (exRequest latteId [exPart "price" "5"]) ⟨[latte], []⟩).2.store =
      [{ latte with Price := 5, UpdatedAt := 100 }] ∧
    (UpdateProductHandler exEnv (exRequest latteId [exPart "price" "5"]) ⟨[latte], []⟩).1 =
      .response 200
        (.success { getProduct { latte with Price := 5, UpdatedAt := 100 } with Author := "" }) ∧
    (getProduct { latte with Price := 5, UpdatedAt := 100 }).Author = "user1" := by
  decide

theorem lookup_set_ne (m : BsonM) (key k : String) (v : BsonValue) (h : key ≠ k) :
    List.lookup k (m.set key v) = List.lookup k m := by
  have hb : (k == key) = false := by
    rw [beq_eq_false_iff_ne]
    exact Ne.symm h
  simp [BsonM.set, List.lookup_cons, hb]

theorem lookup_set_self (m : BsonM) (key : String) (v : BsonValue) :
    List.lookup key (m.set key v) = some v := by
  simp [BsonM.set, List.lookup_cons]

theorem updatePart_lookup_other (env : Env) (item : Item) (st st1 : UpdateSt) (p : Part)
    (h : updatePart env item st p = .next st1) :
    ∀ k, p.FormName ≠ k → st1.updates.lookup k = st.updates.lookup k := by
  unfold updatePart at h
  by_cases h0 : p.FormName = "name"
  · rw [if_pos h0] at h
    repeat' split at h
    all_goals first
      | (simp at h; done)
      | (simp at h; subst h; intro k hk; rw [h0] at hk;
         exact lookup_set_ne _ _ _ _ hk)
  rw [if_neg h0] at h
  by_cases h1 : p.FormName = "summary"
  · rw [if_pos h1] at h
    repeat' split at h
    all_goals first
      | (simp at h; done)
      | (simp at h; subst h; intro k hk; rw [h1] at hk;
         exact lookup_set_ne _ _ _ _ hk)
  rw [if_neg h1] at h
  by_cases h2 : p.FormName = "description"
  · rw [if_pos h2] at h
    repeat' split at h
    all_goals first
      | (simp at h; done)
      | (simp at h; subst h; intro k hk; rw [h2] at hk;
         exact lookup_set_ne _ _ _ _ hk)
  rw [if_neg h2] at h
  by_cases h3 : p.FormName = "price"
  · rw [if_pos h3] at h
    repeat' split at h
    all_goals first
      | (simp at h; done)
      | (simp at h; subst h; intro k hk; rw [h3] at hk;
         exact lookup_set_ne _ _ _ _ hk)
  rw [if_neg h3] at h
  by_cases h4 : p.FormName = "ingridients"
  · rw [if_pos h4] at h
    repeat' split at h
    all_goals first
      | (simp at h; done)
      | (simp at h; subst h; intro k hk; rw [h4] at hk;
         exact lookup_set_ne _ _ _ _ hk)
  rw [if_neg h4] at h
  by_cases h5 : p.FormName = "thumbnail"
  · rw [if_pos h5] at h
    repeat' split at h
    all_goals first
      | (simp at h; done)
      | (dsimp only at h
         split at h
         · simp at h
         · simp at h; subst h; intro k hk; rw [h5] at hk; exact lookup_set_ne _ _ _ _ hk)
  rw [if_neg h5] at h
  simp at h
  subst h
  intro k _
  rfl

theorem updateLoop_lookup_absent (env : Env) (item : Item) (tl : Option String) :
    ∀ (parts : List Part) (st st1 : UpdateSt),
      updateLoop env item st parts tl = .next st1 →
      ∀ k, (∀ p ∈ parts, p.FormName ≠ k) → st1.updates.lookup k = st.updates.lookup k := by
  intro parts
  induction parts with
  | nil =>
    intro st st1 h k _
    cases tl with
    | none => simp [updateLoop] at h; rw [h]
    | some msg => simp [updateLoop] at h
  | cons p ps ih =>
    intro st st1 h k hk
    rw [updateLoop] at h
    cases hp : updatePart env item st p with
    | next st2 =>
      rw [hp] at h
      rw [ih st2 st1 h k (fun q hq => hk q (List.mem_cons_of_mem p hq))]
      exact updatePart_lookup_other env item st st2 p hp k (hk p (List.mem_cons_self p ps))
    | abort e q => rw [hp] at h; simp at h
    | crash q => rw [hp] at h; simp at h

theorem find?_replaceFirst (id : ObjectID) (doc : Item) (hdoc : doc.Id = id) :
    ∀ (coll : List Item) (old : Item), coll.find? (fun it => it.Id = id) = some old →
      (replaceFirst id doc coll).find? (fun it => it.Id = id) = some doc := by
  intro coll
  induction coll with
  | nil => intro old h; simp at h
  | cons x xs ih =>
    intro old h
    by_cases hx : x.Id = id
    · simp [replaceFirst, hx, List.find?_cons, hdoc]
    · simp only [List.find?_cons, hx, decide_False] at h
      simp only [replaceFirst, hx, if_false, List.find?_cons, decide_False]
      exact ih old h

theorem FindOneAndUpdate_ok (env : Env) (coll : List Item) (id : ObjectID) (upd : BsonM)
    (doc : Item) (store : List Item) (old : Item)
    (hfind : coll.find? (fun it => it.Id = id) = some old)
    (h : FindOneAndUpdate env coll id upd = .ok (doc, store)) :
    doc = applySet upd old ∧ store = replaceFirst id (applySet upd old) coll := by
  unfold FindOneAndUpdate at h
  cases hw : env.writeFault with
  | some e => simp [hw] at h
  | none =>
    simp only [hw, hfind] at h
    split at h
    · simp at h
    · split at h
      · simp at h
      · simp at h
        exact ⟨h.1.symm, h.2.symm⟩

theorem updateCallback_ok (env : Env) (r : Request) (sys : Sys) (product : ItemResParams)
    (h : (updateCallback env r sys).result = .ok product) :
    ∃ id body old st,
      ObjectIDFromHex (r.Vars "id") = .ok id ∧ r.body = .ok body ∧
      sys.store.find? (fun it => it.Id = id) = some old ∧
      updateLoop env old ⟨[], sys.queue⟩ body.parts body.tailErr = .next st ∧
      updateCallback env r sys =
        ⟨.ok (updateProduct
            (applySet (st.updates.set "updated_at" (.time (env.Now 0))) old)),
          replaceFirst id (applySet (st.updates.set "updated_at" (.time (env.Now 0))) old)
            sys.store,
          st.queue⟩ := by
  unfold updateCallback at h
  cases hid : ObjectIDFromHex (r.Vars "id") with
  | error e => simp [hid] at h
  | ok id =>
    simp only [hid] at h
    cases hf : FindOne env sys.store id with
    | error e => simp [hf] at h
    | ok old =>
      simp only [hf] at h
      cases hb : r.body with
      | error msg => simp [hb] at h
      | ok body =>
        simp only [hb] at h
        cases hl : updateLoop env old ⟨[], sys.queue⟩ body.parts body.tailErr with
        | abort e q => simp [hl] at h
        | crash q => simp [hl] at h
        | next st =>
          simp only [hl] at h
          have hfind : sys.store.find? (fun it => it.Id = id) = some old := by
            unfold FindOne at hf
            split at hf
            · simp at hf
            · split at hf
              · simp at hf
              · rename_i it hit
                simp at hf
                rw [← hf]
                exact hit
          cases hu : FindOneAndUpdate env sys.store id
              (st.updates.set "updated_at" (.time (env.Now 0))) with
          | error e => simp [hu] at h
          | ok res =>
            obtain ⟨doc, store⟩ := res
            simp only [hu] at h
            cases hc : env.commitFault with
            | some e => simp [hc] at h
            | none =>
              obtain ⟨hdoc, hstore⟩ :=
                FindOneAndUpdate_ok env sys.store id _ doc store old hfind hu
              refine ⟨id, body, old, st, rfl, rfl, hfind, hl, ?_⟩
              unfold updateCallback
              simp only [hid, hf, hb, hl, hu, hc, hdoc, hstore]

theorem applySet_absent (st : UpdateSt) (now : Time) (k : String)
    (hk : "updated_at" ≠ k) (h : st.updates.lookup k = none) :
    List.lookup k (st.updates.set "updated_at" (.time now)) = none := by
  rw [lookup_set_ne _ _ _ _ hk, h]

theorem updateLoop_price_only (env : Env) (old : Item) (queue : List Task) (tl : Option String)
    (p : Part) (st : UpdateSt) (hname : p.FormName = "price")
    (h : updateLoop env old ⟨[], queue⟩ [p] tl = .next st) :
    ∃ d x, p.data = .ok d ∧ env.ParseFloat d = some x ∧ st.updates = [("price", .num x)] := by
  rw [updateLoop] at h
  unfold updatePart at h
  simp only [hname, show ¬ ("price" = "name") by decide,
    show ¬ ("price" = "summary") by decide, show ¬ ("price" = "description") by decide,
    if_false, if_true] at h
  cases hd : p.data with
  | error msg => simp [hd] at h
  | ok d =>
    simp only [hd] at h
    cases hx : env.ParseFloat d with
    | none => simp [hx] at h
    | some x =>
      simp only [hx] at h
      cases tl with
      | none =>
        simp [updateLoop, BsonM.set] at h
        exact ⟨d, x, rfl, hx, by rw [← h]⟩
      | some msg => simp [updateLoop] at h

theorem updatePart_lookup_frame (env : Env) (item : Item) (st st1 : UpdateSt) (p : Part)
    (h : updatePart env item st p = .next st1) (k : String)
    (hk : k ≠ "name" ∧ k ≠ "summary" ∧ k ≠ "description" ∧ k ≠ "price" ∧
      k ≠ "ingridients" ∧ k ≠ "thumbnail") :
    st1.updates.lookup k = st.updates.lookup k := by
  by_cases hp : p.FormName = k
  · unfold updatePart at h
    rw [if_neg (by rw [hp]; exact hk.1), if_neg (by rw [hp]; exact hk.2.1),
      if_neg (by rw [hp]; exact hk.2.2.1), if_neg (by rw [hp]; exact hk.2.2.2.1),
      if_neg (by rw [hp]; exact hk.2.2.2.2.1), if_neg (by rw [hp]; exact hk.2.2.2.2.2)] at h
    simp at h
    rw [h]
  · exact updatePart_lookup_other env item st st1 p h k hp

theorem updateLoop_lookup_frame (env : Env) (item : Item) (tl : Option String) (k : String)
    (hk : k ≠ "name" ∧ k ≠ "summary" ∧ k ≠ "description" ∧ k ≠ "price" ∧
      k ≠ "ingridients" ∧ k ≠ "thumbnail") :
    ∀ (parts : List Part) (st st1 : UpdateSt),
      updateLoop env item st parts tl = .next st1 →
      st1.updates.lookup k = st.updates.lookup k := by
  intro parts
  induction parts with
  | nil =>
    intro st st1 h
    cases tl with
    | none => simp [updateLoop] at h; rw [h]
    | some msg => simp [updateLoop] at h
  | cons p ps ih =>
    intro st st1 h
    rw [updateLoop] at h
    cases hp : updatePart env item st p with
    | next st2 =>
      rw [hp] at h
      rw [ih st2 st1 h]
      exact updatePart_lookup_frame env item st st2 p hp k hk
    | abort e q => rw [hp] at h; simp at h
    | crash q => rw [hp] at h; simp at h

theorem applySet_keeps_id (env : Env) (old : Item) (tl : Option String) (parts : List Part)
    (queue : List Task) (st : UpdateSt) (now : Time)
    (hl : updateLoop env old ⟨[], queue⟩ parts tl = .next st) :
    (applySet (st.updates.set "updated_at" (.time now)) old).Id = old.Id := by
  have h : st.updates.lookup "_id" = none := by
    rw [updateLoop_lookup_frame env old tl "_id" (by decide) parts _ st hl]
    rfl
  have h2 := applySet_absent st now "_id" (by decide) h
  simp [applySet, h2]

/-- C8: after a successful Update the stored record of the given id differs from the
record stored before only in `updatedAt`, which is the reading of the clock, and in
those of name, summary, description, price, ingridients and thumbnail for which the
request carries a part: the handler binds none of the keys of id, createdAt, category,
discount, images, ratings and author in its `$set`, so these are unchanged, and so is
each of the six fields no part names; a request carrying only a price part changes
price and updatedAt only; the answer has status 200 (with the returned record as its
body when the numbers of the record are finite, without a body when the price is not). -/
theorem update_changes_only_present_fields (env : Env) (r : Request) (sys : Sys)
    (product : ItemResParams) (hok : (updateCallback env r sys).result = .ok product) :
    ∃ id body old new st,
      ObjectIDFromHex (r.Vars "id") = .ok id ∧ r.body = .ok body ∧
      sys.store.find? (fun it => it.Id = id) = some old ∧
      updateLoop env old ⟨[], sys.queue⟩ body.parts body.tailErr = .next st ∧
      new = applySet (st.updates.set "updated_at" (.time (env.Now 0))) old ∧
      (∀ k ∈ ["_id", "created_at", "category", "discount", "images", "ratings", "author"],
        st.updates.lookup k = none) ∧
      (UpdateProductHandler env r sys).2.store = replaceFirst id new sys.store ∧
      (UpdateProductHandler env r sys).2.store.find? (fun it => it.Id = id) = some new ∧
      new.Id = old.Id ∧ new.CreatedAt = old.CreatedAt ∧ new.Category = old.Category ∧
      new.Discount = old.Discount ∧ new.Images = old.Images ∧ new.Ratings = old.Ratings ∧
      new.Author = old.Author ∧ new.UpdatedAt = env.Now 0 ∧
      ((∀ p ∈ body.parts, p.FormName ≠ "name") → new.Name = old.Name) ∧
      ((∀ p ∈ body.parts, p.FormName ≠ "summary") → new.Summary = old.Summary) ∧
      ((∀ p ∈ body.parts, p.FormName ≠ "description") →
        new.Description = old.Description) ∧
      ((∀ p ∈ body.parts, p.FormName ≠ "price") → new.Price = old.Price) ∧
      ((∀ p ∈ body.parts, p.FormName ≠ "ingridients") →
        new.Ingridients = old.Ingridients) ∧
      ((∀ p ∈ body.parts, p.FormName ≠ "thumbnail") → new.Thumbnail = old.Thumbnail) ∧
      (∀ p, body.parts = [p] → p.FormName = "price" →
        ∃ d x, p.data = .ok d ∧ env.ParseFloat d = some x ∧
          new = { old with Price := x, UpdatedAt := env.Now 0 }) ∧
      (∃ b, (UpdateProductHandler env r sys).1 = .response 200 b) ∧
      (new.Price.isFinite = true → new.Ratings.isFinite = true →
        (UpdateProductHandler env r sys).1 = .response 200 (.success product)) ∧
      (new.Price.isFinite = false →
        (UpdateProductHandler env r sys).1 = .response 200 .empty) := by
  obtain ⟨id, body, old, st, hid, hb, hfind, hl, hcb⟩ := updateCallback_ok env r sys product hok
  have hidold : old.Id = id := by
    have := List.find?_some hfind
    simpa using this
  have habs : ∀ k, "updated_at" ≠ k → (∀ p ∈ body.parts, p.FormName ≠ k) →
      List.lookup k (st.updates.set "updated_at" (.time (env.Now 0))) = none := by
    intro k hk hp
    apply applySet_absent st (env.Now 0) k hk
    rw [updateLoop_lookup_absent env old body.tailErr body.parts _ st hl k hp]
    rfl
  have hframe : ∀ k ∈ ["_id", "created_at", "category", "discount", "images", "ratings",
      "author"], st.updates.lookup k = none := by
    intro k hk
    have hsix : k ≠ "name" ∧ k ≠ "summary" ∧ k ≠ "description" ∧ k ≠ "price" ∧
        k ≠ "ingridients" ∧ k ≠ "thumbnail" := by
      simp only [List.mem_cons, List.mem_singleton, List.not_mem_nil, or_false] at hk
      rcases hk with h | h | h | h | h | h | h <;> subst h <;> decide
    rw [updateLoop_lookup_frame env old body.tailErr k hsix body.parts _ st hl]
    rfl
  have hfr : ∀ k ∈ ["_id", "created_at", "category", "discount", "images", "ratings",
      "author"], List.lookup k (st.updates.set "updated_at" (.time (env.Now 0))) = none := by
    intro k hk
    have hne : "updated_at" ≠ k := by
      simp only [List.mem_cons, List.mem_singleton, List.not_mem_nil, or_false] at hk
      rcases hk with h | h | h | h | h | h | h <;> subst h <;> decide
    exact applySet_absent st (env.Now 0) k hne (hframe k hk)
  have hproduct : product =
      updateProduct (applySet (st.updates.set "updated_at" (.time (env.Now 0))) old) := by
    rw [hcb] at hok
    simp only [Res.ok.injEq] at hok
    exact hok.symm
  have hresp : (UpdateProductHandler env r sys).1 = ResponseHandler (.success product) 200 := by
    simp [UpdateProductHandler, hcb, updateRespond, hproduct]
  have henc : (Body.success product).encodable =
      ((applySet (st.updates.set "updated_at" (.time (env.Now 0))) old).Price.isFinite &&
        (applySet (st.updates.set "updated_at" (.time (env.Now 0))) old).Ratings.isFinite) := by
    rw [hproduct]
    rfl
  refine ⟨id, body, old, applySet (st.updates.set "updated_at" (.time (env.Now 0))) old, st,
    hid, hb, hfind, hl, rfl, hframe, ?_, ?_, ?_, ?_, ?_, ?_, ?_, ?_, ?_, ?_, ?_, ?_, ?_, ?_,
    ?_, ?_, ?_, ?_, ?_, ?_⟩
  · simp [UpdateProductHandler, hcb, WithTransaction]
  · simp only [UpdateProductHandler, hcb, WithTransaction]
    exact find?_replaceFirst id
      (applySet (st.updates.set "updated_at" (.time (env.Now 0))) old)
      ((applySet_keeps_id env old _ _ _ st _ hl).trans hidold) sys.store old hfind
  · simp [applySet, hfr "_id" (by decide)]
  · simp [applySet, hfr "created_at" (by decide)]
  · simp [applySet, hfr "category" (by decide)]
  · simp [applySet, hfr "discount" (by decide)]
  · simp [applySet, hfr "images" (by decide)]
  · simp [applySet, hfr "ratings" (by decide)]
  · simp [applySet, hfr "author" (by decide)]
  · simp [applySet, lookup_set_self]
  · intro hp
    simp [applySet, habs "name" (by decide) hp]
  · intro hp
    simp [applySet, habs "summary" (by decide) hp]
  · intro hp
    simp [applySet, habs "description" (by decide) hp]
  · intro hp
    simp [applySet, habs "price" (by decide) hp]
  · intro hp
    simp [applySet, habs "ingridients" (by decide) hp]
  · intro hp
    simp [applySet, habs "thumbnail" (by decide) hp]
  · intro p hparts hname
    rw [hparts] at hl
    obtain ⟨d, x, hd, hx, hupd⟩ := updateLoop_price_only env old sys.queue body.tailErr p st hname hl
    refine ⟨d, x, hd, hx, ?_⟩
    rw [hupd]
    simp [applySet, BsonM.set, List.lookup]
  · rw [hresp, ResponseHandler]
    split
    · exact ⟨_, rfl⟩
    · exact ⟨_, rfl⟩
  · intro h1 h2
    rw [hresp, ResponseHandler, henc, h1, h2]
    rfl
  · intro h1
    rw [hresp, ResponseHandler, henc, h1]
    rfl

theorem update_changes_only_present_fields_witness :
    ∃ id body old new st,
      ObjectIDFromHex ((exRequest latteId [exPart "price" "5"]).Vars "id") = .ok id ∧
      (exRequest latteId [exPart "price" "5"]).body = .ok body ∧
      (⟨[latte], []⟩ : Sys).store.find? (fun it => it.Id = id) = some old ∧
      updateLoop exEnv old ⟨[], (⟨[latte], []⟩ : Sys).queue⟩ body.parts body.tailErr =
        .next st ∧
      new = applySet (st.updates.set "updated_at" (.time (exEnv.Now 0))) old ∧
      (∀ k ∈ ["_id", "created_at", "category", "discount", "images", "ratings", "author"],
        st.updates.lookup k = none) ∧
      (UpdateProductHandler exEnv (exRequest latteId [exPart "price" "5"])
        ⟨[latte], []⟩).2.store = replaceFirst id new (⟨[latte], []⟩ : Sys).store ∧
      (UpdateProductHandler exEnv (exRequest latteId [exPart "price" "5"])
        ⟨[latte], []⟩).2.store.find? (fun it => it.Id = id) = some new ∧
      new.Id = old.Id ∧ new.CreatedAt = old.CreatedAt ∧ new.Category = old.Category ∧
      new.Discount = old.Discount ∧ new.Images = old.Images ∧ new.Ratings = old.Ratings ∧
      new.Author = old.Author ∧ new.UpdatedAt = exEnv.Now 0 ∧
      ((∀ p ∈ body.parts, p.FormName ≠ "name") → new.Name = old.Name) ∧
      ((∀ p ∈ body.parts, p.FormName ≠ "summary") → new.Summary = old.Summary) ∧
      ((∀ p ∈ body.parts, p.FormName ≠ "description") →
        new.Description = old.Description) ∧
      ((∀ p ∈ body.parts, p.FormName ≠ "price") → new.Price = old.Price) ∧
      ((∀ p ∈ body.parts, p.FormName ≠ "ingridients") →
        new.Ingridients = old.Ingridients) ∧
      ((∀ p ∈ body.parts, p.FormName ≠ "thumbnail") → new.Thumbnail = old.Thumbnail) ∧
      (∀ p, body.parts = [p] → p.FormName = "price" →
        ∃ d x, p.data = .ok d ∧ exEnv.ParseFloat d = some x ∧
          new = { old with Price := x, UpdatedAt := exEnv.Now 0 }) ∧
      (∃ b, (UpdateProductHandler exEnv (exRequest latteId [exPart "price" "5"])
        ⟨[latte], []⟩).1 = .response 200 b) ∧
      (new.Price.isFinite = true → new.Ratings.isFinite = true →
        (UpdateProductHandler exEnv (exRequest latteId [exPart "price" "5"]) ⟨[latte], []⟩).1 =
          .response 200
            (.success (updateProduct { latte with Price := 5, UpdatedAt := 100 }))) ∧
      (new.Price.isFinite = false →
        (UpdateProductHandler exEnv (exRequest latteId [exPart "price" "5"]) ⟨[latte], []⟩).1 =
          .response 200 .empty) :=
  update_changes_only_present_fields exEnv (exRequest latteId [exPart "price" "5"])
    ⟨[latte], []⟩ (updateProduct { latte with Price := 5, UpdatedAt := 100 }) (by decide)

theorem updatePart_queue_of_ne_thumbnail (env : Env) (item : Item) (st : UpdateSt) (p : Part)
    (h : p.FormName ≠ "thumbnail") :
    (updatePart env item st p).queueWith UpdateSt.queue = st.queue := by
  unfold updatePart
  by_cases h0 : p.FormName = "name"
  · rw [if_pos h0]
    repeat' split
    all_goals rfl
  rw [if_neg h0]
  by_cases h1 : p.FormName = "summary"
  · rw [if_pos h1]
    repeat' split
    all_goals rfl
  rw [if_neg h1]
  by_cases h2 : p.FormName = "description"
  · rw [if_pos h2]
    repeat' split
    all_goals rfl
  rw [if_neg h2]
  by_cases h3 : p.FormName = "price"
  · rw [if_pos h3]
    repeat' split
    all_goals rfl
  rw [if_neg h3]
  by_cases h4 : p.FormName = "ingridients"
  · rw [if_pos h4]
    repeat' split
    all_goals rfl
  rw [if_neg h4]
  rw [if_neg h]
  rfl

theorem updateLoop_queue_no_thumbnail (env : Env) (item : Item) (tl : Option String) :
    ∀ (parts : List Part) (st st1 : UpdateSt),
      (∀ p ∈ parts, p.FormName ≠ "thumbnail") →
      updateLoop env item st parts tl = .next st1 → st1.queue = st.queue := by
  intro parts
  induction parts with
  | nil =>
    intro st st1 _ h
    cases tl with
    | none => simp [updateLoop] at h; rw [h]
    | some msg => simp [updateLoop] at h
  | cons p ps ih =>
    intro st st1 hno h
    rw [updateLoop] at h
    have hq := updatePart_queue_of_ne_thumbnail env item st p (hno p (List.mem_cons_self p ps))
    cases hp : updatePart env item st p with
    | next st2 =>
      rw [hp] at h hq
      simp only [Flow.queueWith] at hq
      rw [ih st2 st1 (fun q hq2 => hno q (List.mem_cons_of_mem p hq2)) h, hq]
    | abort e q => rw [hp] at h; simp at h
    | crash q => rw [hp] at h; simp at h

theorem updatePart_thumbnail_next (env : Env) (item : Item) (st st1 : UpdateSt) (p : Part)
    (hname : p.FormName = "thumbnail") (h : updatePart env item st p = .next st1) :
    ∃ pl, imagePayload env "images/products/thumbnails/" p = some pl ∧
      st1.queue = st.queue ++ deleteOldTask item ++ [uploadTask pl] ∧
      st1.updates = st.updates.set "thumbnail" (.str pl.ObjectKey) := by
  unfold updatePart at h
  simp only [hname, show ¬ ("thumbnail" = "name") by decide,
    show ¬ ("thumbnail" = "summary") by decide, show ¬ ("thumbnail" = "description") by decide,
    show ¬ ("thumbnail" = "price") by decide, show ¬ ("thumbnail" = "ingridients") by decide,
    if_false, if_true] at h
  cases hd : p.data with
  | error msg => simp [hd] at h
  | ok data =>
    simp only [hd] at h
    have hdel : ∀ q, (if item.Thumbnail ≠ "" then
          S3ObjectDeleteTask env st.queue [item.Thumbnail] deleteOldOpts
        else .ok st.queue) = .ok q → q = st.queue ++ deleteOldTask item := by
      intro q hq
      unfold deleteOldTask
      by_cases ht : item.Thumbnail ≠ ""
      · rw [if_pos ht] at hq
        rw [if_pos ht]
        exact enqueue_ok env _ _ _ hq
      · rw [if_neg ht] at hq
        rw [if_neg ht]
        simp at hq
        simp [hq]
    cases hq : (if item.Thumbnail ≠ "" then
          S3ObjectDeleteTask env st.queue [item.Thumbnail] deleteOldOpts
        else .ok st.queue) with
    | error e => rw [hq] at h; simp at h
    | ok q =>
      rw [hq] at h
      have hq1 := hdel q hq
      cases hip : ImageProcessor env (.ok data) p.rand "image" with
      | error e => rw [hip] at h; simp at h
      | panic => rw [hip] at h; simp at h
      | ok img =>
        rw [hip] at h
        dsimp only at h
        cases hen : S3ObjectUploadTask env q
            ⟨img.data, "images/products/thumbnails/" ++ img.fileName, img.extension⟩
            uploadOpts with
        | error e => rw [hen] at h; simp at h
        | ok q2 =>
          rw [hen] at h
          have hq2 := enqueue_ok env _ _ _ hen
          simp at h
          subst h
          refine ⟨⟨img.data, "images/products/thumbnails/" ++ img.fileName, img.extension⟩,
            ?_, ?_, rfl⟩
          · simp [imagePayload, hd, hip]
          · simp only [hq2, hq1, uploadTask]

theorem updateLoop_one_thumbnail (env : Env) (item : Item) (tl : Option String) (p : Part) :
    ∀ (parts : List Part) (st st1 : UpdateSt),
      parts.filter (fun q => q.FormName = "thumbnail") = [p] →
      updateLoop env item st parts tl = .next st1 →
      ∃ pl, imagePayload env "images/products/thumbnails/" p = some pl ∧
        st1.queue = st.queue ++ deleteOldTask item ++ [uploadTask pl] ∧
        st1.updates.lookup "thumbnail" = some (.str pl.ObjectKey) := by
  intro parts
  induction parts with
  | nil => intro st st1 h; simp at h
  | cons x xs ih =>
    intro st st1 hf h
    rw [updateLoop] at h
    cases hp : updatePart env item st x with
    | abort e q => rw [hp] at h; simp at h
    | crash q => rw [hp] at h; simp at h
    | next st2 =>
      rw [hp] at h
      dsimp only at h
      by_cases hx : x.FormName = "thumbnail"
      · have hxp : x = p ∧ xs.filter (fun q => q.FormName = "thumbnail") = [] := by
          simpa [List.filter_cons, hx] using hf
        obtain ⟨hxp, hrest⟩ := hxp
        subst hxp
        have hno : ∀ q ∈ xs, q.FormName ≠ "thumbnail" := by
          intro q hq hqn
          have : q ∈ xs.filter (fun q => q.FormName = "thumbnail") := by
            simp [List.mem_filter, hq, hqn]
          rw [hrest] at this
          simp at this
        obtain ⟨pl, hpl, hq2, hu2⟩ := updatePart_thumbnail_next env item st st2 x hx hp
        refine ⟨pl, hpl, ?_, ?_⟩
        · rw [updateLoop_queue_no_thumbnail env item tl xs st2 st1 hno h, hq2]
        · rw [updateLoop_lookup_absent env item tl xs st2 st1 h "thumbnail" hno, hu2]
          exact lookup_set_self _ _ _
      · have hxs : xs.filter (fun q => q.FormName = "thumbnail") = [p] := by
          simpa [List.filter_cons, hx] using hf
        have hq := updatePart_queue_of_ne_thumbnail env item st x hx
        rw [hp] at hq
        simp only [Flow.queueWith] at hq
        obtain ⟨pl, hpl, hq2, hu2⟩ := ih st2 st1 hxs h
        exact ⟨pl, hpl, by rw [hq2, hq], hu2⟩

/-- C11: a successful Update whose request carries one thumbnail part, accepted as an
image: if the loaded record has a thumbnail, the queue gains the delete task with
payload `[old thumbnail]` and then the upload task of the new key, in that order, and
the delay of the delete task (three minutes) is greater than the delay of the upload
task (two seconds); if the record has no thumbnail, the queue gains the upload task
only; in both cases the thumbnail of the stored record becomes the key the upload
payload carries. -/
theorem update_thumbnail_tasks (env : Env) (r : Request) (sys : Sys)
    (product : ItemResParams) (body : Multipart) (p : Part)
    (hok : (updateCallback env r sys).result = .ok product) (hb : r.body = .ok body)
    (honly : body.parts.filter (fun q => q.FormName = "thumbnail") = [p]) :
    ∃ id old new pl,
      ObjectIDFromHex (r.Vars "id") = .ok id ∧
      sys.store.find? (fun it => it.Id = id) = some old ∧
      (UpdateProductHandler env r sys).2.store.find? (fun it => it.Id = id) = some new ∧
      imagePayload env "images/products/thumbnails/" p = some pl ∧
      (old.Thumbnail ≠ "" →
        (UpdateProductHandler env r sys).2.queue =
          sys.queue ++
            [⟨"delete_s3_object", .deleteKeys [old.Thumbnail], deleteOldOpts⟩, uploadTask pl]) ∧
      (old.Thumbnail = "" →
        (UpdateProductHandler env r sys).2.queue = sys.queue ++ [uploadTask pl]) ∧
      new.Thumbnail = pl.ObjectKey ∧
      (uploadTask pl).opts.ProcessIn = 2 * Second ∧ deleteOldOpts.ProcessIn = 3 * Minute ∧
      (uploadTask pl).opts.ProcessIn < deleteOldOpts.ProcessIn := by
  obtain ⟨id, body1, old, st, hid, hb1, hfind, hl, hcb⟩ := updateCallback_ok env r sys product hok
  have hbody : body1 = body := by
    rw [hb] at hb1
    simp at hb1
    exact hb1.symm
  subst hbody
  have hidold : old.Id = id := by
    have := List.find?_some hfind
    simpa using this
  obtain ⟨pl, hpl, hq, hu⟩ :=
    updateLoop_one_thumbnail env old body1.tailErr p body1.parts _ st honly hl
  have hqueue : (UpdateProductHandler env r sys).2.queue =
      sys.queue ++ deleteOldTask old ++ [uploadTask pl] := by
    simp only [UpdateProductHandler, hcb, WithTransaction]
    exact hq
  refine ⟨id, old, applySet (st.updates.set "updated_at" (.time (env.Now 0))) old, pl,
    hid, hfind, ?_, hpl, ?_, ?_, ?_, rfl, rfl, ?_⟩
  · simp only [UpdateProductHandler, hcb, WithTransaction]
    exact find?_replaceFirst id
      (applySet (st.updates.set "updated_at" (.time (env.Now 0))) old)
      ((applySet_keeps_id env old _ _ _ st _ hl).trans hidold) sys.store old hfind
  · intro ht
    rw [hqueue]
    simp [deleteOldTask, ht]
  · intro ht
    rw [hqueue]
    simp [deleteOldTask, ht]
  · have hlk : List.lookup "thumbnail" (st.updates.set "updated_at" (.time (env.Now 0))) =
        some (.str pl.ObjectKey) := by
      rw [lookup_set_ne _ _ _ _ (by decide), hu]
    simp [applySet, hlk]
  · show 2 * Second < 3 * Minute
    decide

theorem update_thumbnail_tasks_witness :
    ∃ id old new pl,
      ObjectIDFromHex ((exRequest latteId [exPart "thumbnail" "PNGnew"]).Vars "id") = .ok id ∧
      (⟨[latte], []⟩ : Sys).store.find? (fun it => it.Id = id) = some old ∧
      (UpdateProductHandler exEnv (exRequest latteId [exPart "thumbnail" "PNGnew"])
        ⟨[latte], []⟩).2.store.find? (fun it => it.Id = id) = some new ∧
      imagePayload exEnv "images/products/thumbnails/" (exPart "thumbnail" "PNGnew") =
        some pl ∧
      (old.Thumbnail ≠ "" →
        (UpdateProductHandler exEnv (exRequest latteId [exPart "thumbnail" "PNGnew"])
          ⟨[latte], []⟩).2.queue =
          (⟨[latte], []⟩ : Sys).queue ++
            [⟨"delete_s3_object", .deleteKeys [old.Thumbnail], deleteOldOpts⟩, uploadTask pl]) ∧
      (old.Thumbnail = "" →
        (UpdateProductHandler exEnv (exRequest latteId [exPart "thumbnail" "PNGnew"])
          ⟨[latte], []⟩).2.queue = (⟨[latte], []⟩ : Sys).queue ++ [uploadTask pl]) ∧
      new.Thumbnail = pl.ObjectKey ∧
      (uploadTask pl).opts.ProcessIn = 2 * Second ∧ deleteOldOpts.ProcessIn = 3 * Minute ∧
      (uploadTask pl).opts.ProcessIn < deleteOldOpts.ProcessIn :=
  update_thumbnail_tasks exEnv (exRequest latteId [exPart "thumbnail" "PNGnew"]) ⟨[latte], []⟩
    (updateProduct
      { latte with
        Thumbnail := "images/products/thumbnails/abababababababababababababababab.png",
        UpdatedAt := 100 })
    ⟨[exPart "thumbnail" "PNGnew"], none⟩ (exPart "thumbnail" "PNGnew") (by decide) rfl rfl

theorem eraseP_id_absent (id : ObjectID) :
    ∀ (coll : List Item), (coll.map (fun it => it.Id)).Nodup →
      ∀ x ∈ coll.eraseP (fun it => it.Id = id), x.Id ≠ id := by
  intro coll
  induction coll with
  | nil => intro _ x hx; simp at hx
  | cons y ys ih =>
    intro hnd x hx
    simp only [List.map_cons, List.nodup_cons] at hnd
    by_cases hy : y.Id = id
    · simp only [List.eraseP_cons, hy, decide_True, cond_true] at hx
      intro hxid
      apply hnd.1
      rw [hy, ← hxid]
      exact List.mem_map_of_mem _ hx
    · simp only [List.eraseP_cons, hy, decide_False, cond_false, List.mem_cons] at hx
      rcases hx with hx | hx
      · rw [hx]; exact hy
      · exact ih hnd.2 x hx

theorem FindOne_ok (env : Env) (coll : List Item) (id : ObjectID) (old : Item)
    (h : FindOne env coll id = .ok old) :
    env.readFault = none ∧ coll.find? (fun it => it.Id = id) = some old := by
  unfold FindOne at h
  cases hr : env.readFault with
  | some e => simp [hr] at h
  | none =>
    simp only [hr] at h
    cases hf : coll.find? (fun it => it.Id = id) with
    | none => simp [hf] at h
    | some it =>
      simp only [hf, Except.ok.injEq] at h
      exact ⟨rfl, by rw [h]⟩

theorem deleteCallback_enqueue_fails (env : Env) (r : Request) (sys : Sys) (id : ObjectID)
    (old : Item) (hid : ObjectIDFromHex (r.Vars "id") = .ok id)
    (hfind : FindOne env sys.store id = .ok old)
    (hq : env.enqueueFault sys.queue (deleteRecordTask old) ≠ none) :
    ∃ e, deleteCallback env r sys = ⟨.error e, false, sys.store, sys.queue⟩ := by
  cases hf : env.enqueueFault sys.queue (deleteRecordTask old) with
  | none => exact absurd hf hq
  | some msg =>
    refine ⟨.plain msg, ?_⟩
    unfold deleteRecordTask at hf
    simp [deleteCallback, hid, hfind, S3ObjectDeleteTask, enqueue, hf]

theorem deleteCallback_queue (env : Env) (r : Request) (sys : Sys) (id : ObjectID)
    (old : Item) (hid : ObjectIDFromHex (r.Vars "id") = .ok id)
    (hfind : FindOne env sys.store id = .ok old)
    (hq : env.enqueueFault sys.queue (deleteRecordTask old) = none) :
    (deleteCallback env r sys).queue = sys.queue ++ [deleteRecordTask old] := by
  unfold deleteRecordTask at hq
  simp only [deleteCallback, hid, hfind, S3ObjectDeleteTask, enqueue, hq, deleteRecordTask]
  repeat' split
  all_goals rfl

theorem deleteTransaction_queue (env : Env) (sys : Sys) (out : DeleteOut) :
    (deleteTransaction env sys out).2.queue = out.queue := by
  unfold deleteTransaction
  repeat' split
  all_goals rfl

theorem deleteCallback_ok_none (env : Env) (r : Request) (sys : Sys) (id : ObjectID)
    (hid : ObjectIDFromHex (r.Vars "id") = .ok id)
    (h : (deleteCallback env r sys).result = .ok none) :
    ∃ queue, deleteCallback env r sys =
      ⟨.ok none, true, sys.store.eraseP (fun it => it.Id = id), queue⟩ := by
  unfold deleteCallback at h ⊢
  simp only [hid] at h ⊢
  cases hf : FindOne env sys.store id with
  | error e => simp [hf] at h
  | ok product =>
    simp only [hf] at h ⊢
    cases hq : S3ObjectDeleteTask env sys.queue (product.Images ++ [product.Thumbnail])
        deleteRecordOpts with
    | error e => simp [hq] at h
    | ok queue =>
      simp only [hq] at h ⊢
      cases hd : FindOneAndDelete env sys.store id with
      | error e =>
        simp only [hd] at h
        split at h <;> simp at h
      | ok store =>
        simp only [hd] at h ⊢
        have hstore : store = sys.store.eraseP (fun it => it.Id = id) := by
          unfold FindOneAndDelete at hd
          repeat' split at hd
          all_goals first
            | (simp at hd; done)
            | (simp at hd; exact hd.symm)
        cases hc : env.commitFault with
        | some e => simp [hc] at h
        | none => exact ⟨queue, by rw [hstore]⟩

/-- C12: for a Delete of a stored record, the one delete task, whose payload lists the
image keys of the record followed by its thumbnail key, is enqueued before anything is
removed: if the queue refuses it, nothing is removed and nothing is enqueued, and
otherwise it is the only task the queue gains; when the Delete succeeds the first
record of that id is gone and, the ids of the store being distinct, no record of that
id is left; the answer is 204. -/
theorem delete_enqueues_then_removes (env : Env) (r : Request) (sys : Sys) (id : ObjectID)
    (old : Item) (hid : ObjectIDFromHex (r.Vars "id") = .ok id)
    (hfind : FindOne env sys.store id = .ok old) :
    (deleteRecordTask old).payload = .deleteKeys (old.Images ++ [old.Thumbnail]) ∧
    (env.enqueueFault sys.queue (deleteRecordTask old) ≠ none →
      (DeleteProductByIdHandler env r sys).2 = sys) ∧
    (env.enqueueFault sys.queue (deleteRecordTask old) = none →
      (DeleteProductByIdHandler env r sys).2.queue = sys.queue ++ [deleteRecordTask old]) ∧
    ((deleteCallback env r sys).result = .ok none →
      (DeleteProductByIdHandler env r sys).1 = .response 204 .empty ∧
      (DeleteProductByIdHandler env r sys).2.store =
        sys.store.eraseP (fun it => it.Id = id) ∧
      ((sys.store.map (fun it => it.Id)).Nodup →
        ∀ x ∈ (DeleteProductByIdHandler env r sys).2.store, x.Id ≠ id)) := by
  refine ⟨rfl, ?_, ?_, ?_⟩
  · intro hq
    obtain ⟨e, he⟩ := deleteCallback_enqueue_fails env r sys id old hid hfind hq
    simp [DeleteProductByIdHandler, he, deleteTransaction]
  · intro hq
    simp only [DeleteProductByIdHandler, deleteTransaction_queue]
    exact deleteCallback_queue env r sys id old hid hfind hq
  · intro hok
    obtain ⟨queue, hcb⟩ := deleteCallback_ok_none env r sys id hid hok
    have hstore : (DeleteProductByIdHandler env r sys).2.store =
        sys.store.eraseP (fun it => it.Id = id) := by
      simp [DeleteProductByIdHandler, hcb, deleteTransaction]
    refine ⟨?_, hstore, ?_⟩
    · simp [DeleteProductByIdHandler, hcb, deleteTransaction, deleteRespond]
    · intro hnd x hx
      rw [hstore] at hx
      exact eraseP_id_absent id sys.store hnd x hx

theorem delete_enqueues_then_removes_witness :
    (DeleteProductByIdHandler exEnv (exRequest latteId []) ⟨[mocha, latte], []⟩).2.queue =
      [] ++ [deleteRecordTask latte] ∧
    (DeleteProductByIdHandler exEnv (exRequest latteId []) ⟨[mocha, latte], []⟩).1 =
      .response 204 .empty ∧
    (DeleteProductByIdHandler exEnv (exRequest latteId []) ⟨[mocha, latte], []⟩).2.store =
      [mocha, latte].eraseP (fun it => it.Id = latte.Id) ∧
    ∀ x ∈ (DeleteProductByIdHandler exEnv (exRequest latteId [])
      ⟨[mocha, latte], []⟩).2.store, x.Id ≠ latte.Id :=
  have h := delete_enqueues_then_removes exEnv (exRequest latteId []) ⟨[mocha, latte], []⟩
    latte.Id latte rfl rfl
  ⟨h.2.2.1 rfl, (h.2.2.2 (by decide)).1, (h.2.2.2 (by decide)).2.1,
    (h.2.2.2 (by decide)).2.2 (by decide)⟩

/-- C13 fails on the code: when the removal of a stored record fails with an error
other than `mongo.ErrNoDocuments` while the context of the request is alive (here a
network error), the callback hands the error back as its value with a nil error, the
transaction is committed and the handler answers 204 although the record is still in
the store and the task deleting its blobs is in the queue; only when the context is
done does `WithTransaction` refuse to commit, and the handler answers 500. -/
theorem delete_failed_removal_is_204 :
    (deleteCallback exRemoveFails (exRequest latteId []) ⟨[latte], []⟩).result =
      .ok (some (.plain "socket was unexpectedly closed: EOF")) ∧
    (deleteTransaction exRemoveFails ⟨[latte], []⟩
      (deleteCallback exRemoveFails (exRequest latteId []) ⟨[latte], []⟩)).1 =
      .ok (some (.plain "socket was unexpectedly closed: EOF")) ∧
    (DeleteProductByIdHandler exRemoveFails (exRequest latteId []) ⟨[latte], []⟩).1 =
      .response 204 .empty ∧
    (DeleteProductByIdHandler exRemoveFails (exRequest latteId []) ⟨[latte], []⟩).2 =
      ⟨[latte], [deleteRecordTask latte]⟩ ∧
    (deleteCallback exDeadline (exRequest latteId []) ⟨[latte], []⟩).result =
      .ok (some .deadlineExceeded) ∧
    (DeleteProductByIdHandler exDeadline (exRequest latteId []) ⟨[latte], []⟩).1 =
      .response 500 (.failed "failed" .deadlineExceeded) := by
  decide

/-- C14 fails on the code: `NewTaskServerProcessor` gives the critical queue weight 1
and the default queue weight 2, so the weight of the critical queue is not greater
than the weight of the default queue; it is half of it. -/
theorem critical_weight_below_default :
    queueWeight CriticalQueue = 1 ∧ queueWeight DefaultQueue = 2 ∧
    ¬ (queueWeight DefaultQueue < queueWeight CriticalQueue) ∧
    queueWeight DefaultQueue = 2 * queueWeight CriticalQueue := by
  decide

theorem PutObject_twice (s3 : S3) (store : ObjectStore) (o : S3Object)
    (hput : ∀ st, s3.putFault st o = none) :
    PutObject s3 store o = .ok (o :: store.filter (fun x => !x.isAt o.Bucket o.Key)) ∧
    PutObject s3 (o :: store.filter (fun x => !x.isAt o.Bucket o.Key)) o =
      .ok (o :: store.filter (fun x => !x.isAt o.Bucket o.Key)) := by
  have hself : o.isAt o.Bucket o.Key = true := by simp [S3Object.isAt]
  constructor
  · simp [PutObject, hput]
  · simp [PutObject, hput, List.filter_cons, hself, List.filter_filter]

/-- C15: for every upload payload and every object store whose puts succeed,
`ProcessTaskUploadS3Object` succeeds, running it again on the store it left succeeds
and leaves that same store, and a read of the key of the payload in the bucket then
returns an object whose body is exactly the bytes of the payload. -/
theorem upload_task_idempotent (pr : Processor) (p : PayloadUploadImage) (store : ObjectStore)
    (hput : ∀ st, pr.s3.putFault st (uploadObject pr p) = none) :
    (ProcessTaskUploadS3Object pr (.ok p) store).1 = none ∧
    ProcessTaskUploadS3Object pr (.ok p) (ProcessTaskUploadS3Object pr (.ok p) store).2 =
      (none, (ProcessTaskUploadS3Object pr (.ok p) store).2) ∧
    GetObject (ProcessTaskUploadS3Object pr (.ok p) store).2 pr.bucketName p.ObjectKey =
      some (uploadObject pr p) ∧
    (uploadObject pr p).Body = p.Image := by
  obtain ⟨h1, h2⟩ := PutObject_twice pr.s3 store (uploadObject pr p) hput
  have hrun : ProcessTaskUploadS3Object pr (.ok p) store =
      (none, uploadObject pr p ::
        store.filter (fun x => !x.isAt (uploadObject pr p).Bucket (uploadObject pr p).Key)) := by
    simp only [ProcessTaskUploadS3Object, UploadImage]
    unfold uploadObject at h1 ⊢
    rw [h1]
  refine ⟨by rw [hrun], ?_, ?_, rfl⟩
  · rw [hrun]
    simp only [ProcessTaskUploadS3Object, UploadImage]
    unfold uploadObject at h2 ⊢
    rw [h2]
  · rw [hrun]
    simp [GetObject, uploadObject, S3Object.isAt]

theorem upload_task_idempotent_witness :
    (ProcessTaskUploadS3Object exProcessor (.ok exPayload) exBucket).1 = none ∧
    ProcessTaskUploadS3Object exProcessor (.ok exPayload)
        (ProcessTaskUploadS3Object exProcessor (.ok exPayload) exBucket).2 =
      (none, (ProcessTaskUploadS3Object exProcessor (.ok exPayload) exBucket).2) ∧
    GetObject (ProcessTaskUploadS3Object exProcessor (.ok exPayload) exBucket).2
        exProcessor.bucketName exPayload.ObjectKey = some (uploadObject exProcessor exPayload) ∧
    (uploadObject exProcessor exPayload).Body = exPayload.Image :=
  upload_task_idempotent exProcessor exPayload exBucket (fun _ => rfl)

theorem find?_ext {α : Type} (f g : α → Bool) :
    ∀ (l : List α), (∀ x ∈ l, f x = g x) → l.find? f = l.find? g := by
  intro l
  induction l with
  | nil => intro _; rfl
  | cons y ys ih =>
    intro h
    simp only [List.find?_cons, h y (List.mem_cons_self y ys)]
    rw [ih (fun x hx => h x (List.mem_cons_of_mem y hx))]

theorem DeleteImage_ok (pr : Processor) (store : ObjectStore) (k : String) (hk : k ≠ "")
    (hdel : pr.s3.deleteFault store pr.bucketName k = none) :
    DeleteImage pr.s3 store k pr.bucketName =
      (none, store.filter (fun x => !x.isAt pr.bucketName k)) := by
  simp only [DeleteImage, DeleteObject, if_neg hk, hdel]

theorem DeleteImage_empty_key (pr : Processor) (store : ObjectStore) :
    DeleteImage pr.s3 store "" pr.bucketName =
      (some (.plain "error occured while deleting object  from s3 aws bucket"), store) := by
  simp only [DeleteImage, DeleteObject]
  rfl

theorem deleteKeysLoop_ok (pr : Processor)
    (hdel : ∀ st k, k ≠ "" → pr.s3.deleteFault st pr.bucketName k = none) :
    ∀ (keys : List String) (store : ObjectStore), "" ∉ keys →
      deleteKeysLoop pr store keys =
        (none, store.filter (fun x => !(x.Bucket = pr.bucketName && keys.contains x.Key))) := by
  intro keys
  induction keys with
  | nil => intro store _; simp [deleteKeysLoop]
  | cons k ks ih =>
    intro store hne
    simp only [List.mem_cons, not_or] at hne
    have hk : k ≠ "" := fun e => hne.1 e.symm
    rw [deleteKeysLoop, DeleteImage_ok pr store k hk (hdel store k hk)]
    simp only
    rw [ih _ hne.2, List.filter_filter]
    congr 1
    apply List.filter_congr
    intro x _
    by_cases hb : x.Bucket = pr.bucketName <;> by_cases hxk : x.Key = k <;>
      simp [S3Object.isAt, hb, hxk, List.contains_cons]

theorem deleteKeysLoop_empty_key (pr : Processor)
    (hdel : ∀ st k, k ≠ "" → pr.s3.deleteFault st pr.bucketName k = none) :
    ∀ (pre post : List String) (store : ObjectStore), "" ∉ pre →
      deleteKeysLoop pr store (pre ++ "" :: post) =
        (some (.plain "error occured while deleting object  from s3 aws bucket"),
          store.filter (fun x => !(x.Bucket = pr.bucketName && pre.contains x.Key))) := by
  intro pre
  induction pre with
  | nil =>
    intro post store _
    rw [List.nil_append, deleteKeysLoop, DeleteImage_empty_key]
    simp
  | cons k ks ih =>
    intro post store hne
    simp only [List.mem_cons, not_or] at hne
    have hk : k ≠ "" := fun e => hne.1 e.symm
    rw [List.cons_append, deleteKeysLoop, DeleteImage_ok pr store k hk (hdel store k hk)]
    simp only
    rw [ih post _ hne.2, List.filter_filter]
    congr 1
    apply List.filter_congr
    intro x _
    by_cases hb : x.Bucket = pr.bucketName <;> by_cases hxk : x.Key = k <;>
      simp [S3Object.isAt, hb, hxk, List.contains_cons]

/-- C16 fails as stated: on a key list that holds the empty string, which names no
object, `ProcessTaskDeleteS3Object` deletes the keys in front of it, returns the error
of `DeleteImage` at the empty key and leaves the key after it, although that key is in
the store. -/
theorem delete_task_stops_at_empty_key :
    ProcessTaskDeleteS3Object exProcessor
        (.ok ["images/products/beverages/x.png", "", "images/products/thumbnails/abc.png"])
        exBucket =
      (some (.plain "error occured while deleting object  from s3 aws bucket"),
        [⟨"coffeeshop", "images/products/thumbnails/abc.png", "old", "public-read",
          "image/png"⟩]) ∧
    GetObject exBucket "coffeeshop" "images/products/thumbnails/abc.png" ≠ none ∧
    GetObject exBucket "coffeeshop" "" = none := by
  decide

/-- C16, amended: when the service accepts the delete of every non-empty key,
`ProcessTaskDeleteS3Object` returns success for every list of non-empty keys, whether
they are in the store or not and in whatever order: the store is left without the
objects of the bucket whose key is in the list, so every key of the list reads as
absent afterwards, and every key that is not in the list reads as before; on a list
that holds the empty key the handler returns an error at its first occurrence, having
deleted the keys in front of it and none of those after it. -/
theorem delete_task_tolerates_absent_keys (pr : Processor) (keys : List String)
    (store : ObjectStore)
    (hdel : ∀ st k, k ≠ "" → pr.s3.deleteFault st pr.bucketName k = none) :
    ("" ∉ keys →
      (ProcessTaskDeleteS3Object pr (.ok keys) store).1 = none ∧
      (ProcessTaskDeleteS3Object pr (.ok keys) store).2 =
        store.filter (fun x => !(x.Bucket = pr.bucketName && keys.contains x.Key)) ∧
      (∀ k ∈ keys,
        GetObject (ProcessTaskDeleteS3Object pr (.ok keys) store).2 pr.bucketName k = none) ∧
      (∀ k, k ∉ keys →
        GetObject (ProcessTaskDeleteS3Object pr (.ok keys) store).2 pr.bucketName k =
          GetObject store pr.bucketName k)) ∧
    (∀ pre post, keys = pre ++ "" :: post → "" ∉ pre →
      ProcessTaskDeleteS3Object pr (.ok keys) store =
        (some (.plain "error occured while deleting object  from s3 aws bucket"),
          store.filter (fun x => !(x.Bucket = pr.bucketName && pre.contains x.Key)))) := by
  constructor
  · intro hne
    have hrun := deleteKeysLoop_ok pr hdel keys store hne
    simp only [ProcessTaskDeleteS3Object]
    rw [hrun]
    refine ⟨rfl, rfl, ?_, ?_⟩
    · intro k hk
      simp only [GetObject]
      rw [List.find?_eq_none]
      intro x hx
      simp only [List.mem_filter] at hx
      intro hat
      simp only [S3Object.isAt, Bool.and_eq_true, decide_eq_true_eq] at hat
      have := hx.2
      simp [hat.1, hat.2, hk] at this
    · intro k hk
      simp only [GetObject]
      rw [List.find?_filter]
      apply find?_ext
      intro x _
      by_cases hb : x.Bucket = pr.bucketName <;> by_cases hxk : x.Key = k <;>
        simp [S3Object.isAt, hb, hxk, hk]
  · intro pre post hkeys hne
    rw [hkeys]
    exact deleteKeysLoop_empty_key pr hdel pre post store hne

theorem delete_task_tolerates_absent_keys_witness :
    (ProcessTaskDeleteS3Object exProcessor
      (.ok ["missing.png", "images/products/thumbnails/abc.png", "gone.png"]) exBucket).1 =
      none ∧
    (ProcessTaskDeleteS3Object exProcessor
      (.ok ["missing.png", "images/products/thumbnails/abc.png", "gone.png"]) exBucket).2 =
      [⟨"coffeeshop", "images/products/beverages/x.png", "PNGx", "public-read", "image/png"⟩] :=
  have h := (delete_task_tolerates_absent_keys exProcessor
    ["missing.png", "images/products/thumbnails/abc.png", "gone.png"] exBucket
    (fun _ _ _ => rfl)).1 (by decide)
  ⟨h.1, h.2.1.trans (by decide)⟩

/-- C17, as the code has it: for a task whose payload cannot be decoded, the upload,
batch-upload, delete and both mail handlers leave their store untouched and return an
ordinary error that wraps the error of `json.Unmarshal`; that error does not wrap
`asynq.SkipRetry`, so the queue archives the task only when its retries are used up
and retries it otherwise. -/
theorem undecodable_payload_is_retried (pr : Processor) (me : MailEnv) (msg : String)
    (store : ObjectStore) (outbox : List (String × String)) (retried maxRetry : Nat) :
    ProcessTaskUploadS3Object pr (.error msg) store =
      (some (.wrap "unmarshalling error " (.plain msg)), store) ∧
    ProcessTaskMultipleUploadS3Object pr (.error msg) store =
      (some (.wrap "unmarshalling error " (.plain msg)), store) ∧
    ProcessTaskDeleteS3Object pr (.error msg) store =
      (some (.wrap "error occured while unmarshalling " (.plain msg)), store) ∧
    ProcessTaskSendVerificationMail me (.error msg) outbox =
      (some (.wrap "error occured while retreiving user "
        (.wrap "unmarshalling error " (.plain msg))), outbox) ∧
    ProcessTaskSendResetPasswordMail me (.error msg) outbox =
      (some (.wrap "error occured while retreiving user "
        (.wrap "unmarshalling error " (.plain msg))), outbox) ∧
    onHandlerError retried maxRetry (.wrap "unmarshalling error " (.plain msg)) =
      (if retried ≥ maxRetry then .archive else .retry) ∧
    onHandlerError retried maxRetry (.wrap "error occured while unmarshalling " (.plain msg)) =
      (if retried ≥ maxRetry then .archive else .retry) ∧
    onHandlerError retried maxRetry
        (.wrap "error occured while retreiving user "
          (.wrap "unmarshalling error " (.plain msg))) =
      (if retried ≥ maxRetry then .archive else .retry) := by
  refine ⟨rfl, rfl, rfl, rfl, rfl, ?_, ?_, ?_⟩ <;>
    simp [onHandlerError, errorsIsSkipRetry]

/-- C17 fails as stated: on a payload that is not JSON, `ProcessTaskUploadS3Object`
returns an error that does not wrap `asynq.SkipRetry`, and the queue answers the first
failed attempt of a task with three retries by a retry, not by the archive. -/
theorem undecodable_upload_is_not_fatal :
    (ProcessTaskUploadS3Object exProcessor (.error "invalid character") exBucket).1 =
      some (.wrap "unmarshalling error " (.plain "invalid character")) ∧
    errorsIsSkipRetry (.wrap "unmarshalling error " (.plain "invalid character")) = false ∧
    onHandlerError 0 3 (.wrap "unmarshalling error " (.plain "invalid character")) = .retry ∧
    onHandlerError 0 3 (.wrap "unmarshalling error " (.plain "invalid character")) ≠
      .archive := by
  decide

theorem splitChars_second (sep : Char) :
    ∀ (cs : List Char) (a b : List Char) (rest : List (List Char)),
      strings.splitChars sep cs = a :: b :: rest →
      b = ((cs.dropWhile (fun c => c ≠ sep)).drop 1).takeWhile (fun c => c ≠ sep) := by
  intro cs
  induction cs with
  | nil => intro a b rest h; simp [strings.splitChars] at h
  | cons c cs ih =>
    intro a b rest h
    by_cases hc : c = sep
    · simp only [strings.splitChars, hc, if_true, List.cons.injEq] at h
      obtain ⟨rest1, hrest1⟩ := splitChars_eq_cons sep cs
      rw [hrest1] at h
      simp only [List.cons.injEq] at h
      simp [List.dropWhile_cons, hc, ← h.2.1]
    · simp only [strings.splitChars, hc, if_false] at h
      cases hs : strings.splitChars sep cs with
      | nil => rw [hs] at h; simp at h
      | cons w ws =>
        rw [hs] at h
        simp only [List.cons.injEq] at h
        have := ih w b rest (by rw [hs, h.2])
        simp [List.dropWhile_cons, hc, this]

theorem Split_second (s a b : String) (rest : List String)
    (h : strings.Split s '/' = a :: b :: rest) : b = mediaSubtype s := by
  unfold strings.Split at h
  cases hs : strings.splitChars '/' s.toList with
  | nil => rw [hs] at h; simp at h
  | cons x xs =>
    cases xs with
    | nil => rw [hs] at h; simp at h
    | cons y ys =>
      rw [hs] at h
      simp only [List.map_cons, List.cons.injEq] at h
      have := splitChars_second '/' s.toList x y ys hs
      unfold mediaSubtype
      rw [← this, h.2.1]

theorem ImageProcessor_ok (env : Env) (file : Except String String)
    (rand : Except String RandomBytes) (required : String) (img : Processed)
    (h : ImageProcessor env file rand required = .ok img) :
    ∃ d rb, file = .ok d ∧ rand = .ok rb ∧ img.data = d ∧
      mediaType (env.DetectContentType d) = required ∧
      img.extension = mediaSubtype (env.DetectContentType d) ∧
      img.fileName = hexEncode rb.bytes ++ "." ++ mediaSubtype (env.DetectContentType d) := by
  unfold ImageProcessor at h
  cases file with
  | error msg => simp at h
  | ok d =>
    obtain ⟨rest, hrest⟩ := Split_eq_cons (env.DetectContentType d)
    simp only [hrest] at h
    by_cases ht : mediaType (env.DetectContentType d) = required
    · simp only [ht, ne_eq, not_true_eq_false, if_false] at h
      cases rest with
      | nil => simp at h
      | cons ext more =>
        have hext := Split_second _ _ _ _ hrest
        cases rand with
        | error msg => simp [genObjectToken] at h
        | ok rb =>
          simp only [genObjectToken, Res.ok.injEq] at h
          refine ⟨d, rb, rfl, rfl, ?_, ht, ?_, ?_⟩
          · rw [← h]
          · rw [← h, hext]
          · rw [← h, hext]
    · simp [ht] at h

theorem hexDigit_lower (n : Nat) (h : n < 16) : isLowerHex (hexDigit n) = true := by
  revert n
  decide

theorem hexEncode_token (bs : List Byte) :
    (hexEncode bs).length = 2 * bs.length ∧
    ∀ c ∈ (hexEncode bs).toList, isLowerHex c = true := by
  induction bs with
  | nil => simp [hexEncode]
  | cons b bs ih =>
    have hlen : (hexEncode (b :: bs)).length = (hexEncode bs).length + 2 := by
      simp [hexEncode, hexByte, String.length]
    have hlist : (hexEncode (b :: bs)).toList =
        hexDigit (b.val / 16) :: hexDigit (b.val % 16) :: (hexEncode bs).toList := by
      simp [hexEncode, hexByte]
    refine ⟨?_, ?_⟩
    · rw [hlen, ih.1, List.length_cons]
      omega
    · intro c hc
      rw [hlist] at hc
      simp only [List.mem_cons] at hc
      rcases hc with hc | hc | hc
      · rw [hc]
        exact hexDigit_lower _ (by omega)
      · rw [hc]
        exact hexDigit_lower _ (by omega)
      · exact ih.2 c hc

theorem objectKey_thumbnails (token ext : String) :
    "images/products/thumbnails/" ++ (token ++ "." ++ ext) = objectKey "thumbnails" token ext := by
  unfold objectKey
  simp only [String.append_assoc]
  rfl

theorem objectKey_beverages (token ext : String) :
    "images/products/beverages/" ++ (token ++ "." ++ ext) = objectKey "beverages" token ext := by
  unfold objectKey
  simp only [String.append_assoc]
  rfl

theorem imagePayload_some (env : Env) (dir : String) (p : Part) (pl : PayloadUploadImage)
    (h : imagePayload env dir p = some pl) :
    ∃ d rb, p.data = .ok d ∧ p.rand = .ok rb ∧
      mediaType (env.DetectContentType d) = "image" ∧
      pl = ⟨d, dir ++ (hexEncode rb.bytes ++ "." ++ mediaSubtype (env.DetectContentType d)),
        mediaSubtype (env.DetectContentType d)⟩ := by
  unfold imagePayload at h
  cases hip : ImageProcessor env p.data p.rand "image" with
  | error e => simp [hip] at h
  | panic => simp [hip] at h
  | ok img =>
    obtain ⟨d, rb, hd, hr, hdata, hty, hext, hfile⟩ := ImageProcessor_ok env _ _ _ img hip
    simp only [hip, Option.some.injEq] at h
    refine ⟨d, rb, hd, hr, hty, ?_⟩
    rw [← h, hdata, hext, hfile]

theorem createPart_next_images (env : Env) (st st1 : CreateSt) (p : Part)
    (h : createPart env st p = .next st1) (hname : p.FormName = "images") (dir : String) :
    ∃ pl, imagePayload env dir p = some pl := by
  unfold createPart at h
  simp only [hname, show ¬ ("images" = "price") by decide, show ¬ ("images" = "discount") by decide,
    show ¬ ("images" = "ingridients") by decide, show ¬ ("images" = "name") by decide,
    show ¬ ("images" = "summary") by decide, show ¬ ("images" = "description") by decide,
    show ¬ ("images" = "category") by decide, show ¬ ("images" = "thumbnail") by decide,
    if_false, if_true] at h
  cases hip : ImageProcessor env p.data p.rand "image" with
  | error e => rw [hip] at h; simp at h
  | panic => rw [hip] at h; simp at h
  | ok img =>
    exact ⟨⟨img.data, dir ++ img.fileName, img.extension⟩, by simp [imagePayload, hip]⟩

theorem payloadsOf_single (env : Env) (key dir : String) (p : Part) (pl : PayloadUploadImage)
    (hname : p.FormName = key) (h : imagePayload env dir p = some pl) :
    payloadsOf env key dir [p] = [pl] := by
  simp [payloadsOf, hname, h]

theorem lastOr_single {α β : Type} (key : String) (f : Part → Option α) (g : α → β) (init : β)
    (p : Part) (a : α) (hname : p.FormName = key) (h : f p = some a) :
    lastOr key f g init [p] = g a := by
  simp [lastOr, lastOf, hname, h]

/-- C19, as the code has it: the key computed for a blob that Create or Update accepts is
`images/products/<seg>/<token>.<ext>`, where the token is the 32-character lowercase
hexadecimal rendering of the 16 random bytes, the extension is the subtype of the
detected content type, and the segment is `thumbnails` for a thumbnail (in Create and
in Update) and the constant `beverages` for a gallery image, whatever the category of
the product. -/
theorem object_key_of_accepted_blob (env : Env) (item : Item) (cst cst1 : CreateSt)
    (ust ust1 : UpdateSt) (p : Part) :
    (createPart env cst p = .next cst1 → p.FormName = "thumbnail" →
      ∃ d rb, p.data = .ok d ∧ p.rand = .ok rb ∧
        cst1.item.Thumbnail =
          objectKey "thumbnails" (hexEncode rb.bytes) (mediaSubtype (env.DetectContentType d)) ∧
        cst1.queue = cst.queue ++
          [uploadTask ⟨d, objectKey "thumbnails" (hexEncode rb.bytes)
            (mediaSubtype (env.DetectContentType d)), mediaSubtype (env.DetectContentType d)⟩]) ∧
    (createPart env cst p = .next cst1 → p.FormName = "images" →
      ∃ d rb, p.data = .ok d ∧ p.rand = .ok rb ∧
        cst1.item.Images = cst.item.Images ++
          [objectKey "beverages" (hexEncode rb.bytes) (mediaSubtype (env.DetectContentType d))] ∧
        cst1.images = cst.images ++
          [⟨d, objectKey "beverages" (hexEncode rb.bytes)
            (mediaSubtype (env.DetectContentType d)), mediaSubtype (env.DetectContentType d)⟩]) ∧
    (updatePart env item ust p = .next ust1 → p.FormName = "thumbnail" →
      ∃ d rb, p.data = .ok d ∧ p.rand = .ok rb ∧
        ust1.updates.lookup "thumbnail" =
          some (.str (objectKey "thumbnails" (hexEncode rb.bytes)
            (mediaSubtype (env.DetectContentType d)))) ∧
        ust1.queue = ust.queue ++ deleteOldTask item ++
          [uploadTask ⟨d, objectKey "thumbnails" (hexEncode rb.bytes)
            (mediaSubtype (env.DetectContentType d)), mediaSubtype (env.DetectContentType d)⟩]) ∧
    (∀ rb : RandomBytes, (hexEncode rb.bytes).length = 32 ∧
      ∀ c ∈ (hexEncode rb.bytes).toList, isLowerHex c = true) := by
  refine ⟨?_, ?_, ?_, ?_⟩
  · intro h hname
    have hst := createPart_next env cst cst1 p h
    have hlen := createPart_next_thumbnail env cst cst1 p h hname "images/products/thumbnails/"
    cases hpl : imagePayload env "images/products/thumbnails/" p with
    | none => simp [payloadsOf, hname, hpl] at hlen
    | some pl =>
      obtain ⟨d, rb, hd, hr, _, hpleq⟩ := imagePayload_some env _ p pl hpl
      rw [objectKey_thumbnails] at hpleq
      refine ⟨d, rb, hd, hr, ?_, ?_⟩
      · rw [hst]
        simp only [assembled]
        rw [lastOr_single "thumbnail" _ _ _ p pl hname hpl, hpleq]
      · rw [hst]
        simp only [assembled]
        rw [payloadsOf_single env "thumbnail" _ p pl hname hpl, hpleq]
        rfl
  · intro h hname
    have hst := createPart_next env cst cst1 p h
    obtain ⟨pl, hpl⟩ := createPart_next_images env cst cst1 p h hname "images/products/beverages/"
    obtain ⟨d, rb, hd, hr, _, hpleq⟩ := imagePayload_some env _ p pl hpl
    rw [objectKey_beverages] at hpleq
    refine ⟨d, rb, hd, hr, ?_, ?_⟩
    · rw [hst]
      simp only [assembled]
      rw [payloadsOf_single env "images" _ p pl hname hpl, hpleq]
      rfl
    · rw [hst]
      simp only [assembled]
      rw [payloadsOf_single env "images" _ p pl hname hpl, hpleq]
  · intro h hname
    obtain ⟨pl, hpl, hq, hu⟩ := updatePart_thumbnail_next env item ust ust1 p hname h
    obtain ⟨d, rb, hd, hr, _, hpleq⟩ := imagePayload_some env _ p pl hpl
    rw [objectKey_thumbnails] at hpleq
    refine ⟨d, rb, hd, hr, ?_, ?_⟩
    · rw [hu, lookup_set_self, hpleq]
    · rw [hq, hpleq]
  · intro rb
    have h := hexEncode_token rb.bytes
    rw [rb.len] at h
    exact h

/-- C19 fails as stated: the gallery image of a product of category `pastries` is
stored under `images/products/beverages/`, not under `images/products/pastries/`. -/
theorem gallery_key_ignores_category :
    (CreateProductHandler exEnv (exRequest "" pastryParts) ⟨[], []⟩).2.store.map
        (fun it => (it.Category, it.Images)) =
      [("pastries",
        ["images/products/beverages/abababababababababababababababab.png"])] ∧
    "images/products/beverages/abababababababababababababababab.png" ≠
      objectKey "pastries" (hexEncode exRand.bytes) "png" ∧
    mediaSubtype (exEnv.DetectContentType "PNGcroissant") = "png" := by
  decide

theorem object_key_of_accepted_blob_witness :
    ∃ d rb, (exPart "images" "PNGcroissant").data = .ok d ∧
      (exPart "images" "PNGcroissant").rand = .ok rb ∧
      ["images/products/beverages/abababababababababababababababab.png"] =
        ([] : List String) ++
          [objectKey "beverages" (hexEncode rb.bytes)
            (mediaSubtype (exEnv.DetectContentType d))] ∧
      [(⟨"PNGcroissant", "images/products/beverages/abababababababababababababababab.png",
          "png"⟩ : PayloadUploadImage)] =
        [] ++ [⟨d, objectKey "beverages" (hexEncode rb.bytes)
          (mediaSubtype (exEnv.DetectContentType d)),
          mediaSubtype (exEnv.DetectContentType d)⟩] :=
  (object_key_of_accepted_blob exEnv latte
    ⟨{ zeroItem with Category := "pastries" }, [], []⟩
    ⟨{ zeroItem with
        Category := "pastries",
        Images := ["images/products/beverages/abababababababababababababababab.png"] },
      [⟨"PNGcroissant", "images/products/beverages/abababababababababababababababab.png",
        "png"⟩], []⟩
    ⟨[], []⟩ ⟨[], []⟩ (exPart "images" "PNGcroissant")).2.1 rfl rfl

theorem createLoop_images_accepted (env : Env) (tl : Option String) (dir : String) :
    ∀ (parts : List Part) (st st1 : CreateSt),
      createLoop env st parts tl = .next st1 →
      (payloadsOf env "images" dir parts).length =
        (parts.filter (fun q => q.FormName = "images")).length ∧
      (payloadsOf env "images" dir parts).map (fun q => q.Image) =
        (parts.filter (fun q => q.FormName = "images")).filterMap partData := by
  intro parts
  induction parts with
  | nil => intro st st1 _; exact ⟨rfl, rfl⟩
  | cons p ps ih =>
    intro st st1 h
    rw [createLoop] at h
    cases hp : createPart env st p with
    | next st2 =>
      rw [hp] at h
      obtain ⟨ih1, ih2⟩ := ih st2 st1 h
      rw [payloadsOf_cons, List.length_append, List.map_append, ih1, ih2]
      by_cases hname : p.FormName = "images"
      · obtain ⟨pl, hpl⟩ := createPart_next_images env st st2 p hp hname dir
        obtain ⟨d, rb, hd, _, _, hpleq⟩ := imagePayload_some env dir p pl hpl
        rw [payloadsOf_single env "images" dir p pl hname hpl]
        constructor
        · simp [List.filter_cons, hname, Nat.add_comm]
        · simp [List.filter_cons, hname, partData, hd, hpleq]
      · simp [payloadsOf, List.filter_cons, hname]
    | abort e q => rw [hp] at h; simp at h
    | crash q => rw [hp] at h; simp at h

theorem afterValidation_queue (env : Env) (sys : Sys) (item : Item) (queue : List Task) :
    (afterValidation env sys item queue).queue = queue := by
  unfold afterValidation
  repeat' split
  all_goals rfl

theorem createHandler_queue_of_atValidation (env : Env) (r : Request) (sys : Sys) (item : Item)
    (queue : List Task) (hv : atValidation env r sys = some (item, queue)) :
    (CreateProductHandler env r sys).2.queue = queue := by
  have hcb := createCallback_of_atValidation env r sys item queue hv
  have hq := afterValidation_queue env sys item queue
  simp only [CreateProductHandler, hcb, WithTransaction]
  split <;> exact hq

theorem atValidation_loop (env : Env) (r : Request) (sys : Sys) (body : Multipart)
    (author : String) (item : Item) (queue : List Task)
    (hb : r.body = .ok body) (hu : r.user = some author)
    (h : atValidation env r sys = some (item, queue)) :
    ∃ st, createLoop env ⟨{ zeroItem with Author := author }, [], sys.queue⟩
      body.parts body.tailErr = .next st := by
  unfold atValidation at h
  cases hi : env.indexFault with
  | some e => simp [hi] at h
  | none =>
    simp only [hi, hb, hu] at h
    cases hl : createLoop env ⟨{ zeroItem with Author := author }, [], sys.queue⟩
        body.parts body.tailErr with
    | abort e q => simp [hl] at h
    | crash q => simp [hl] at h
    | next st => exact ⟨st, rfl⟩

/-- C20: a Create request that reaches the end of its form parts (and whose batch
enqueue the queue accepts) has gained the queue one upload task per thumbnail part and
then exactly one batch-upload task; the payload of the batch task lists the gallery
image parts of the request, all of them and in request order, its keys are, position
by position, the keys of the images field of the record, and every single-upload task
gained carries a thumbnail, none a gallery image. -/
theorem create_batches_gallery_images (env : Env) (r : Request) (sys : Sys)
    (body : Multipart) (author : String) (item : Item) (queue : List Task)
    (hb : r.body = .ok body) (hu : r.user = some author)
    (hv : atValidation env r sys = some (item, queue)) :
    (CreateProductHandler env r sys).2.queue =
      sys.queue ++
        (payloadsOf env "thumbnail" "images/products/thumbnails/" body.parts).map uploadTask ++
        [batchTask (payloadsOf env "images" "images/products/beverages/" body.parts)] ∧
    (batchTask (payloadsOf env "images" "images/products/beverages/" body.parts)).payload =
      .uploadImageBatch (payloadsOf env "images" "images/products/beverages/" body.parts) ∧
    (payloadsOf env "images" "images/products/beverages/" body.parts).length =
      (body.parts.filter (fun q => q.FormName = "images")).length ∧
    (payloadsOf env "images" "images/products/beverages/" body.parts).map (fun q => q.Image) =
      (body.parts.filter (fun q => q.FormName = "images")).filterMap partData ∧
    item.Images =
      (payloadsOf env "images" "images/products/beverages/" body.parts).map
        (fun q => q.ObjectKey) ∧
    (payloadsOf env "thumbnail" "images/products/thumbnails/" body.parts).length =
      (body.parts.filter (fun q => q.FormName = "thumbnail")).length ∧
    (∀ t ∈ (payloadsOf env "thumbnail" "images/products/thumbnails/" body.parts).map
        uploadTask,
      t.TypeName = "upload_s3_object" ∧
      ∃ q ∈ body.parts, q.FormName = "thumbnail" ∧
        (imagePayload env "images/products/thumbnails/" q).map uploadTask = some t) ∧
    (batchTask (payloadsOf env "images" "images/products/beverages/" body.parts)).TypeName =
      "upload_multiple_s3_objects" := by
  obtain ⟨hitem, hq⟩ := atValidation_assembled env r sys body author item queue hb hu hv
  obtain ⟨st, hl⟩ := atValidation_loop env r sys body author item queue hb hu hv
  obtain ⟨hlen, hdata⟩ :=
    createLoop_images_accepted env body.tailErr "images/products/beverages/" body.parts _ st hl
  refine ⟨?_, rfl, hlen, hdata, ?_, ?_, ?_, rfl⟩
  · rw [createHandler_queue_of_atValidation env r sys item queue hv, hq]
  · rw [hitem]
    simp [stampItem, assembled, zeroItem]
  · exact createLoop_thumbnails_accepted env body.tailErr _ body.parts _ st hl
  · intro t ht
    simp only [List.mem_map, payloadsOf, List.mem_filterMap, List.mem_filter,
      decide_eq_true_eq] at ht
    obtain ⟨pl, ⟨q, ⟨hq1, hq2⟩, hq3⟩, hpl⟩ := ht
    refine ⟨by rw [← hpl]; rfl, q, hq1, hq2, ?_⟩
    rw [hq3, ← hpl]
    rfl

theorem create_batches_gallery_images_witness :
    (CreateProductHandler exEnv (exRequest "" pastryParts) ⟨[], []⟩).2.queue =
      [] ++
        (payloadsOf exEnv "thumbnail" "images/products/thumbnails/" pastryParts).map
          uploadTask ++
        [batchTask (payloadsOf exEnv "images" "images/products/beverages/" pastryParts)] ∧
    (payloadsOf exEnv "images" "images/products/beverages/" pastryParts).length = 1 ∧
    (payloadsOf exEnv "images" "images/products/beverages/" pastryParts).map
        (fun q => q.Image) = ["PNGcroissant"] :=
  have h := create_batches_gallery_images exEnv (exRequest "" pastryParts) ⟨[], []⟩
    ⟨pastryParts, none⟩ "user1"
    (stampItem exEnv
      { zeroItem with
        Author := "user1", Name := "Croissant", Price := 3, Category := "pastries",
        Images := ["images/products/beverages/abababababababababababababababab.png"] })
    [batchTask [⟨"PNGcroissant",
      "images/products/beverages/abababababababababababababababab.png", "png"⟩]]
    rfl rfl (by decide)
  ⟨h.1, h.2.2.1.trans (by decide), h.2.2.2.1.trans (by decide)⟩

theorem lastOf_mem_payloadsOf (env : Env) (key dir : String) :
    ∀ (parts : List Part) (pl : PayloadUploadImage),
      lastOf key (imagePayload env dir) parts = some pl →
      pl ∈ payloadsOf env key dir parts := by
  intro parts
  induction parts with
  | nil => intro pl h; simp [lastOf] at h
  | cons p ps ih =>
    intro pl h
    rw [payloadsOf_cons, List.mem_append]
    simp only [lastOf] at h
    cases hl : lastOf key (imagePayload env dir) ps with
    | some a =>
      rw [hl] at h
      simp only [Option.some.injEq] at h
      right
      exact ih pl (by rw [hl, h])
    | none =>
      rw [hl] at h
      by_cases hname : p.FormName = key
      · simp only [hname, if_true] at h
        left
        rw [payloadsOf_single env key dir p pl hname h]
        exact List.mem_singleton.mpr rfl
      · simp [hname] at h

theorem updateLoop_thumbnail_represented (env : Env) (item : Item) (tl : Option String) :
    ∀ (parts : List Part) (st st1 : UpdateSt),
      updateLoop env item st parts tl = .next st1 →
      (∀ t ∈ st.queue, t ∈ st1.queue) ∧
      (st1.updates.lookup "thumbnail" = st.updates.lookup "thumbnail" ∨
        ∃ pl, uploadTask pl ∈ st1.queue ∧
          st1.updates.lookup "thumbnail" = some (.str pl.ObjectKey)) := by
  intro parts
  induction parts with
  | nil =>
    intro st st1 h
    cases tl with
    | none =>
      simp [updateLoop] at h
      subst h
      exact ⟨fun t ht => ht, Or.inl rfl⟩
    | some msg => simp [updateLoop] at h
  | cons p ps ih =>
    intro st st1 h
    rw [updateLoop] at h
    cases hp : updatePart env item st p with
    | abort e q => rw [hp] at h; simp at h
    | crash q => rw [hp] at h; simp at h
    | next st2 =>
      rw [hp] at h
      dsimp only at h
      obtain ⟨hmono, hrep⟩ := ih st2 st1 h
      by_cases hname : p.FormName = "thumbnail"
      · obtain ⟨pl, _, hq, hu⟩ := updatePart_thumbnail_next env item st st2 p hname hp
        have hin : uploadTask pl ∈ st2.queue := by
          rw [hq]
          simp
        refine ⟨?_, ?_⟩
        · intro t ht
          apply hmono
          rw [hq]
          simp [ht]
        · right
          rcases hrep with hsame | ⟨pl2, hpl2, hl2⟩
          · exact ⟨pl, hmono _ hin, by rw [hsame, hu, lookup_set_self]⟩
          · exact ⟨pl2, hpl2, hl2⟩
      · have hq := updatePart_queue_of_ne_thumbnail env item st p hname
        rw [hp] at hq
        simp only [Flow.queueWith] at hq
        have hlk := updatePart_lookup_other env item st st2 p hp "thumbnail" hname
        refine ⟨?_, ?_⟩
        · intro t ht
          apply hmono
          rw [hq]
          exact ht
        · rcases hrep with hsame | ⟨pl2, hpl2, hl2⟩
          · left
            rw [hsame, hlk]
          · exact Or.inr ⟨pl2, hpl2, hl2⟩

/-! ### Retry bookkeeping -/

theorem attempt_error_retry (t : TaskInfo) (err : GoError)
    (hq : t.State = .pending ∨ t.State = .retry) (hlt : t.Retried < t.MaxRetry)
    (hs : errorsIsSkipRetry err = false) :
    attempt t (some err) = ⟨t.MaxRetry, t.Retried + 1, .retry⟩ := by
  have hd : onHandlerError t.Retried t.MaxRetry err = .retry := by
    unfold onHandlerError
    rw [if_neg]
    simp [hs]
    omega
  rcases hq with h | h <;> simp [attempt, h, hd]

theorem attempt_error_archive (t : TaskInfo) (err : GoError)
    (hq : t.State = .pending ∨ t.State = .retry) (hge : t.MaxRetry ≤ t.Retried) :
    attempt t (some err) = ⟨t.MaxRetry, t.Retried, .archived⟩ := by
  have hd : onHandlerError t.Retried t.MaxRetry err = .archive := by
    unfold onHandlerError
    rw [if_pos (Or.inl hge)]
  rcases hq with h | h <;> simp [attempt, h, hd]

theorem attempts_archived (t : TaskInfo) (outcomes : List (Option GoError))
    (h : t.State = .archived) : attempts t outcomes = t := by
  induction outcomes with
  | nil => rfl
  | cons o rest ih =>
    have h1 : attempt t o = t := by simp [attempt, h]
    unfold attempts at ih ⊢
    rw [List.foldl_cons, h1]
    exact ih

theorem attempts_append (t : TaskInfo) (xs ys : List (Option GoError)) :
    attempts t (xs ++ ys) = attempts (attempts t xs) ys := by
  unfold attempts
  rw [List.foldl_append]

theorem attempts_failures (errs : List GoError) :
    ∀ t : TaskInfo, (t.State = .pending ∨ t.State = .retry) →
      (∀ e ∈ errs, errorsIsSkipRetry e = false) →
      t.Retried + errs.length ≤ t.MaxRetry →
      attempts t (errs.map some) =
        ⟨t.MaxRetry, t.Retried + errs.length, if errs = [] then t.State else .retry⟩ := by
  induction errs with
  | nil => intro t _ _ _; rfl
  | cons e rest ih =>
    intro t hq hs hlen
    simp only [List.length_cons] at hlen
    have h1 := attempt_error_retry t e hq (by omega) (hs e (List.mem_cons_self _ _))
    have h2 := ih ⟨t.MaxRetry, t.Retried + 1, .retry⟩ (Or.inr rfl)
      (fun x hx => hs x (List.mem_cons_of_mem _ hx)) (by simp only; omega)
    unfold attempts at h2 ⊢
    rw [List.map_cons, List.foldl_cons, h1, h2]
    simp only [List.length_cons, reduceCtorEq, if_false]
    by_cases hr : rest = []
    · simp [hr]
    · simp only [hr, if_false, TaskInfo.mk.injEq, and_true, true_and]
      omega

/-- C21 fails as stated: a task enqueued with `MaxRetry(3)` whose handler has failed on
three attempts is still in the queue with three recorded retries, and when the fourth
attempt succeeds it is Completed, not Archived. -/
theorem three_failures_do_not_archive :
    attempts (enqueued 3) [some (.plain "timeout"), some (.plain "timeout"),
        some (.plain "timeout")] = ⟨3, 3, .retry⟩ ∧
    attempts (enqueued 3) [some (.plain "timeout"), some (.plain "timeout"),
        some (.plain "timeout"), none] = ⟨3, 3, .completed⟩ := by
  decide

/-- C21, amended: for errors that do not wrap `asynq.SkipRetry`, a task enqueued with
`maxRetry` is still in the queue, with one recorded retry per failure, after up to
`maxRetry` failed attempts; failure number `maxRetry + 1` archives it, and whatever the
handler would return afterwards it stays Archived (it is not dequeued again); and a
handler error on an attempt with fewer than `MaxRetry` recorded retries puts the task
back in the queue with one more recorded retry. -/
theorem task_archived_after_retries_used_up (maxRetry : Nat) (errs : List GoError)
    (hs : ∀ e ∈ errs, errorsIsSkipRetry e = false) :
    (errs.length ≤ maxRetry →
      attempts (enqueued maxRetry) (errs.map some) =
        ⟨maxRetry, errs.length, if errs = [] then .pending else .retry⟩) ∧
    (errs.length = maxRetry + 1 →
      ∀ later, attempts (enqueued maxRetry) (errs.map some ++ later) =
        ⟨maxRetry, maxRetry, .archived⟩) ∧
    (∀ (t : TaskInfo) (err : GoError), t.State = .pending ∨ t.State = .retry →
      t.Retried < t.MaxRetry → errorsIsSkipRetry err = false →
      attempt t (some err) = ⟨t.MaxRetry, t.Retried + 1, .retry⟩) := by
  refine ⟨?_, ?_, fun t err hq hlt hsk => attempt_error_retry t err hq hlt hsk⟩
  · intro hlen
    have h := attempts_failures errs (enqueued maxRetry) (Or.inl rfl) hs
      (by simp only [enqueued]; omega)
    rw [h]
    simp [enqueued]
  · intro hlen later
    obtain ⟨e, hlast⟩ : ∃ e, errs = errs.dropLast ++ [e] := by
      have hne : errs ≠ [] := by
        intro h0; rw [h0] at hlen; simp at hlen
      exact ⟨errs.getLast hne, (List.dropLast_append_getLast hne).symm⟩
    have hdl : errs.dropLast.length = maxRetry := by
      rw [List.length_dropLast, hlen]; rfl
    have h := attempts_failures errs.dropLast (enqueued maxRetry) (Or.inl rfl)
      (fun x hx => hs x (List.mem_of_mem_dropLast hx))
      (by simp only [enqueued]; omega)
    rw [hlast, List.map_append, List.append_assoc, attempts_append, h]
    simp only [enqueued, Nat.zero_add, hdl, List.map_cons, List.map_nil, List.singleton_append]
    rw [show (some e :: later) = [some e] ++ later from rfl, attempts_append]
    have h3 : attempts ⟨maxRetry, maxRetry,
        if errs.dropLast = [] then TaskState.pending else TaskState.retry⟩ [some e] =
        ⟨maxRetry, maxRetry, .archived⟩ := by
      show attempt _ (some e) = _
      exact attempt_error_archive _ e (by by_cases hd : errs.dropLast = [] <;> simp [hd])
        (Nat.le_refl _)
    rw [h3]
    exact attempts_archived _ later rfl

theorem task_archived_after_retries_used_up_witness :
    (∀ e ∈ [GoError.plain "timeout", .plain "timeout"], errorsIsSkipRetry e = false) ∧
    attempts (enqueued 1) ([GoError.plain "timeout", .plain "timeout"].map some ++ [none]) =
      ⟨1, 1, .archived⟩ :=
  ⟨by decide,
   (task_archived_after_retries_used_up 1 [.plain "timeout", .plain "timeout"]
      (by decide)).2.1 rfl [none]⟩

/-! ### Object ids in text -/

theorem fromHexChar_ascii (c : Char) (h : isHexChar c = true) : c.toNat ≤ 127 := by
  unfold isHexChar fromHexChar at h
  by_contra hc
  rw [if_neg (by omega), if_neg (by omega), if_neg (by omega)] at h
  simp at h

theorem utf8ByteSize_ascii (cs : List Char) (h : ∀ c ∈ cs, c.toNat ≤ 127) :
    String.utf8ByteSize.go cs = cs.length := by
  induction cs with
  | nil => rfl
  | cons c rest ih =>
    have h1 : c.utf8Size = 1 := by
      unfold Char.utf8Size
      have : c.val ≤ 127 := by
        rw [UInt32.le_def]
        exact h c (List.mem_cons_self _ _)
      simp [this]
    simp only [String.utf8ByteSize.go, List.length_cons]
    rw [ih (fun x hx => h x (List.mem_cons_of_mem _ hx)), h1]

theorem hexDecode_some : ∀ (cs : List Char) (bs : List Byte), hexDecode cs = some bs →
    cs.length = 2 * bs.length ∧ ∀ c ∈ cs, isHexChar c = true
  | [], bs, h => by
    simp only [hexDecode, Option.some.injEq] at h
    subst h
    simp
  | [_], bs, h => by simp [hexDecode] at h
  | a :: b :: rest, bs, h => by
    simp only [hexDecode] at h
    cases ha : fromHexChar a with
    | none => simp [ha] at h
    | some x =>
      cases hb : fromHexChar b with
      | none => simp [ha, hb] at h
      | some y =>
        cases hr : hexDecode rest with
        | none => simp [ha, hb, hr] at h
        | some tl =>
          simp only [ha, hb, hr, Option.some.injEq] at h
          subst h
          obtain ⟨hl, hall⟩ := hexDecode_some rest tl hr
          refine ⟨by simp only [List.length_cons]; omega, ?_⟩
          intro c hc
          simp only [List.mem_cons] at hc
          rcases hc with hc | hc | hc
          · subst hc; simp [isHexChar, ha]
          · subst hc; simp [isHexChar, hb]
          · exact hall c hc

theorem hexDecode_of_hex : ∀ (cs : List Char) (n : Nat), cs.length = 2 * n →
    (∀ c ∈ cs, isHexChar c = true) → ∃ bs, hexDecode cs = some bs ∧ bs.length = n
  | [], n, hn, _ => ⟨[], rfl, by simp at hn; simp; omega⟩
  | [_], n, hn, _ => by simp at hn; omega
  | a :: b :: rest, n, hn, hall => by
    simp only [List.length_cons] at hn
    obtain ⟨tl, htl, hlen⟩ := hexDecode_of_hex rest (n - 1) (by omega)
      (fun c hc => hall c (List.mem_cons_of_mem _ (List.mem_cons_of_mem _ hc)))
    have ha := hall a (List.mem_cons_self _ _)
    have hb := hall b (List.mem_cons_of_mem _ (List.mem_cons_self _ _))
    unfold isHexChar at ha hb
    obtain ⟨x, hx⟩ := Option.isSome_iff_exists.mp ha
    obtain ⟨y, hy⟩ := Option.isSome_iff_exists.mp hb
    refine ⟨Fin.ofNat (16 * x + y) :: tl, by simp [hexDecode, hx, hy, htl], ?_⟩
    simp only [List.length_cons]
    omega

theorem ObjectIDFromHex_ok_iff (s : String) :
    (∃ id, ObjectIDFromHex s = .ok id) ↔ wellFormedId s = true := by
  unfold wellFormedId
  simp only [Bool.and_eq_true, decide_eq_true_eq, List.all_eq_true]
  constructor
  · rintro ⟨id, h⟩
    unfold ObjectIDFromHex at h
    split at h
    · simp at h
    · rename_i hsz
      split at h
      · simp at h
      · rename_i bs hbs
        obtain ⟨hl, hall⟩ := hexDecode_some _ _ hbs
        refine ⟨?_, hall⟩
        have := utf8ByteSize_ascii s.toList (fun c hc => fromHexChar_ascii c (hall c hc))
        have h24 : s.utf8ByteSize = 24 := by simpa using hsz
        show s.data.length = 24
        exact this.symm.trans h24
  · rintro ⟨hl, hall⟩
    have hsz : s.utf8ByteSize = 24 := by
      show String.utf8ByteSize.go s.data = 24
      rw [utf8ByteSize_ascii s.data (fun c hc => fromHexChar_ascii c (hall c hc))]
      exact hl
    obtain ⟨bs, hbs, hlen⟩ := hexDecode_of_hex s.toList 12 hl hall
    refine ⟨⟨bs, hlen⟩, ?_⟩
    unfold ObjectIDFromHex
    rw [if_neg (by simp [hsz])]
    simp only [hbs]
    rw [dif_pos hlen]

theorem ObjectIDFromHex_error_of_not_wellFormed (s : String) (h : wellFormedId s = false) :
    ∃ e, ObjectIDFromHex s = .error e := by
  cases hr : ObjectIDFromHex s with
  | error e => exact ⟨e, rfl⟩
  | ok id =>
    have := (ObjectIDFromHex_ok_iff s).mp ⟨id, hr⟩
    rw [h] at this
    exact absurd this (by decide)

/-! ### `GetProductByIdHandler` -/

theorem FindOneInCategory_ok (env : Env) (coll : List Item) (id : ObjectID)
    (category : String) (item : Item)
    (h : FindOneInCategory env coll id category = .ok item) :
    item ∈ coll ∧ item.Id = id ∧ item.Category = category := by
  unfold FindOneInCategory at h
  split at h
  · simp at h
  · split at h
    · simp at h
    · rename_i it hf
      simp only [Except.ok.injEq] at h
      subst h
      have hp := List.find?_some hf
      simp only [Bool.and_eq_true, decide_eq_true_eq] at hp
      exact ⟨List.mem_of_find?_eq_some hf, hp.1, hp.2⟩

theorem FindOneInCategory_none (env : Env) (coll : List Item) (id : ObjectID)
    (category : String) (hread : env.readFault = none)
    (h : ∀ item ∈ coll, item.Id ≠ id ∨ item.Category ≠ category) :
    FindOneInCategory env coll id category = .error .errNoDocuments := by
  unfold FindOneInCategory
  rw [hread]
  have hf : coll.find? (fun it => decide (it.Id = id) && decide (it.Category = category)) =
      none := by
    rw [List.find?_eq_none]
    intro x hx
    rcases h x hx with h1 | h1 <;> simp [h1]
  simp only [hf]

theorem FindOneInCategory_some (env : Env) (coll : List Item) (id : ObjectID)
    (category : String) (hread : env.readFault = none)
    (h : ∃ item ∈ coll, item.Id = id ∧ item.Category = category) :
    ∃ item, FindOneInCategory env coll id category = .ok item := by
  unfold FindOneInCategory
  rw [hread]
  cases hf : coll.find? (fun it => decide (it.Id = id) && decide (it.Category = category)) with
  | some it => exact ⟨it, rfl⟩
  | none =>
    rw [List.find?_eq_none] at hf
    obtain ⟨item, hm, h1, h2⟩ := h
    have := hf item hm
    simp [h1, h2] at this

theorem GetProductByIdHandler_found (env : Env) (r : Request) (store : List Item)
    (id : ObjectID) (item : Item) (hid : ObjectIDFromHex (r.Vars "id") = .ok id)
    (hf : FindOneInCategory env store id (r.Vars "category") = .ok item) :
    GetProductByIdHandler env r store = ResponseHandler (.success (getProduct item)) 200 := by
  simp only [GetProductByIdHandler, hid, hf]

theorem GetProductByIdHandler_200 (env : Env) (r : Request) (store : List Item)
    (id : ObjectID) (b : Body) (hid : ObjectIDFromHex (r.Vars "id") = .ok id)
    (hb : GetProductByIdHandler env r store = .response 200 b) :
    ∃ item, FindOneInCategory env store id (r.Vars "category") = .ok item := by
  simp only [GetProductByIdHandler, hid] at hb
  cases hf : FindOneInCategory env store id (r.Vars "category") with
  | error err =>
    rw [hf] at hb
    simp only at hb
    split at hb <;> simp at hb
  | ok item => exact ⟨item, rfl⟩

/-- C22 fails as stated: an Update whose price part is the text `NaN` stores the price
`NaN`, and a Get of that record by its id and category is then answered with status 200
and no body: the stored record has both the id and the category, and the response does
not carry it. -/
theorem get_nan_price_has_no_body :
    (UpdateProductHandler exEnv (exRequest latteId [exPart "price" "NaN"])
      ⟨[latte], []⟩).2.store = [{ latte with Price := .nan, UpdatedAt := 100 }] ∧
    GetProductByIdHandler exEnv (exGetRequest "beverages" latteId)
      [{ latte with Price := .nan, UpdatedAt := 100 }] = .response 200 .empty := by
  decide

/-- C22, amended: when the database answers, `GetProductByIdHandler` answers 400 with
the parse error for an id that is not 24 hexadecimal digits; for a well-formed id it
answers 200 exactly when a stored record has that id and the category of the path; a
body it sends with the 200 shows, field by field, a stored record of that id and
category; it sends that body when the price and the ratings of the record found are
finite numbers, and no body when one of them is not; and it answers 404 when every
stored record has another id or another category. -/
theorem get_product_by_id_and_category (env : Env) (r : Request) (store : List Item)
    (hread : env.readFault = none) :
    (wellFormedId (r.Vars "id") = false →
      ∃ e, ObjectIDFromHex (r.Vars "id") = .error e ∧
        GetProductByIdHandler env r store = .response 400 (.failed "failed" e)) ∧
    (wellFormedId (r.Vars "id") = true →
      ∃ id, ObjectIDFromHex (r.Vars "id") = .ok id ∧
        ((∃ b, GetProductByIdHandler env r store = .response 200 b) ↔
          ∃ item ∈ store, item.Id = id ∧ item.Category = r.Vars "category") ∧
        (∀ p, GetProductByIdHandler env r store = .response 200 (.success p) →
          ∃ item ∈ store, item.Id = id ∧ item.Category = r.Vars "category" ∧
            showsRecord p item = true) ∧
        ((∃ item ∈ store, item.Id = id ∧ item.Category = r.Vars "category") →
          ∃ item ∈ store, item.Id = id ∧ item.Category = r.Vars "category" ∧
            (item.Price.isFinite = true → item.Ratings.isFinite = true →
              ∃ p, GetProductByIdHandler env r store = .response 200 (.success p) ∧
                showsRecord p item = true) ∧
            ((item.Price.isFinite && item.Ratings.isFinite) = false →
              GetProductByIdHandler env r store = .response 200 .empty)) ∧
        ((∀ item ∈ store, item.Id ≠ id ∨ item.Category ≠ r.Vars "category") →
          GetProductByIdHandler env r store =
            .response 404 (.failed "failed" (.wrap "document not found " .errNoDocuments)))) := by
  constructor
  · intro hwf
    obtain ⟨e, he⟩ := ObjectIDFromHex_error_of_not_wellFormed _ hwf
    exact ⟨e, he, by simp only [GetProductByIdHandler, he]⟩
  · intro hwf
    obtain ⟨id, hid⟩ := (ObjectIDFromHex_ok_iff _).mpr hwf
    have hshow : ∀ item : Item, showsRecord (getProduct item) item = true := by
      intro item
      simp [showsRecord, getProduct]
    have henc : ∀ item : Item, (Body.success (getProduct item)).encodable =
        (item.Price.isFinite && item.Ratings.isFinite) := fun _ => rfl
    refine ⟨id, hid, ⟨?_, ?_⟩, ?_, ?_, ?_⟩
    · rintro ⟨b, hb⟩
      obtain ⟨item, hf⟩ := GetProductByIdHandler_200 env r store id b hid hb
      obtain ⟨hm, h1, h2⟩ := FindOneInCategory_ok env store id _ item hf
      exact ⟨item, hm, h1, h2⟩
    · intro hex
      obtain ⟨item, hf⟩ := FindOneInCategory_some env store id _ hread hex
      rw [GetProductByIdHandler_found env r store id item hid hf, ResponseHandler]
      split
      · exact ⟨_, rfl⟩
      · exact ⟨_, rfl⟩
    · intro p hp
      obtain ⟨item, hf⟩ := GetProductByIdHandler_200 env r store id _ hid hp
      obtain ⟨hm, h1, h2⟩ := FindOneInCategory_ok env store id _ item hf
      rw [GetProductByIdHandler_found env r store id item hid hf, ResponseHandler] at hp
      split at hp
      · simp only [Outcome.response.injEq, Body.success.injEq, true_and] at hp
        exact ⟨item, hm, h1, h2, by rw [← hp]; exact hshow item⟩
      · simp at hp
    · intro hex
      obtain ⟨item, hf⟩ := FindOneInCategory_some env store id _ hread hex
      obtain ⟨hm, h1, h2⟩ := FindOneInCategory_ok env store id _ item hf
      have hresp := GetProductByIdHandler_found env r store id item hid hf
      refine ⟨item, hm, h1, h2, ?_, ?_⟩
      · intro hp hr
        refine ⟨getProduct item, ?_, hshow item⟩
        rw [hresp, ResponseHandler, henc, hp, hr]
        rfl
      · intro hnot
        rw [hresp, ResponseHandler, henc, hnot]
        rfl
    · intro hnone
      have hf := FindOneInCategory_none env store id _ hread hnone
      simp only [GetProductByIdHandler, hid, hf, if_true]

theorem get_product_by_id_and_category_witness :
    exEnv.readFault = none ∧
    (∃ p, GetProductByIdHandler exEnv (exGetRequest "beverages" latteId) [latte] =
      .response 200 (.success p) ∧ showsRecord p latte = true) ∧
    GetProductByIdHandler exEnv (exGetRequest "beverage" latteId) [latte] =
      .response 404 (.failed "failed" (.wrap "document not found " .errNoDocuments)) ∧
    (∃ e, GetProductByIdHandler exEnv (exGetRequest "beverage" "65bcc06cbc9") [latte] =
      .response 400 (.failed "failed" e)) :=
  ⟨rfl, ⟨getProduct latte, by decide, by decide⟩, by decide,
   ((get_product_by_id_and_category exEnv (exGetRequest "beverage" "65bcc06cbc9") [latte]
      rfl).1 (by decide)).imp (fun _ h => h.2)⟩

/-! ### Batch upload -/

theorem PutObject_ok (pr : Processor) (store : ObjectStore) (p : PayloadUploadImage)
    (h : pr.s3.putFault store (uploadObject pr p) = none) :
    PutObject pr.s3 store
        ⟨pr.bucketName, p.ObjectKey, p.Image, "public-read", "image/" ++ p.Extension⟩ =
      .ok (withObject pr store p) := by
  unfold uploadObject at h
  simp only [PutObject, h]
  rfl

theorem PutObject_fails (pr : Processor) (store : ObjectStore) (p : PayloadUploadImage)
    (msg : String) (h : pr.s3.putFault store (uploadObject pr p) = some msg) :
    PutObject pr.s3 store
        ⟨pr.bucketName, p.ObjectKey, p.Image, "public-read", "image/" ++ p.Extension⟩ =
      .error (.plain msg) := by
  unfold uploadObject at h
  simp only [PutObject, h]

theorem everyPutSucceeds_cons (pr : Processor) (store : ObjectStore) (p : PayloadUploadImage)
    (rest : List PayloadUploadImage) :
    everyPutSucceeds pr store (p :: rest) = true ↔
      pr.s3.putFault store (uploadObject pr p) = none ∧
        everyPutSucceeds pr (withObject pr store p) rest = true := by
  simp [everyPutSucceeds, Option.isNone_iff_eq_none]

theorem UploadMultipleImages_ok (pr : Processor) (ps : List PayloadUploadImage) :
    ∀ store, everyPutSucceeds pr store ps = true →
      UploadMultipleImages pr.s3 pr.bucketName store ps = (none, withObjects pr store ps) := by
  induction ps with
  | nil => intro store _; rfl
  | cons p rest ih =>
    intro store h
    obtain ⟨h1, h2⟩ := (everyPutSucceeds_cons pr store p rest).mp h
    simp only [UploadMultipleImages, PutObject_ok pr store p h1]
    exact ih _ h2

theorem UploadMultipleImages_none (pr : Processor) (ps : List PayloadUploadImage) :
    ∀ store, (UploadMultipleImages pr.s3 pr.bucketName store ps).1 = none →
      everyPutSucceeds pr store ps = true := by
  induction ps with
  | nil => intro store _; rfl
  | cons p rest ih =>
    intro store h
    cases hf : pr.s3.putFault store (uploadObject pr p) with
    | some msg =>
      simp [UploadMultipleImages, PutObject_fails pr store p msg hf] at h
    | none =>
      simp only [UploadMultipleImages, PutObject_ok pr store p hf] at h
      exact (everyPutSucceeds_cons pr store p rest).mpr ⟨hf, ih _ h⟩

theorem UploadMultipleImages_append (pr : Processor) (pre : List PayloadUploadImage) :
    ∀ store rest, everyPutSucceeds pr store pre = true →
      UploadMultipleImages pr.s3 pr.bucketName store (pre ++ rest) =
        UploadMultipleImages pr.s3 pr.bucketName (withObjects pr store pre) rest := by
  induction pre with
  | nil => intro store rest _; rfl
  | cons p tl ih =>
    intro store rest h
    obtain ⟨h1, h2⟩ := (everyPutSucceeds_cons pr store p tl).mp h
    simp only [List.cons_append, UploadMultipleImages, PutObject_ok pr store p h1]
    exact ih _ rest h2

theorem GetObject_withObject_self (pr : Processor) (store : ObjectStore)
    (p : PayloadUploadImage) :
    GetObject (withObject pr store p) pr.bucketName p.ObjectKey = some (uploadObject pr p) := by
  simp [GetObject, withObject, uploadObject, S3Object.isAt]

theorem GetObject_withObject_other (pr : Processor) (store : ObjectStore)
    (p : PayloadUploadImage) (key : String) (h : p.ObjectKey ≠ key) :
    GetObject (withObject pr store p) pr.bucketName key = GetObject store pr.bucketName key := by
  unfold GetObject withObject
  have h1 : (uploadObject pr p).isAt pr.bucketName key = false := by
    simp [uploadObject, S3Object.isAt, h]
  rw [List.find?_cons, h1]
  simp only
  induction store with
  | nil => rfl
  | cons o rest ih =>
    by_cases ho : o.isAt pr.bucketName p.ObjectKey = true
    · have hk : o.isAt pr.bucketName key = false := by
        simp only [S3Object.isAt, Bool.and_eq_true, decide_eq_true_eq] at ho
        simp only [S3Object.isAt, Bool.and_eq_false_iff, decide_eq_false_iff_not]
        right
        rw [ho.2]
        exact h
      rw [List.filter_cons, if_neg (by simp [ho]), List.find?_cons, hk]
      exact ih
    · rw [List.filter_cons, if_pos (by simpa using ho), List.find?_cons, List.find?_cons]
      cases hk : o.isAt pr.bucketName key with
      | true => rfl
      | false => exact ih

theorem GetObject_withObjects_other (pr : Processor) (ps : List PayloadUploadImage)
    (key : String) (h : ∀ p ∈ ps, p.ObjectKey ≠ key) :
    ∀ store, GetObject (withObjects pr store ps) pr.bucketName key =
      GetObject store pr.bucketName key := by
  induction ps with
  | nil => intro store; rfl
  | cons p rest ih =>
    intro store
    show GetObject (withObjects pr (withObject pr store p) rest) pr.bucketName key = _
    rw [ih (fun q hq => h q (List.mem_cons_of_mem _ hq)),
      GetObject_withObject_other pr store p key (h p (List.mem_cons_self _ _))]

theorem GetObject_withObjects_mem (pr : Processor) (ps : List PayloadUploadImage)
    (hnd : (ps.map PayloadUploadImage.ObjectKey).Nodup) :
    ∀ store, ∀ p ∈ ps,
      GetObject (withObjects pr store ps) pr.bucketName p.ObjectKey =
        some (uploadObject pr p) := by
  induction ps with
  | nil => intro store p hp; simp at hp
  | cons q rest ih =>
    intro store p hp
    simp only [List.map_cons, List.nodup_cons, List.mem_map, not_exists, not_and] at hnd
    show GetObject (withObjects pr (withObject pr store q) rest) pr.bucketName p.ObjectKey = _
    rcases List.mem_cons.mp hp with rfl | hmem
    · rw [GetObject_withObjects_other pr rest p.ObjectKey (fun x hx => hnd.1 x hx)]
      exact GetObject_withObject_self pr store p
    · exact ih hnd.2 _ p hmem

/-- C23: on a decoded payload `ProcessTaskMultipleUploadS3Object` returns no error
exactly when every put, made in payload order, succeeds, and then leaves the store with
the images put in that order; when the put of `pi` is the first to fail it returns the
wrapped error of that put with the store holding the puts of the images before `pi` and
nothing done for the images after it; and a run of the handler on the same payload and
that store by a gateway whose puts succeed returns no error and leaves, for payloads of
distinct keys, every one of the images readable under its key. -/
theorem batch_upload_retries_whole_batch (pr : Processor) (ps : List PayloadUploadImage)
    (store : ObjectStore) :
    ((ProcessTaskMultipleUploadS3Object pr (.ok ps) store).1 = none ↔
      everyPutSucceeds pr store ps = true) ∧
    (everyPutSucceeds pr store ps = true →
      ProcessTaskMultipleUploadS3Object pr (.ok ps) store = (none, withObjects pr store ps)) ∧
    (∀ pre pi post msg, ps = pre ++ pi :: post → everyPutSucceeds pr store pre = true →
      pr.s3.putFault (withObjects pr store pre) (uploadObject pr pi) = some msg →
      ProcessTaskMultipleUploadS3Object pr (.ok ps) store =
        (some (.wrap "error occured while uploading the image to AWS s3 bucket " (.plain msg)),
          withObjects pr store pre) ∧
      ∀ pr2 : Processor, pr2.bucketName = pr.bucketName →
        (∀ st o, pr2.s3.putFault st o = none) →
        ProcessTaskMultipleUploadS3Object pr2 (.ok ps) (withObjects pr store pre) =
          (none, withObjects pr2 (withObjects pr store pre) ps) ∧
        ((ps.map PayloadUploadImage.ObjectKey).Nodup → ∀ p ∈ ps,
          GetObject (withObjects pr2 (withObjects pr store pre) ps) pr.bucketName p.ObjectKey =
            some (uploadObject pr p))) := by
  refine ⟨⟨UploadMultipleImages_none pr ps store, fun h => ?_⟩,
    UploadMultipleImages_ok pr ps store, ?_⟩
  · show (UploadMultipleImages pr.s3 pr.bucketName store ps).1 = none
    rw [UploadMultipleImages_ok pr ps store h]
  · intro pre pi post msg hps hpre hfail
    constructor
    · show UploadMultipleImages pr.s3 pr.bucketName store ps = _
      rw [hps, UploadMultipleImages_append pr pre store (pi :: post) hpre]
      simp only [UploadMultipleImages, PutObject_fails pr _ pi msg hfail]
    · intro pr2 hb hok
      have hall : ∀ (qs : List PayloadUploadImage) st, everyPutSucceeds pr2 st qs = true := by
        intro qs
        induction qs with
        | nil => intro st; rfl
        | cons q tl ih =>
          intro st
          exact (everyPutSucceeds_cons pr2 st q tl).mpr ⟨hok _ _, ih _⟩
      refine ⟨UploadMultipleImages_ok pr2 ps _ (hall ps _), ?_⟩
      intro hnd p hp
      have := GetObject_withObjects_mem pr2 ps hnd (withObjects pr store pre) p hp
      rw [hb] at this
      rw [this]
      simp [uploadObject, hb]

theorem batch_upload_retries_whole_batch_witness :
    ProcessTaskMultipleUploadS3Object exFailsOnB (.ok exBatch) [] =
      (some (.wrap "error occured while uploading the image to AWS s3 bucket "
          (.plain "RequestTimeout")),
        [⟨"coffeeshop", "images/products/beverages/a.png", "PNGa", "public-read",
          "image/png"⟩]) ∧
    ∀ p ∈ exBatch,
      GetObject (withObjects exProcessor (withObjects exFailsOnB [] (exBatch.take 1)) exBatch)
        "coffeeshop" p.ObjectKey = some (uploadObject exFailsOnB p) :=
  have h := (batch_upload_retries_whole_batch exFailsOnB exBatch []).2.2
    (exBatch.take 1) ⟨"PNGb", "images/products/beverages/b.png", "png"⟩
    (exBatch.drop 2) "RequestTimeout" rfl
    rfl
    rfl
  ⟨h.1, (h.2 exProcessor rfl (fun _ _ => rfl)).2 (by decide)⟩

/-! ### `ImageProcessor` -/

theorem splitChars_no_sep (sep : Char) (cs : List Char) (h : sep ∉ cs) :
    strings.splitChars sep cs = [cs] := by
  induction cs with
  | nil => rfl
  | cons c rest ih =>
    simp only [List.mem_cons, not_or] at h
    have hc : c ≠ sep := fun e => h.1 e.symm
    simp [strings.splitChars, hc, ih h.2]

theorem splitChars_append (sep : Char) (a b : List Char) (h : sep ∉ a) :
    strings.splitChars sep (a ++ sep :: b) = a :: strings.splitChars sep b := by
  induction a with
  | nil => simp [strings.splitChars]
  | cons c rest ih =>
    simp only [List.mem_cons, not_or] at h
    have hc : c ≠ sep := fun e => h.1 e.symm
    simp [strings.splitChars, hc, ih h.2]

theorem Split_type_subtype (t sub : String) (ht : '/' ∉ t.toList) (hsub : '/' ∉ sub.toList) :
    strings.Split (t ++ "/" ++ sub) '/' = [t, sub] := by
  unfold strings.Split
  have h : (t ++ "/" ++ sub).toList = t.toList ++ '/' :: sub.toList := by
    simp [String.toList, String.data_append]
  rw [h, splitChars_append '/' _ _ ht, splitChars_no_sep '/' _ hsub]
  rfl

/-- C24: for content `d` read in full whose detected content type is `t/sub` (one
slash) and a token generated from the random bytes, `ImageProcessor` returns an error
exactly when `t` differs from the required type, the error being the invalid-file
error; when `t` is the required type it returns the data `d`, the extension `sub` and
the file name `token.sub`, the token being the bytes printed in hexadecimal. -/
theorem image_processor_accepts_required_type (env : Env) (d : String) (rb : RandomBytes)
    (required t sub : String) (hct : env.DetectContentType d = t ++ "/" ++ sub)
    (ht : '/' ∉ t.toList) (hsub : '/' ∉ sub.toList) :
    ((∃ e, ImageProcessor env (.ok d) (.ok rb) required = .error e) ↔ t ≠ required) ∧
    (t ≠ required →
      ImageProcessor env (.ok d) (.ok rb) required = .error (invalidFile required)) ∧
    (t = required →
      genObjectToken (.ok rb) = .ok (hexEncode rb.bytes) ∧
      ImageProcessor env (.ok d) (.ok rb) required =
        .ok ⟨d, hexEncode rb.bytes ++ "." ++ sub, sub⟩) := by
  have hsplit := Split_type_subtype t sub ht hsub
  have hne : t ≠ required →
      ImageProcessor env (.ok d) (.ok rb) required = .error (invalidFile required) := by
    intro h
    simp [ImageProcessor, hct, hsplit, h]
  have heq : t = required →
      ImageProcessor env (.ok d) (.ok rb) required =
        .ok ⟨d, hexEncode rb.bytes ++ "." ++ sub, sub⟩ := by
    intro h
    subst h
    simp [ImageProcessor, hct, hsplit, genObjectToken]
  refine ⟨⟨?_, fun h => ⟨_, hne h⟩⟩, hne, fun h => ⟨rfl, heq h⟩⟩
  rintro ⟨e, he⟩ h
  rw [heq h] at he
  simp at he

theorem image_processor_accepts_required_type_witness :
    ImageProcessor exEnv (.ok "PNGdata") (.ok exRand) "image" =
      .ok ⟨"PNGdata", hexEncode exRand.bytes ++ "." ++ "png", "png"⟩ ∧
    ImageProcessor exEnv (.ok "PNGdata") (.ok exRand) "video" = .error (invalidFile "video") :=
  ⟨((image_processor_accepts_required_type exEnv "PNGdata" exRand "image" "image" "png"
      (by decide) (by decide) (by decide)).2.2 rfl).2,
   (image_processor_accepts_required_type exEnv "PNGdata" exRand "video" "image" "png"
      (by decide) (by decide) (by decide)).2.1 (by decide)⟩

/-! ### The error mapping of Create and Update -/

theorem createErrorResponse_wrap (msg : String) (inner : GoError) :
    createErrorResponse (.wrap msg inner) = .panic := by
  unfold createErrorResponse
  split
  · rfl
  · rfl

theorem updateErrorResponse_wrap (msg : String) (inner : GoError) :
    updateErrorResponse (.wrap msg inner) = .panic := by
  unfold updateErrorResponse
  split
  · rfl
  · split
    · simp
    · rfl

/-- C25 fails in the code: the error mappings of `CreateProductHandler` and
`UpdateProductHandler` panic on every plain error and on every wrapped error (the
assertion `err.(validator.ValidationErrors)`), on a write exception whose first code is
not 11000 (here 121) and, in Create, on `mongo.ErrNoDocuments`; the 500 of the default
branch is written only for an empty `validator.ValidationErrors` value; and so a Create
request with an unparsable price and an Update request with a malformed id get no
response at all. -/
theorem error_mapping_panics :
    (∀ msg, createErrorResponse (.plain msg) = .panic ∧
      updateErrorResponse (.plain msg) = .panic) ∧
    (∀ msg inner, createErrorResponse (.wrap msg inner) = .panic ∧
      updateErrorResponse (.wrap msg inner) = .panic) ∧
    createErrorResponse (.writeException [121]) = .panic ∧
    updateErrorResponse (.writeException [121]) = .panic ∧
    createErrorResponse .errNoDocuments = .panic ∧
    (∀ err, (∃ b, createErrorResponse err = .response 500 b) ↔ err = .validationErrors []) ∧
    (∀ err, (∃ b, updateErrorResponse err = .response 500 b) ↔ err = .validationErrors []) ∧
    (createCallback exEnv (exRequest "" [exPart "price" "abc"]) ⟨[], []⟩).result =
      .error (numError "ParseFloat" "abc") ∧
    (CreateProductHandler exEnv (exRequest "" [exPart "price" "abc"]) ⟨[], []⟩).1 = .panic ∧
    (updateCallback exEnv (exRequest "65bcc06cbc9" []) ⟨[latte], []⟩).result =
      .error (.plain "the provided hex string is not a valid ObjectID") ∧
    (UpdateProductHandler exEnv (exRequest "65bcc06cbc9" []) ⟨[latte], []⟩).1 = .panic := by
  refine ⟨fun msg => ⟨rfl, rfl⟩,
    fun msg inner => ⟨createErrorResponse_wrap msg inner, updateErrorResponse_wrap msg inner⟩,
    by decide, by decide, by decide, ?_, ?_, by decide, by decide, by decide, by decide⟩
  · intro err
    constructor
    · rintro ⟨b, hb⟩
      unfold createErrorResponse at hb
      repeat' split at hb
      all_goals first | (simp at hb; done) | rfl
    · rintro rfl
      exact ⟨_, rfl⟩
  · intro err
    constructor
    · rintro ⟨b, hb⟩
      unfold updateErrorResponse at hb
      repeat' split at hb
      all_goals first | (simp at hb; done) | rfl
    · rintro rfl
      exact ⟨_, rfl⟩

/-! ### The old thumbnail in Update -/

theorem updateLoop_append (env : Env) (item : Item) (tl : Option String) (rest : List Part) :
    ∀ (pre : List Part) (st st1 : UpdateSt),
      updateLoop env item st pre none = .next st1 →
      updateLoop env item st (pre ++ rest) tl = updateLoop env item st1 rest tl := by
  intro pre
  induction pre with
  | nil =>
    intro st st1 h
    simp [updateLoop] at h
    subst h
    rfl
  | cons p ps ih =>
    intro st st1 h
    rw [updateLoop] at h
    rw [List.cons_append, updateLoop]
    cases hp : updatePart env item st p with
    | next st2 =>
      rw [hp] at h
      exact ih st2 st1 h
    | abort e q => rw [hp] at h; simp at h
    | crash q => rw [hp] at h; simp at h

theorem updateLoop_queueWith_no_thumbnail (env : Env) (item : Item) (tl : Option String) :
    ∀ (parts : List Part) (st : UpdateSt),
      (∀ p ∈ parts, p.FormName ≠ "thumbnail") →
      (updateLoop env item st parts tl).queueWith UpdateSt.queue = st.queue := by
  intro parts
  induction parts with
  | nil =>
    intro st _
    cases tl <;> rfl
  | cons p ps ih =>
    intro st hno
    rw [updateLoop]
    have hq := updatePart_queue_of_ne_thumbnail env item st p (hno p (List.mem_cons_self p ps))
    cases hp : updatePart env item st p with
    | next st2 =>
      rw [hp] at hq
      simp only [Flow.queueWith] at hq
      simp only
      rw [ih st2 (fun q hq2 => hno q (List.mem_cons_of_mem p hq2)), hq]
    | abort e q => rw [hp] at hq; exact hq
    | crash q => rw [hp] at hq; exact hq

theorem updateCallback_queue (env : Env) (r : Request) (sys : Sys) (id : ObjectID)
    (old : Item) (body : Multipart) (hid : ObjectIDFromHex (r.Vars "id") = .ok id)
    (hfind : FindOne env sys.store id = .ok old) (hb : r.body = .ok body) :
    (updateCallback env r sys).queue =
      (updateLoop env old ⟨[], sys.queue⟩ body.parts body.tailErr).queueWith
        UpdateSt.queue := by
  simp only [updateCallback, hid, hfind, hb]
  cases hl : updateLoop env old ⟨[], sys.queue⟩ body.parts body.tailErr with
  | abort e q => rfl
  | crash q => rfl
  | next st =>
    simp only [Flow.queueWith]
    repeat' split
    all_goals rfl

theorem updatePart_rejected_thumbnail (env : Env) (item : Item) (st : UpdateSt) (p : Part)
    (d : String) (e : GoError) (hname : p.FormName = "thumbnail") (hd : p.data = .ok d)
    (henq : ∀ t, env.enqueueFault st.queue t = none)
    (hrej : ImageProcessor env (.ok d) p.rand "image" = .error e) :
    updatePart env item st p = .abort e (st.queue ++ deleteOldTask item) := by
  unfold updatePart
  simp only [hname, show ¬ ("thumbnail" = "name") by decide,
    show ¬ ("thumbnail" = "summary") by decide, show ¬ ("thumbnail" = "description") by decide,
    show ¬ ("thumbnail" = "price") by decide, show ¬ ("thumbnail" = "ingridients") by decide,
    if_false, if_true, hd]
  by_cases ht : item.Thumbnail ≠ ""
  · simp only [if_pos ht, S3ObjectDeleteTask, enqueue, henq, hrej, deleteOldTask]
  · simp only [if_neg ht, hrej, deleteOldTask, List.append_nil]

/-- C26 fails on the code: an Update of the stored product whose thumbnail part is text,
not an image, ends without a response and without a change of the store, so the record
still references `images/products/thumbnails/old.png`, and the task that deletes that
key is in the queue; the same holds when the new thumbnail is an image and the queue
refuses its upload task.  `CreateProductHandler` checks the same part before it
enqueues anything: on a text thumbnail it leaves the queue as it was. -/
theorem update_rejected_thumbnail_deletes_old :
    UpdateProductHandler exEnv (exRequest latteId [exPart "thumbnail" "hello"]) ⟨[latte], []⟩ =
      (.panic, ⟨[latte],
        [⟨"delete_s3_object", .deleteKeys ["images/products/thumbnails/old.png"],
          deleteOldOpts⟩]⟩) ∧
    latte.Thumbnail = "images/products/thumbnails/old.png" ∧
    UpdateProductHandler exUploadRefused (exRequest latteId [exPart "thumbnail" "PNGnew"])
        ⟨[latte], []⟩ =
      (.panic, ⟨[latte],
        [⟨"delete_s3_object", .deleteKeys ["images/products/thumbnails/old.png"],
          deleteOldOpts⟩]⟩) ∧
    (CreateProductHandler exEnv
      (exRequest "" [exPart "name" "Mocha", exPart "thumbnail" "hello"]) ⟨[latte], []⟩).2 =
      ⟨[latte], []⟩ := by
  decide

/-- C27 fails on the code: for a stored record with one image key and an empty
thumbnail, the delete task `DeleteProductByIdHandler` enqueues carries the image key
followed by the empty string, where `UpdateProductHandler` enqueues no delete task at
all for the empty thumbnail of the same record; and for every record the last key of
the payload is its thumbnail, empty or not. -/
theorem delete_payload_has_empty_key :
    (DeleteProductByIdHandler exEnv (exRequest latteId []) ⟨[exNoThumbnail], []⟩).2.queue =
      [⟨"delete_s3_object", .deleteKeys ["images/products/beverages/x.png", ""],
        deleteRecordOpts⟩] ∧
    (DeleteProductByIdHandler exEnv (exRequest latteId []) ⟨[exNoThumbnail], []⟩).1 =
      .response 204 .empty ∧
    (UpdateProductHandler exEnv (exRequest latteId [exPart "thumbnail" "PNGnew"])
      ⟨[exNoThumbnail], []⟩).2.queue =
      [uploadTask ⟨"PNGnew",
        "images/products/thumbnails/abababababababababababababababab.png", "png"⟩] ∧
    (∀ product : Item, (deleteRecordTask { product with Thumbnail := "" }).payload =
      .deleteKeys (product.Images ++ [""])) := by
  refine ⟨by decide, by decide, by decide, fun _ => rfl⟩

/-! ### Password encoding -/

theorem fromHexChar_hexDigit : ∀ n : Fin 16, fromHexChar (hexDigit n.val) = some n.val := by
  decide

theorem hexDecode_hexByte (b : Byte) (rest : List Char) (bs : List Byte)
    (h : hexDecode rest = some bs) : hexDecode (hexByte b ++ rest) = some (b :: bs) := by
  have h1 := fromHexChar_hexDigit ⟨b.val / 16, by omega⟩
  have h2 := fromHexChar_hexDigit ⟨b.val % 16, by omega⟩
  simp only at h1 h2
  have hb : (Fin.ofNat (16 * (b.val / 16) + b.val % 16) : Byte) = b := by
    apply Fin.ext
    simp only [Fin.ofNat]
    have := b.isLt
    omega
  show hexDecode (hexDigit (b.val / 16) :: hexDigit (b.val % 16) :: rest) = some (b :: bs)
  simp only [hexDecode, h1, h2, h, hb]

theorem hexDecode_hexEncode (bs : List Byte) : hexDecode (hexEncode bs).toList = some bs := by
  unfold hexEncode
  show hexDecode (bs.flatMap hexByte) = some bs
  induction bs with
  | nil => rfl
  | cons b rest ih =>
    rw [List.flatMap_cons]
    exact hexDecode_hexByte b _ rest ih

theorem hexEncode_injective (a b : List Byte) (h : hexEncode a = hexEncode b) : a = b := by
  have ha := hexDecode_hexEncode a
  rw [h, hexDecode_hexEncode b] at ha
  exact (Option.some.inj ha).symm

theorem hexEncode_append (a b : List Byte) :
    hexEncode (a ++ b) = hexEncode a ++ hexEncode b := by
  unfold hexEncode
  rw [List.flatMap_append]
  rfl

theorem hexEncode_length (bs : List Byte) : (hexEncode bs).length = 2 * bs.length := by
  unfold hexEncode
  show (bs.flatMap hexByte).length = 2 * bs.length
  induction bs with
  | nil => rfl
  | cons b rest ih =>
    rw [List.flatMap_cons, List.length_append, ih]
    simp only [hexByte, List.length_cons, List.length_nil]
    omega

/-- C28: `PasswordEncryption p` is the lowercase hexadecimal text of `p` followed by
the 64 hexadecimal digits of the SHA-256 digest of the empty input; its length is
`2 * len p + 64`; it is injective in `p`; decoding its first `2 * len p` characters
gives `p` back; and `ComparePasswordEncryption p (PasswordEncryption q)` holds exactly
when `p = q`. -/
theorem password_encryption_is_reversible (p q : List Byte) :
    PasswordEncryption p = hexEncode p ++ hexEncode sha256Empty ∧
    hexEncode sha256Empty =
      "e3b0c44298fc1c149afbf4c8996fb92427ae41e4649b934ca495991b7852b855" ∧
    (hexEncode sha256Empty).length = 64 ∧
    (PasswordEncryption p).length = 2 * p.length + 64 ∧
    (PasswordEncryption p = PasswordEncryption q ↔ p = q) ∧
    hexDecode ((PasswordEncryption p).toList.take (2 * p.length)) = some p ∧
    (ComparePasswordEncryption p (PasswordEncryption q) = true ↔ p = q) := by
  have happ : PasswordEncryption p = hexEncode p ++ hexEncode sha256Empty :=
    hexEncode_append p sha256Empty
  have hinj : PasswordEncryption p = PasswordEncryption q ↔ p = q := by
    constructor
    · intro h
      have := hexEncode_injective _ _ h
      exact List.append_cancel_right this
    · rintro rfl
      rfl
  refine ⟨happ, by decide, by decide, ?_, hinj, ?_, ?_⟩
  · unfold PasswordEncryption newHashSum
    rw [hexEncode_length, List.length_append]
    simp only [sha256Empty, List.length_cons, List.length_nil]
    omega
  · rw [happ]
    have h1 : (hexEncode p ++ hexEncode sha256Empty).toList =
        (hexEncode p).toList ++ (hexEncode sha256Empty).toList := by
      simp [String.toList, String.data_append]
    have h2 : (hexEncode p).toList.length = 2 * p.length := hexEncode_length p
    rw [h1, ← h2, List.take_left']
    · exact hexDecode_hexEncode p
    · rfl
  · unfold ComparePasswordEncryption
    rw [decide_eq_true_eq]
    exact hinj

/-! ### `ExtractProductsID` -/

theorem ObjectIDFromHex_parsedId (s : String) (h : wellFormedId s = true) :
    ObjectIDFromHex s = .ok (parsedId s) := by
  obtain ⟨id, hid⟩ := (ObjectIDFromHex_ok_iff s).mpr h
  simp only [parsedId, hid]

theorem extractLoop_ok (items : List OrderParam) :
    ∀ ids products, (∀ o ∈ items, wellFormedId o.Product = true) →
      extractLoop ids products items =
        .ok (ids ++ items.map (fun o => parsedId o.Product),
          products ++ items.map (fun o => ⟨parsedId o.Product, o.Quantity⟩)) := by
  induction items with
  | nil => intro ids products _; simp [extractLoop]
  | cons o rest ih =>
    intro ids products h
    have ho := ObjectIDFromHex_parsedId o.Product (h o (List.mem_cons_self _ _))
    simp only [extractLoop, ho]
    rw [ih _ _ (fun x hx => h x (List.mem_cons_of_mem _ hx))]
    simp

theorem extractLoop_wellFormed (items : List OrderParam) :
    ∀ ids products out, extractLoop ids products items = .ok out →
      ∀ o ∈ items, wellFormedId o.Product = true := by
  induction items with
  | nil => intro _ _ _ _ o ho; simp at ho
  | cons x rest ih =>
    intro ids products out h o ho
    simp only [extractLoop] at h
    cases hx : ObjectIDFromHex x.Product with
    | error e => simp [hx] at h
    | ok id =>
      simp only [hx] at h
      rcases List.mem_cons.mp ho with rfl | hmem
      · exact (ObjectIDFromHex_ok_iff _).mp ⟨id, hx⟩
      · exact ih _ _ out h o hmem

theorem extractLoop_error (pre : List OrderParam) (o : OrderParam) (post : List OrderParam)
    (e : GoError) (ho : ObjectIDFromHex o.Product = .error e) :
    ∀ ids products, (∀ x ∈ pre, wellFormedId x.Product = true) →
      extractLoop ids products (pre ++ o :: post) = .error e := by
  induction pre with
  | nil => intro ids products _; simp only [List.nil_append, extractLoop, ho]
  | cons x rest ih =>
    intro ids products h
    have hx := ObjectIDFromHex_parsedId x.Product (h x (List.mem_cons_self _ _))
    simp only [List.cons_append, extractLoop, hx]
    exact ih _ _ (fun y hy => h y (List.mem_cons_of_mem _ hy))

/-- C29: `ExtractProductsID` succeeds exactly when the product of every item is a
well-formed object id (24 hexadecimal digits); it then returns, in input order, the
ids the products parse to and the items made of those ids and the quantities of the
order, both lists as long as the order; and when an item is malformed and all items
before it are well-formed, it returns the parse error of that item and no lists. -/
theorem extract_products_id_in_order (items : List OrderParam) :
    ((∃ out, ExtractProductsID items = .ok out) ↔
      ∀ o ∈ items, wellFormedId o.Product = true) ∧
    (∀ ids products, ExtractProductsID items = .ok (ids, products) →
      ids = items.map (fun o => parsedId o.Product) ∧
      products = items.map (fun o => ⟨parsedId o.Product, o.Quantity⟩) ∧
      ids.length = items.length ∧ products.length = items.length ∧
      (∀ o ∈ items, ObjectIDFromHex o.Product = .ok (parsedId o.Product)) ∧
      products.map OrderItem.Product = ids ∧
      products.map OrderItem.Quantity = items.map OrderParam.Quantity) ∧
    (∀ pre o post e, items = pre ++ o :: post →
      (∀ x ∈ pre, wellFormedId x.Product = true) →
      ObjectIDFromHex o.Product = .error e → ExtractProductsID items = .error e) := by
  refine ⟨⟨?_, ?_⟩, ?_, ?_⟩
  · rintro ⟨out, h⟩
    exact extractLoop_wellFormed items [] [] out h
  · intro h
    exact ⟨_, extractLoop_ok items [] [] h⟩
  · intro ids products h
    have hwf := extractLoop_wellFormed items [] [] _ h
    have hok := extractLoop_ok items [] [] hwf
    unfold ExtractProductsID at h
    rw [hok] at h
    simp only [List.nil_append, Except.ok.injEq, Prod.mk.injEq] at h
    obtain ⟨h1, h2⟩ := h
    subst h1
    subst h2
    refine ⟨rfl, rfl, by simp, by simp, ?_, by simp, by simp⟩
    intro o ho
    exact ObjectIDFromHex_parsedId o.Product (hwf o ho)
  · intro pre o post e hitems hpre ho
    rw [hitems]
    exact extractLoop_error pre o post e ho [] [] hpre

theorem extract_products_id_in_order_witness :
    ExtractProductsID exOrder =
      .ok ([⟨List.replicate 12 2, by decide⟩, ⟨List.replicate 12 1, by decide⟩],
        [⟨⟨List.replicate 12 2, by decide⟩, 2⟩, ⟨⟨List.replicate 12 1, by decide⟩, 1⟩]) ∧
    ExtractProductsID (exOrder ++ ⟨"65bcc06cbc9", 3⟩ :: exOrder) =
      .error (.plain "the provided hex string is not a valid ObjectID") :=
  ⟨rfl,
   (extract_products_id_in_order (exOrder ++ ⟨"65bcc06cbc9", 3⟩ :: exOrder)).2.2
     exOrder ⟨"65bcc06cbc9", 3⟩ exOrder _ rfl (by decide) rfl⟩

end Coffeeshop
